import Mathlib

/-!
# InSDL `rect` (include/InSDL/rect.hpp)

A shallow embedding of the `rect` class: the two geometry representations
(`SDL_Rect` with 32-bit `int` fields, `SDL_FRect` with binary32 `float` fields), the
`std::variant` that holds one of them, the colour triple, and every member function of
the class as a state-passing function.

* `int` values are mathematical integers; `int` arithmetic wraps modulo 2^32 (`wrap32`).
* `float` values are finite binary32 numbers, held exactly as an integer number of
  units of 2^-149 (every finite binary32 number is such a multiple).  Conversions and
  sums round to nearest, ties to even (`round24`).  Infinities and NaN do not occur:
  every value the class stores is a converted `int` or a sum of such values, and the
  pointer position is finite.
* `static_cast<int>` of a `float` truncates toward zero; when the truncated value does
  not fit in `int` the language defines no result, and the conversion returns the
  value `F32.indefinite`, which no proof unfolds.
* `std::get<T>` on a variant holding the other alternative throws
  `std::bad_variant_access`; it is the `Fault.bad_variant_access` result here.
* Calls into SDL are recorded as a list of `PaintRequest`s.
* An output stream is the text written to it together with the formatting state that
  the insertions depend on: the field width, the fill character, the adjustment, and
  what the stream writes for an `int` and for a `float` under its flags and locale.
-/

set_option maxRecDepth 100000

namespace InSDL

/-! ## Machine numbers -/

/-- Outcomes other than a normal return. -/
inductive Fault where
  /-- Thrown by `std::get<T>` when the variant holds the other alternative. -/
  | bad_variant_access
  deriving DecidableEq, Repr

deriving instance DecidableEq for Except

/-- Smallest `int`. -/
def INT_MIN : Int := -2147483648

/-- Largest `int`. -/
def INT_MAX : Int := 2147483647

/-- The value is one a 32-bit `int` can hold. -/
def isInt32 (v : Int) : Prop := INT_MIN ≤ v ∧ v ≤ INT_MAX

instance (v : Int) : Decidable (isInt32 v) := by
  unfold isInt32; exact inferInstance

/-- Two's-complement reduction of an integer to the 32-bit `int` range. -/
def wrap32 (v : Int) : Int := (v + 2147483648) % 4294967296 - 2147483648

/-- The conversion `static_cast<Uint8>(v)` of an `int`: reduction modulo 256. -/
def toUint8 (v : Int) : Fin 256 := ⟨(v % 256).toNat, by omega⟩

/-- Spacing of the 24-bit grid at `n`: the least power of two `u` with `n / u < 2^24`,
found by halving (`fuel` bounds the number of halvings). -/
def ulpAux : Nat → Nat → Nat
  | 0, _ => 1
  | fuel + 1, n => if n < 2 ^ 24 then 1 else 2 * ulpAux fuel (n / 2)

/-- Spacing of the 24-bit grid at `n`; `n` halvings always suffice. -/
def ulp (n : Nat) : Nat := ulpAux n n

/-- Round a natural number to the nearest number with at most 24 significant bits,
ties to the even 24-bit significand. -/
def roundNat24 (n : Nat) : Nat :=
  let u := ulp n
  let q := n / u
  let r := n % u
  if 2 * r < u then q * u
  else if u < 2 * r then (q + 1) * u
  else if q % 2 = 0 then q * u
  else (q + 1) * u

/-- Round an integer to the nearest number with at most 24 significant bits, ties to
even; the sign is carried over. -/
def round24 (v : Int) : Int :=
  if v < 0 then -(roundNat24 v.natAbs : Int) else (roundNat24 v.natAbs : Int)

/-- A finite binary32 (`float`) value, held as its exact multiple of 2^-149. -/
structure F32 where
  units : Int
  deriving DecidableEq, Repr

namespace F32

/-- Number of units in 1.0f. -/
def one_units : Int := 2 ^ 149

/-- The value is a binary32 number: rounding leaves it unchanged. -/
def representable (a : F32) : Prop := round24 a.units = a.units

instance (a : F32) : Decidable (representable a) := by
  unfold representable; exact inferInstance

/-- The conversion `static_cast<float>(v)` of an `int`, rounding to nearest even. -/
def ofInt (v : Int) : F32 := ⟨round24 (v * one_units)⟩

/-- The `float` sum `a + b`. -/
def add (a b : F32) : F32 := ⟨round24 (a.units + b.units)⟩

/-- The `float` difference `a - b`. -/
def sub (a b : F32) : F32 := ⟨round24 (a.units - b.units)⟩

/-- The `int` that `static_cast<int>(a)` yields when the truncated value of `a` does not
fit in `int`.  The language leaves it undefined; the value given is the one the x86-64
conversion instruction produces.  It is irreducible: nothing proved here depends on
it. -/
@[irreducible]
def indefinite (_a : F32) : Int := -2147483648

/-- The conversion `static_cast<int>(a)`: truncation toward zero when the truncated
value fits in `int`, and `indefinite a` otherwise. -/
def toInt (a : F32) : Except Fault Int :=
  let t := a.units.tdiv one_units
  if INT_MIN ≤ t ∧ t ≤ INT_MAX then .ok t else .ok (indefinite a)

instance : LT F32 := ⟨fun a b => a.units < b.units⟩

instance : LE F32 := ⟨fun a b => a.units ≤ b.units⟩

instance (a b : F32) : Decidable (a < b) := by
  show Decidable (a.units < b.units); exact inferInstance

instance (a b : F32) : Decidable (a ≤ b) := by
  show Decidable (a.units ≤ b.units); exact inferInstance

end F32

/-! ## Data model -/

/-- The SDL rectangle with `int` fields. -/
structure SDL_Rect where
  x : Int
  y : Int
  w : Int
  h : Int
  deriving DecidableEq, Repr

/-- The SDL rectangle with `float` fields. -/
structure SDL_FRect where
  x : F32
  y : F32
  w : F32
  h : F32
  deriving DecidableEq, Repr

/-- The private `colorStruct`: three `Uint8` channels, each defaulting to 0. -/
structure colorStruct where
  r : Fin 256 := 0
  g : Fin 256 := 0
  b : Fin 256 := 0
  deriving DecidableEq, Repr

/-- The type `variant<SDL_Rect, SDL_FRect>`. -/
inductive variant where
  | ofRect (r : SDL_Rect)
  | ofFRect (r : SDL_FRect)
  deriving DecidableEq, Repr

/-- A value-initialised variant holds its first alternative, zeroed. -/
instance : Inhabited variant := ⟨.ofRect ⟨0, 0, 0, 0⟩⟩

/-- The access `get<SDL_Rect>(v)`. -/
def get_SDL_Rect : variant → Except Fault SDL_Rect
  | .ofRect r => .ok r
  | .ofFRect _ => .error .bad_variant_access

/-- The access `get<SDL_FRect>(v)`. -/
def get_SDL_FRect : variant → Except Fault SDL_FRect
  | .ofFRect r => .ok r
  | .ofRect _ => .error .bad_variant_access

/-- The private `rectData`: the geometry variant and the colour. -/
structure rectData where
  rect : variant := default
  color : colorStruct := {}
  deriving DecidableEq, Repr

/-- The parts of the application object (`app.hpp`) that `rect` reads: the window
surface pointer and the renderer pointer, each null (`none`) or a handle. -/
structure app where
  Surface : Option Nat
  Render : Option Nat
  deriving DecidableEq, Repr

/-- The object behind a `texture *` or `text *`: its SDL texture handle. -/
structure texture where
  tex : Nat
  deriving DecidableEq, Repr

/-- The SDL point passed as the rotation centre. -/
structure SDL_FPoint where
  x : F32
  y : F32
  deriving DecidableEq, Repr

/-- The SDL flip modes. -/
inductive SDL_FlipMode where
  | SDL_FLIP_NONE
  | SDL_FLIP_HORIZONTAL
  | SDL_FLIP_VERTICAL
  deriving DecidableEq, Repr

/-- A call made into SDL, with the arguments the class passes. -/
inductive PaintRequest where
  /-- The call `SDL_FillSurfaceRect(surface, &rect, SDL_MapSurfaceRGB(surface, r, g, b))`. -/
  | fillSurfaceRect (surface : Option Nat) (area : SDL_Rect) (r g b : Fin 256)
  /-- The call `SDL_SetRenderDrawColor(render, r, g, b, 255)`. -/
  | setRenderDrawColor (render : Option Nat) (r g b a : Fin 256)
  /-- The call `SDL_RenderFillRect(render, &rect)`. -/
  | renderFillRect (render : Option Nat) (area : SDL_FRect)
  /-- The call `SDL_RenderTextureRotated(render, texture, nullptr, &rect, deg, &point, mode)`;
  the angle is passed through untouched and is not recorded. -/
  | renderTextureRotated (render : Option Nat) (tex : Nat) (area : SDL_FRect)
      (point : SDL_FPoint) (mode : SDL_FlipMode)
  /-- The call `SDL_RenderTexture(render, texture, nullptr, &rect)`. -/
  | renderTexture (render : Option Nat) (tex : Nat) (area : SDL_FRect)
  deriving DecidableEq, Repr

/-- The class `rect`: the mode flag, the data record and the application copy. -/
structure rect where
  surface : Bool := false
  data : rectData := {}
  application : app
  deriving DecidableEq, Repr

/-! ## Member functions -/

/-- The constructor `rect(app, x, y, w, h)` (each number defaults to 0 in the source):
the mode is surface mode exactly when the application has a window surface, and the
geometry is stored in the matching record. -/
def rect.construct (app : app) (x y w h : Int) : rect :=
  let self : rect := { application := app }
  let self := { self with surface := app.Surface.isSome }
  if self.surface then
    { self with data := { self.data with rect := .ofRect ⟨x, y, w, h⟩ } }
  else
    { self with data := { self.data with
        rect := .ofFRect ⟨F32.ofInt x, F32.ofInt y, F32.ofInt w, F32.ofInt h⟩ } }

/-- The member `setRect(x, y, w, h)`. -/
def rect.setRect (self : rect) (x y w h : Int) : Except Fault rect :=
  if self.surface then
    pure { self with data := { self.data with rect := .ofRect ⟨x, y, w, h⟩ } }
  else
    pure { self with data := { self.data with
        rect := .ofFRect ⟨F32.ofInt x, F32.ofInt y, F32.ofInt w, F32.ofInt h⟩ } }

/-- The member `setPosition(x, y)`. -/
def rect.setPosition (self : rect) (x y : Int) : Except Fault rect :=
  if self.surface then do
    let r ← get_SDL_Rect self.data.rect
    let r := { r with x := x, y := y }
    pure { self with data := { self.data with rect := .ofRect r } }
  else do
    let r ← get_SDL_FRect self.data.rect
    let r := { r with x := F32.ofInt x, y := F32.ofInt y }
    pure { self with data := { self.data with rect := .ofFRect r } }

/-- The member `setSize(w, h)`. -/
def rect.setSize (self : rect) (w h : Int) : Except Fault rect :=
  if self.surface then do
    let r ← get_SDL_Rect self.data.rect
    let r := { r with w := w, h := h }
    pure { self with data := { self.data with rect := .ofRect r } }
  else do
    let r ← get_SDL_FRect self.data.rect
    let r := { r with w := F32.ofInt w, h := F32.ofInt h }
    pure { self with data := { self.data with rect := .ofFRect r } }

/-- The member `setX(x)`. -/
def rect.setX (self : rect) (x : Int) : Except Fault rect :=
  if self.surface then do
    let r ← get_SDL_Rect self.data.rect
    let r := { r with x := x }
    pure { self with data := { self.data with rect := .ofRect r } }
  else do
    let r ← get_SDL_FRect self.data.rect
    let r := { r with x := F32.ofInt x }
    pure { self with data := { self.data with rect := .ofFRect r } }

/-- The member `setY(y)`. -/
def rect.setY (self : rect) (y : Int) : Except Fault rect :=
  if self.surface then do
    let r ← get_SDL_Rect self.data.rect
    let r := { r with y := y }
    pure { self with data := { self.data with rect := .ofRect r } }
  else do
    let r ← get_SDL_FRect self.data.rect
    let r := { r with y := F32.ofInt y }
    pure { self with data := { self.data with rect := .ofFRect r } }

/-- The member `setWidth(w)`. -/
def rect.setWidth (self : rect) (w : Int) : Except Fault rect :=
  if self.surface then do
    let r ← get_SDL_Rect self.data.rect
    let r := { r with w := w }
    pure { self with data := { self.data with rect := .ofRect r } }
  else do
    let r ← get_SDL_FRect self.data.rect
    let r := { r with w := F32.ofInt w }
    pure { self with data := { self.data with rect := .ofFRect r } }

/-- The member `setHeight(h)`. -/
def rect.setHeight (self : rect) (h : Int) : Except Fault rect :=
  if self.surface then do
    let r ← get_SDL_Rect self.data.rect
    let r := { r with h := h }
    pure { self with data := { self.data with rect := .ofRect r } }
  else do
    let r ← get_SDL_FRect self.data.rect
    let r := { r with h := F32.ofInt h }
    pure { self with data := { self.data with rect := .ofFRect r } }

/-- The member `addX(x)`: `r.x += x`. -/
def rect.addX (self : rect) (x : Int) : Except Fault rect :=
  if self.surface then do
    let r ← get_SDL_Rect self.data.rect
    let r := { r with x := wrap32 (r.x + x) }
    pure { self with data := { self.data with rect := .ofRect r } }
  else do
    let r ← get_SDL_FRect self.data.rect
    let r := { r with x := F32.add r.x (F32.ofInt x) }
    pure { self with data := { self.data with rect := .ofFRect r } }

/-- The member `addY(y)`: `r.y += y`. -/
def rect.addY (self : rect) (y : Int) : Except Fault rect :=
  if self.surface then do
    let r ← get_SDL_Rect self.data.rect
    let r := { r with y := wrap32 (r.y + y) }
    pure { self with data := { self.data with rect := .ofRect r } }
  else do
    let r ← get_SDL_FRect self.data.rect
    let r := { r with y := F32.add r.y (F32.ofInt y) }
    pure { self with data := { self.data with rect := .ofFRect r } }

/-- The member `addWidth(w)`: `r.w += w`. -/
def rect.addWidth (self : rect) (w : Int) : Except Fault rect :=
  if self.surface then do
    let r ← get_SDL_Rect self.data.rect
    let r := { r with w := wrap32 (r.w + w) }
    pure { self with data := { self.data with rect := .ofRect r } }
  else do
    let r ← get_SDL_FRect self.data.rect
    let r := { r with w := F32.add r.w (F32.ofInt w) }
    pure { self with data := { self.data with rect := .ofFRect r } }

/-- The member `addHeight(h)`: `r.h += h`. -/
def rect.addHeight (self : rect) (h : Int) : Except Fault rect :=
  if self.surface then do
    let r ← get_SDL_Rect self.data.rect
    let r := { r with h := wrap32 (r.h + h) }
    pure { self with data := { self.data with rect := .ofRect r } }
  else do
    let r ← get_SDL_FRect self.data.rect
    let r := { r with h := F32.add r.h (F32.ofInt h) }
    pure { self with data := { self.data with rect := .ofFRect r } }

/-- The member `subX(x)`: `r.x -= x`. -/
def rect.subX (self : rect) (x : Int) : Except Fault rect :=
  if self.surface then do
    let r ← get_SDL_Rect self.data.rect
    let r := { r with x := wrap32 (r.x - x) }
    pure { self with data := { self.data with rect := .ofRect r } }
  else do
    let r ← get_SDL_FRect self.data.rect
    let r := { r with x := F32.sub r.x (F32.ofInt x) }
    pure { self with data := { self.data with rect := .ofFRect r } }

/-- The member `subY(y)`: `r.y -= y`. -/
def rect.subY (self : rect) (y : Int) : Except Fault rect :=
  if self.surface then do
    let r ← get_SDL_Rect self.data.rect
    let r := { r with y := wrap32 (r.y - y) }
    pure { self with data := { self.data with rect := .ofRect r } }
  else do
    let r ← get_SDL_FRect self.data.rect
    let r := { r with y := F32.sub r.y (F32.ofInt y) }
    pure { self with data := { self.data with rect := .ofFRect r } }

/-- The member `subWidth(w)`: `r.w -= w`. -/
def rect.subWidth (self : rect) (w : Int) : Except Fault rect :=
  if self.surface then do
    let r ← get_SDL_Rect self.data.rect
    let r := { r with w := wrap32 (r.w - w) }
    pure { self with data := { self.data with rect := .ofRect r } }
  else do
    let r ← get_SDL_FRect self.data.rect
    let r := { r with w := F32.sub r.w (F32.ofInt w) }
    pure { self with data := { self.data with rect := .ofFRect r } }

/-- The member `subHeight(h)`: `r.h -= h`. -/
def rect.subHeight (self : rect) (h : Int) : Except Fault rect :=
  if self.surface then do
    let r ← get_SDL_Rect self.data.rect
    let r := { r with h := wrap32 (r.h - h) }
    pure { self with data := { self.data with rect := .ofRect r } }
  else do
    let r ← get_SDL_FRect self.data.rect
    let r := { r with h := F32.sub r.h (F32.ofInt h) }
    pure { self with data := { self.data with rect := .ofFRect r } }

/-- The member `getX()`. -/
def rect.getX (self : rect) : Except Fault Int :=
  if self.surface then do
    let r ← get_SDL_Rect self.data.rect
    pure r.x
  else do
    let r ← get_SDL_FRect self.data.rect
    F32.toInt r.x

/-- The member `getY()`. -/
def rect.getY (self : rect) : Except Fault Int :=
  if self.surface then do
    let r ← get_SDL_Rect self.data.rect
    pure r.y
  else do
    let r ← get_SDL_FRect self.data.rect
    F32.toInt r.y

/-- The member `getWidth()`. -/
def rect.getWidth (self : rect) : Except Fault Int :=
  if self.surface then do
    let r ← get_SDL_Rect self.data.rect
    pure r.w
  else do
    let r ← get_SDL_FRect self.data.rect
    F32.toInt r.w

/-- The member `getHeight()`. -/
def rect.getHeight (self : rect) : Except Fault Int :=
  if self.surface then do
    let r ← get_SDL_Rect self.data.rect
    pure r.h
  else do
    let r ← get_SDL_FRect self.data.rect
    F32.toInt r.h

/-- The member `_get()`: a copy of the data record. -/
def rect._get (self : rect) : rectData := self.data

/-- The member `fill(r, g, b)` (each argument defaults to -1 in the source): each
channel keeps the stored value when the argument is -1 and is otherwise the argument
converted to `Uint8`; the three are stored, then the area is painted through the surface
or the renderer. -/
def rect.fill (self : rect) (r g b : Int) : Except Fault (rect × List PaintRequest) :=
  let r : Int := if r = -1 then (self.data.color.r.val : Int) else ((toUint8 r).val : Int)
  let g : Int := if g = -1 then (self.data.color.g.val : Int) else ((toUint8 g).val : Int)
  let b : Int := if b = -1 then (self.data.color.b.val : Int) else ((toUint8 b).val : Int)
  let self := { self with data := { self.data with
      color := { r := toUint8 r, g := toUint8 g, b := toUint8 b } } }
  if self.surface then do
    let area ← get_SDL_Rect self.data.rect
    pure (self, [.fillSurfaceRect self.application.Surface area
      (toUint8 r) (toUint8 g) (toUint8 b)])
  else do
    let area ← get_SDL_FRect self.data.rect
    pure (self, [.setRenderDrawColor self.application.Render
      (toUint8 r) (toUint8 g) (toUint8 b) 255, .renderFillRect self.application.Render area])

/-- The member `fillTexture(texture, deg, mode, point)`. -/
def rect.fillTexture (self : rect) (tex : texture) (mode : SDL_FlipMode)
    (point : SDL_FPoint) : Except Fault (rect × List PaintRequest) := do
  let area ← get_SDL_FRect self.data.rect
  pure (self, [.renderTextureRotated self.application.Render tex.tex area point mode])

/-- The member `fillText(text)`. -/
def rect.fillText (self : rect) (text : texture) : Except Fault (rect × List PaintRequest) := do
  let area ← get_SDL_FRect self.data.rect
  pure (self, [.renderTexture self.application.Render text.tex area])

/-- The member `update()`. -/
def rect.update (self : rect) : Except Fault (rect × List PaintRequest) := do
  let area ← get_SDL_Rect self.data.rect
  pure (self, [.fillSurfaceRect self.application.Surface area
    self.data.color.r self.data.color.g self.data.color.b])

/-- The member `onTouch(otrect)`; `int` sums wrap, `float` sums round. -/
def rect.onTouch (self otrect : rect) : Except Fault Bool :=
  if self.surface then do
    let a ← get_SDL_Rect self.data.rect
    let b ← get_SDL_Rect otrect.data.rect
    pure (decide (a.x < wrap32 (b.x + b.w) ∧ wrap32 (a.x + a.w) > b.x ∧
      a.y < wrap32 (b.y + b.h) ∧ wrap32 (a.y + a.h) > b.y))
  else do
    let a ← get_SDL_FRect self.data.rect
    let b ← get_SDL_FRect otrect.data.rect
    pure (decide (a.x < F32.add b.x b.w ∧ F32.add a.x a.w > b.x ∧
      a.y < F32.add b.y b.h ∧ F32.add a.y a.h > b.y))

/-- The member `onHover()`, with the pointer position that `SDL_GetMouseState` reports
as the arguments.  In surface mode each `int` operand is converted to `float` for the
comparison, after the `int` sum. -/
def rect.onHover (self : rect) (mouseX mouseY : F32) : Except Fault Bool :=
  if self.surface then do
    let r ← get_SDL_Rect self.data.rect
    pure (decide (mouseX ≥ F32.ofInt r.x ∧ mouseX ≤ F32.ofInt (wrap32 (r.x + r.w)) ∧
      mouseY ≥ F32.ofInt r.y ∧ mouseY ≤ F32.ofInt (wrap32 (r.y + r.h))))
  else do
    let r ← get_SDL_FRect self.data.rect
    pure (decide (mouseX ≥ r.x ∧ mouseX ≤ F32.add r.x r.w ∧
      mouseY ≥ r.y ∧ mouseY ≤ F32.add r.y r.h))

/-! ## Sequences of mutating calls -/

/-- The representation matches the mode flag: the `int` record in surface mode, the
`float` record otherwise. -/
def rect.wellFormed (self : rect) : Prop :=
  match self.data.rect with
  | .ofRect _ => self.surface = true
  | .ofFRect _ => self.surface = false

instance (self : rect) : Decidable self.wellFormed := by
  unfold rect.wellFormed; cases self.data.rect <;> exact inferInstance

/-- A call of one of the mutating members, with its arguments. -/
inductive Op where
  | setRect (x y w h : Int)
  | setPosition (x y : Int)
  | setSize (w h : Int)
  | setX (x : Int)
  | setY (y : Int)
  | setWidth (w : Int)
  | setHeight (h : Int)
  | addX (x : Int)
  | addY (y : Int)
  | addWidth (w : Int)
  | addHeight (h : Int)
  | subX (x : Int)
  | subY (y : Int)
  | subWidth (w : Int)
  | subHeight (h : Int)
  | fill (r g b : Int)
  deriving DecidableEq, Repr

/-- Perform one call on the object. -/
def rect.apply (self : rect) : Op → Except Fault rect
  | .setRect x y w h => self.setRect x y w h
  | .setPosition x y => self.setPosition x y
  | .setSize w h => self.setSize w h
  | .setX x => self.setX x
  | .setY y => self.setY y
  | .setWidth w => self.setWidth w
  | .setHeight h => self.setHeight h
  | .addX x => self.addX x
  | .addY y => self.addY y
  | .addWidth w => self.addWidth w
  | .addHeight h => self.addHeight h
  | .subX x => self.subX x
  | .subY y => self.subY y
  | .subWidth w => self.subWidth w
  | .subHeight h => self.subHeight h
  | .fill r g b => do
    let out ← self.fill r g b
    pure out.1

/-- Perform a sequence of calls, in order; the first fault ends the run. -/
def rect.run (self : rect) : List Op → Except Fault rect
  | [] => pure self
  | op :: ops => do
    let next ← self.apply op
    next.run ops

/-- An application drawing to a window surface (surface mode). -/
def surfaceApp : app := { Surface := some 1, Render := none }

/-- An application drawing through a renderer (renderer mode). -/
def renderApp : app := { Surface := none, Render := some 1 }

/-- The calls `addX(d); subX(d)`, in this order. -/
def rect.addSubX (self : rect) (d : Int) : Except Fault rect := do
  let r1 ← self.addX d
  r1.subX d

/-- The calls `addY(d); subY(d)`, in this order. -/
def rect.addSubY (self : rect) (d : Int) : Except Fault rect := do
  let r1 ← self.addY d
  r1.subY d

/-- The calls `addWidth(d); subWidth(d)`, in this order. -/
def rect.addSubWidth (self : rect) (d : Int) : Except Fault rect := do
  let r1 ← self.addWidth d
  r1.subWidth d

/-- The calls `addHeight(d); subHeight(d)`, in this order. -/
def rect.addSubHeight (self : rect) (d : Int) : Except Fault rect := do
  let r1 ← self.addHeight d
  r1.subHeight d

/-- The integer is a binary32 number (it has at most 24 significant bits), so that its
conversion to `float` is exact. -/
def F32.exactInt (v : Int) : Prop := round24 v = v

instance (v : Int) : Decidable (F32.exactInt v) := by
  unfold F32.exactInt; exact inferInstance

/-- The integers of magnitude at most 2^24 = 16777216. -/
def F32.smallInt (v : Int) : Prop := -16777216 ≤ v ∧ v ≤ 16777216

instance (v : Int) : Decidable (F32.smallInt v) := by
  unfold F32.smallInt; exact inferInstance

/-- The call is a `fill`; every other call is a geometry operation. -/
def Op.isFill : Op → Bool
  | .fill _ _ _ => true
  | _ => false

/-- The integer has at most 24 significant bits.  Counted in units of 2^-149, the
integers of this form are the finite binary32 numbers. -/
def has24Bits (v : Int) : Prop := ∃ m k : Nat, m < 16777216 ∧ v.natAbs = m * 2 ^ k

/-- The number `f` has at most 24 significant bits and no such number is nearer to `v`:
`f` is `v` rounded to nearest. -/
def nearest24 (v f : Int) : Prop :=
  has24Bits f ∧ ∀ r : Int, has24Bits r → |f - v| ≤ |r - v|

/-! ## Stream output -/

/-- The text `s` padded with `fill` to the field width `width`, after the text under
`std::left` and before it otherwise. -/
def pad_to (width : Nat) (fill : Char) (left : Bool) (s : String) : String :=
  let padding := String.mk (List.replicate (width - s.length) fill)
  if left then s ++ padding else padding ++ s

/-- The text that `os << v` writes for an `int` at field width 0 under the default
formatting flags and the classic locale: the decimal digits, preceded by `-` when the
value is negative. -/
def ostream_int (v : Int) : String := toString v

/-- The text that `os << v` writes for an `int` at field width 0 when the stream has
`std::hex` set (and neither `showbase` nor `uppercase`): the lower-case hexadecimal
digits of the value converted to `unsigned int`. -/
def ostream_hex (v : Int) : String := String.mk (Nat.toDigits 16 (v % 4294967296).toNat)

/-- An output stream: the text written so far and the state that a formatted insertion
depends on.  `put_int` and `put_float` stand for the number formatting of the stream
library at a given field width under the flags (`basefield`, `adjustfield`, `showpos`,
`showbase`, `uppercase`, `floatfield`), the precision, the fill character and the
locale of the stream, none of which `operator<<` of `rect` changes. -/
structure ostream where
  /-- The text written so far. -/
  text : String
  /-- The stream is in the good state; an insertion into a stream that is not writes
  nothing. -/
  good : Bool
  /-- The field width `os.width()` of the next insertion; each insertion resets it. -/
  width : Nat
  /-- The fill character `os.fill()`. -/
  fill : Char
  /-- The adjustment is `std::left`: the padding of a text follows it instead of
  preceding it. -/
  left : Bool
  /-- What the stream writes for an `int` at a field width. -/
  put_int : Nat → Int → String
  /-- What the stream writes for a `float` at a field width. -/
  put_float : Nat → F32 → String

/-- A stream in the initial formatting state of a `std::ostream` (good, width 0, fill
` `, right adjustment, decimal integers) holding `text`. -/
def ostream.initial (text : String) (put_float : Nat → F32 → String) : ostream :=
  { text := text, good := true, width := 0, fill := ' ', left := false,
    put_int := fun w v => pad_to w ' ' false (ostream_int v), put_float := put_float }

/-- The stream `os` after `os << std::hex`. -/
def ostream.hex (os : ostream) : ostream :=
  { os with put_int := fun w v => pad_to w os.fill os.left (ostream_hex v) }

/-- A formatted insertion of the already formatted text `s`: it is appended and the
field width is reset to 0; nothing happens when the stream is not good. -/
def ostream.write (os : ostream) (s : String) : ostream :=
  if os.good then { os with text := os.text ++ s, width := 0 } else os

/-- The insertion `os << s` of a character string. -/
def ostream.insert (os : ostream) (s : String) : ostream :=
  os.write (pad_to os.width os.fill os.left s)

/-- The insertion `os << v` of an `int`. -/
def ostream.insert_int (os : ostream) (v : Int) : ostream :=
  os.write (os.put_int os.width v)

/-- The insertion `os << f` of a `float`. -/
def ostream.insert_float (os : ostream) (f : F32) : ostream :=
  os.write (os.put_float os.width f)

/-- The friend `operator<<(ostream&, rect&)`. -/
def rect.operator_insert (os : ostream) (r : rect) : Except Fault ostream := do
  let os ←
    if r.surface then do
      let d ← get_SDL_Rect r.data.rect
      pure ((((((((os.insert "Rect(x: ").insert_int d.x).insert ", y: ").insert_int d.y).insert
        ", w: ").insert_int d.w).insert ", h: ").insert_int d.h)
    else do
      let d ← get_SDL_FRect r.data.rect
      pure ((((((((os.insert "Rect(x: ").insert_float d.x).insert ", y: ").insert_float
        d.y).insert ", w: ").insert_float d.w).insert ", h: ").insert_float d.h)
  pure (((((((os.insert ", r: ").insert_int (r.data.color.r.val : Int)).insert
    ", g: ").insert_int (r.data.color.g.val : Int)).insert
    ", b: ").insert_int (r.data.color.b.val : Int)).insert ")")

/-! ## Rounding to 24 significant bits -/

theorem ulpAux_succ (k n : Nat) :
    ulpAux (k + 1) n = if n < 16777216 then 1 else 2 * ulpAux k (n / 2) := rfl

theorem ulpAux_spec (fuel : Nat) : ∀ n : Nat, n < 16777216 * 2 ^ fuel →
    ∃ s, ulpAux fuel n = 2 ^ s ∧ n / 2 ^ s < 16777216 ∧ (s = 0 ∨ 8388608 ≤ n / 2 ^ s) := by
  induction fuel with
  | zero =>
    intro n hn
    exact ⟨0, rfl, by simpa using hn, Or.inl rfl⟩
  | succ k ih =>
    intro n hn
    by_cases hsmall : n < 16777216
    · refine ⟨0, ?_, by simpa using hsmall, Or.inl rfl⟩
      rw [ulpAux_succ, if_pos hsmall, pow_zero]
    · have hhalf : n / 2 < 16777216 * 2 ^ k := by
        rw [pow_succ] at hn
        omega
      obtain ⟨s, hs, hlt, hge⟩ := ih (n / 2) hhalf
      have hdiv : n / 2 ^ (s + 1) = n / 2 / 2 ^ s := by
        rw [pow_succ, Nat.mul_comm, Nat.div_div_eq_div_mul]
      refine ⟨s + 1, ?_, ?_, Or.inr ?_⟩
      · rw [ulpAux_succ, if_neg hsmall, hs, pow_succ, Nat.mul_comm]
      · rw [hdiv]; exact hlt
      · rw [hdiv]
        rcases hge with h0 | h
        · subst h0
          simp only [pow_zero, Nat.div_one] at hlt ⊢
          omega
        · exact h

theorem ulp_spec (n : Nat) :
    ∃ s, ulp n = 2 ^ s ∧ n / 2 ^ s < 16777216 ∧ (s = 0 ∨ 8388608 ≤ n / 2 ^ s) := by
  apply ulpAux_spec
  have h1 : n < 2 ^ n := Nat.lt_two_pow n
  omega

theorem roundNat24_of_dvd (n : Nat) (h : ulp n ∣ n) : roundNat24 n = n := by
  obtain ⟨s, hs, -, -⟩ := ulp_spec n
  have hpos : 0 < ulp n := by rw [hs]; exact Nat.pos_pow_of_pos _ (by decide)
  have hr : n % ulp n = 0 := Nat.mod_eq_zero_of_dvd h
  simp only [roundNat24, hr, Nat.mul_zero, hpos, if_true]
  exact Nat.div_mul_cancel h

theorem ulp_dvd_mul_two_pow (m k : Nat) (hm : m ≤ 16777216) : ulp (m * 2 ^ k) ∣ m * 2 ^ k := by
  obtain ⟨s, hs, hlt, hge⟩ := ulp_spec (m * 2 ^ k)
  rw [hs]
  rcases hge with h0 | hge
  · subst h0; simp
  · have hspos : 0 < 2 ^ s := Nat.pos_pow_of_pos _ (by decide)
    have hkpos : 0 < 2 ^ k := Nat.pos_pow_of_pos _ (by decide)
    -- 2^23 * 2^s ≤ m * 2^k
    have h1 : 8388608 * 2 ^ s ≤ m * 2 ^ k :=
      le_trans (Nat.mul_le_mul_right _ hge) (Nat.div_mul_le_self _ _)
    by_cases hsk : s ≤ k
    · exact Dvd.dvd.mul_left (pow_dvd_pow 2 hsk) m
    · have hk1 : k + 1 ≤ s := by omega
      have h2 : 2 ^ (k + 1) ≤ 2 ^ s := Nat.pow_le_pow_right (by decide) hk1
      rw [pow_succ] at h2
      have hm' : m = 16777216 := by
        by_contra hne
        have hm2 : m ≤ 16777215 := by omega
        have : m * 2 ^ k ≤ 16777215 * 2 ^ k := Nat.mul_le_mul_right _ hm2
        omega
      subst hm'
      have hs1 : s = k + 1 := by
        by_contra hne
        have hk2 : k + 2 ≤ s := by omega
        have h3 : 2 ^ (k + 2) ≤ 2 ^ s := Nat.pow_le_pow_right (by decide) hk2
        rw [pow_succ, pow_succ] at h3
        omega
      subst hs1
      refine ⟨8388608, ?_⟩
      rw [pow_succ]; ring

theorem roundNat24_mul_two_pow (m k : Nat) (hm : m ≤ 16777216) :
    roundNat24 (m * 2 ^ k) = m * 2 ^ k :=
  roundNat24_of_dvd _ (ulp_dvd_mul_two_pow m k hm)

theorem roundNat24_cases (n u : Nat) (hu : ulp n = u) :
    roundNat24 n =
      if 2 * (n % u) < u then n / u * u
      else if u < 2 * (n % u) then n / u * u + u
      else if n / u % 2 = 0 then n / u * u
      else n / u * u + u := by
  subst hu
  simp only [roundNat24, Nat.add_mul, Nat.one_mul]

theorem roundNat24_lower (n u : Nat) (hu : ulp n = u) : n / u * u ≤ roundNat24 n := by
  rw [roundNat24_cases n u hu]
  split_ifs <;> omega

theorem roundNat24_upper (n u : Nat) (hu : ulp n = u) : roundNat24 n ≤ n / u * u + u := by
  rw [roundNat24_cases n u hu]
  split_ifs <;> omega

theorem roundNat24_mono {a b : Nat} (h : a ≤ b) : roundNat24 a ≤ roundNat24 b := by
  obtain ⟨sa, hsa, hlta, hgea⟩ := ulp_spec a
  obtain ⟨sb, hsb, hltb, hgeb⟩ := ulp_spec b
  have hpa : 0 < 2 ^ sa := Nat.pos_pow_of_pos _ (by decide)
  have hpb : 0 < 2 ^ sb := Nat.pos_pow_of_pos _ (by decide)
  rcases Nat.lt_trichotomy sa sb with hlt | heq | hgt
  · -- the spacing grows: the whole binade of `a` lies below that of `b`
    have h1 := roundNat24_upper a _ hsa
    have h2 := roundNat24_lower b _ hsb
    have hb : 8388608 ≤ b / 2 ^ sb := by
      rcases hgeb with h0 | h0
      · omega
      · exact h0
    have h3 : 2 ^ (sa + 1) ≤ 2 ^ sb := Nat.pow_le_pow_right (by decide) hlt
    rw [pow_succ] at h3
    have h4 : a / 2 ^ sa * 2 ^ sa ≤ 16777215 * 2 ^ sa := Nat.mul_le_mul_right _ (by omega)
    have h5 : 8388608 * 2 ^ sb ≤ b / 2 ^ sb * 2 ^ sb := Nat.mul_le_mul_right _ hb
    omega
  · subst heq
    rw [roundNat24_cases a _ hsa, roundNat24_cases b _ hsb]
    have hq : a / 2 ^ sa ≤ b / 2 ^ sa := Nat.div_le_div_right h
    have ha := Nat.div_add_mod a (2 ^ sa)
    have hb := Nat.div_add_mod b (2 ^ sa)
    have hra := Nat.mod_lt a hpa
    have hrb := Nat.mod_lt b hpa
    rw [Nat.mul_comm] at ha hb
    rcases Nat.eq_or_lt_of_le hq with hqe | hql
    · rw [← hqe] at hb ⊢
      generalize a / 2 ^ sa * 2 ^ sa = A at *
      generalize 2 ^ sa = u at *
      split_ifs <;> omega
    · have hstep : (a / 2 ^ sa + 1) * 2 ^ sa ≤ b / 2 ^ sa * 2 ^ sa :=
        Nat.mul_le_mul_right _ hql
      rw [Nat.add_mul, Nat.one_mul] at hstep
      generalize a / 2 ^ sa * 2 ^ sa = A at *
      generalize b / 2 ^ sa * 2 ^ sa = B at *
      generalize 2 ^ sa = u at *
      split_ifs <;> omega
  · exfalso
    have ha : 8388608 ≤ a / 2 ^ sa := by
      rcases hgea with h0 | h0
      · omega
      · exact h0
    have h3 : 2 ^ (sb + 1) ≤ 2 ^ sa := Nat.pow_le_pow_right (by decide) hgt
    rw [pow_succ] at h3
    have h5 : 8388608 * 2 ^ sa ≤ a / 2 ^ sa * 2 ^ sa := Nat.mul_le_mul_right _ ha
    have h6 : a / 2 ^ sa * 2 ^ sa ≤ a := Nat.div_mul_le_self _ _
    have h7 : b < 16777216 * 2 ^ sb := (Nat.div_lt_iff_lt_mul hpb).mp hltb
    omega

theorem round24_neg (v : Int) : round24 (-v) = -round24 v := by
  unfold round24
  rcases lt_trichotomy v 0 with h | h | h
  · have h1 : ¬ (-v < 0) := by omega
    simp [h, h1]
  · subst h; simp [roundNat24, ulp, ulpAux]
  · have h1 : -v < 0 := by omega
    have h2 : ¬ v < 0 := by omega
    simp [h1, h2]

theorem round24_of_nonneg {v : Int} (h : 0 ≤ v) : round24 v = (roundNat24 v.toNat : Int) := by
  unfold round24
  have h1 : ¬ v < 0 := by omega
  have h2 : v.natAbs = v.toNat := by omega
  simp [h1, h2]

theorem round24_nonneg {v : Int} (h : 0 ≤ v) : 0 ≤ round24 v := by
  rw [round24_of_nonneg h]; exact Int.natCast_nonneg _

theorem round24_mono {a b : Int} (h : a ≤ b) : round24 a ≤ round24 b := by
  by_cases ha : 0 ≤ a
  · have hb : 0 ≤ b := le_trans ha h
    rw [round24_of_nonneg ha, round24_of_nonneg hb]
    have : a.toNat ≤ b.toNat := by omega
    exact_mod_cast roundNat24_mono this
  · by_cases hb : 0 ≤ b
    · have h1 : 0 ≤ round24 (-a) := round24_nonneg (by omega)
      rw [round24_neg] at h1
      have h2 := round24_nonneg hb
      omega
    · have h1 : round24 (-b) ≤ round24 (-a) := by
        rw [round24_of_nonneg (by omega : (0:Int) ≤ -b), round24_of_nonneg (by omega : (0:Int) ≤ -a)]
        have : (-b).toNat ≤ (-a).toNat := by omega
        exact_mod_cast roundNat24_mono this
      rw [round24_neg, round24_neg] at h1
      omega

theorem round24_mul_two_pow (m : Int) (k : Nat) (hm : -16777216 ≤ m ∧ m ≤ 16777216) :
    round24 (m * 2 ^ k) = m * 2 ^ k := by
  have key : ∀ m : Int, 0 ≤ m → m ≤ 16777216 → round24 (m * 2 ^ k) = m * 2 ^ k := by
    intro m h0 h1
    have hk : (0 : Int) ≤ 2 ^ k := by positivity
    rw [round24_of_nonneg (Int.mul_nonneg h0 hk)]
    have e : (m * 2 ^ k).toNat = m.toNat * 2 ^ k := by
      have : m * 2 ^ k = ((m.toNat * 2 ^ k : Nat) : Int) := by
        push_cast
        rw [Int.toNat_of_nonneg h0]
      rw [this, Int.toNat_natCast]
    rw [e, roundNat24_mul_two_pow _ _ (by omega)]
    push_cast
    rw [Int.toNat_of_nonneg h0]
  by_cases h : 0 ≤ m
  · exact key m h hm.2
  · have := key (-m) (by omega) (by omega)
    rw [Int.neg_mul, round24_neg] at this
    omega

theorem ulp_unique (m t : Nat) (ht : 0 < t) (hlo : 8388608 ≤ m / 2 ^ t)
    (hhi : m / 2 ^ t < 16777216) : ulp m = 2 ^ t := by
  obtain ⟨s, hs, hlt, hge⟩ := ulp_spec m
  have hpt : 0 < 2 ^ t := Nat.pos_pow_of_pos _ (by decide)
  have hps : 0 < 2 ^ s := Nat.pos_pow_of_pos _ (by decide)
  have h1 : 8388608 * 2 ^ t ≤ m := le_trans (Nat.mul_le_mul_right _ hlo) (Nat.div_mul_le_self _ _)
  have h2 : m < 16777216 * 2 ^ t := (Nat.div_lt_iff_lt_mul hpt).mp hhi
  have h3 : m < 16777216 * 2 ^ s := (Nat.div_lt_iff_lt_mul hps).mp hlt
  rcases Nat.lt_trichotomy s t with hst | hst | hst
  · exfalso
    have h4 : 2 ^ (s + 1) ≤ 2 ^ t := Nat.pow_le_pow_right (by decide) hst
    rw [pow_succ] at h4
    omega
  · rw [hs, hst]
  · exfalso
    have h4 : 2 ^ (t + 1) ≤ 2 ^ s := Nat.pow_le_pow_right (by decide) hst
    rw [pow_succ] at h4
    have h5 : 8388608 ≤ m / 2 ^ s := by
      rcases hge with h0 | h0
      · omega
      · exact h0
    have h6 : 8388608 * 2 ^ s ≤ m :=
      le_trans (Nat.mul_le_mul_right _ h5) (Nat.div_mul_le_self _ _)
    omega

theorem roundNat24_mul_two (n : Nat) : roundNat24 (n * 2) = roundNat24 n * 2 := by
  by_cases hsmall : n < 16777216
  · have e1 := roundNat24_mul_two_pow n 1 (by omega)
    have e2 := roundNat24_mul_two_pow n 0 (by omega)
    rw [pow_one] at e1
    rw [pow_zero, Nat.mul_one] at e2
    rw [e1, e2]
  · obtain ⟨s, hs, hlt, hge⟩ := ulp_spec n
    have hs0 : s ≠ 0 := by
      intro h0
      subst h0
      simp only [pow_zero, Nat.div_one] at hlt
      omega
    have hlo : 8388608 ≤ n / 2 ^ s := by
      rcases hge with h0 | h0
      · exact absurd h0 hs0
      · exact h0
    have hdiv : n * 2 / 2 ^ (s + 1) = n / 2 ^ s := by
      rw [pow_succ]
      exact Nat.mul_div_mul_right _ _ (by decide)
    have hmod : n * 2 % 2 ^ (s + 1) = n % 2 ^ s * 2 := by
      rw [pow_succ]
      exact Nat.mul_mod_mul_right _ _ _
    have hu2 : ulp (n * 2) = 2 ^ (s + 1) :=
      ulp_unique _ _ (Nat.succ_pos s) (by rw [hdiv]; exact hlo) (by rw [hdiv]; exact hlt)
    rw [roundNat24_cases _ _ hu2, roundNat24_cases _ _ hs, hdiv, hmod]
    have hA : n / 2 ^ s * 2 ^ (s + 1) = n / 2 ^ s * 2 ^ s * 2 := by
      rw [pow_succ, Nat.mul_assoc]
    rw [hA, pow_succ]
    generalize n / 2 ^ s * 2 ^ s = A
    generalize n % 2 ^ s = r
    generalize n / 2 ^ s = q
    generalize 2 ^ s = u
    split_ifs <;> omega

theorem roundNat24_scale (n k : Nat) : roundNat24 (n * 2 ^ k) = roundNat24 n * 2 ^ k := by
  induction k with
  | zero => simp
  | succ k ih => rw [pow_succ, ← Nat.mul_assoc, roundNat24_mul_two, ih, Nat.mul_assoc]

theorem round24_scale (v : Int) (k : Nat) : round24 (v * 2 ^ k) = round24 v * 2 ^ k := by
  have key : ∀ v : Int, 0 ≤ v → round24 (v * 2 ^ k) = round24 v * 2 ^ k := by
    intro v h0
    have hk : (0 : Int) ≤ 2 ^ k := by positivity
    rw [round24_of_nonneg (Int.mul_nonneg h0 hk), round24_of_nonneg h0]
    have e : (v * 2 ^ k).toNat = v.toNat * 2 ^ k := by
      have : v * 2 ^ k = ((v.toNat * 2 ^ k : Nat) : Int) := by
        push_cast
        rw [Int.toNat_of_nonneg h0]
      rw [this, Int.toNat_natCast]
    rw [e, roundNat24_scale]
    push_cast
    rfl
  by_cases h : 0 ≤ v
  · exact key v h
  · have := key (-v) (by omega)
    rw [Int.neg_mul, round24_neg, round24_neg, Int.neg_mul] at this
    omega

/-! ## Rounding is to the nearest number of 24 significant bits -/

theorem roundNat24_of_form (m k : Nat) (hm : m < 16777216) :
    roundNat24 (m * 2 ^ k) = m * 2 ^ k :=
  roundNat24_mul_two_pow m k (Nat.le_of_lt hm)

theorem roundNat24_form (n : Nat) : ∃ m k : Nat, m < 16777216 ∧ roundNat24 n = m * 2 ^ k := by
  obtain ⟨s, hs, hlt, -⟩ := ulp_spec n
  have hc := roundNat24_cases n _ hs
  have key : ∀ q : Nat, q ≤ 16777216 → ∃ m k : Nat, m < 16777216 ∧ q * 2 ^ s = m * 2 ^ k := by
    intro q hq
    rcases Nat.lt_or_ge q 16777216 with h | h
    · exact ⟨q, s, h, rfl⟩
    · have : q = 16777216 := by omega
      subst this
      exact ⟨8388608, s + 1, by decide, by rw [pow_succ]; ring⟩
  have hup : n / 2 ^ s * 2 ^ s + 2 ^ s = (n / 2 ^ s + 1) * 2 ^ s := by ring
  rw [hc]
  split_ifs
  · exact key _ (by omega)
  · rw [hup]; exact key _ (by omega)
  · exact key _ (by omega)
  · rw [hup]; exact key _ (by omega)

theorem roundNat24_idem (n : Nat) : roundNat24 (roundNat24 n) = roundNat24 n := by
  obtain ⟨m, k, hm, h⟩ := roundNat24_form n
  rw [h]
  exact roundNat24_of_form m k hm

theorem roundNat24_not_fixed_between (m u q : Nat) (hu : ulp m = u) (hq : q * u < m)
    (hq1 : m < q * u + u) : roundNat24 m ≠ m := by
  have hpos : 0 < u := by omega
  have hdiv : m / u = q := by
    apply Nat.div_eq_of_lt_le
    · exact Nat.le_of_lt hq
    · rw [Nat.succ_mul]; exact hq1
  rw [roundNat24_cases m u hu, hdiv]
  split_ifs <;> omega

theorem roundNat24_nearest (n m : Nat) (hm : roundNat24 m = m) :
    (m ≤ n → roundNat24 n - n ≤ n - m ∧ n - roundNat24 n ≤ n - m) ∧
      (n ≤ m → roundNat24 n - n ≤ m - n ∧ n - roundNat24 n ≤ m - n) := by
  obtain ⟨s, hs, hlt, hge⟩ := ulp_spec n
  have hpos : 0 < 2 ^ s := Nat.pos_pow_of_pos _ (by decide)
  have hc := roundNat24_cases n _ hs
  have hdm := Nat.div_add_mod n (2 ^ s)
  have hr := Nat.mod_lt n hpos
  rw [Nat.mul_comm] at hdm
  -- `m` is not strictly between the two neighbours of `n`
  have hout : m ≤ n / 2 ^ s * 2 ^ s ∨ n / 2 ^ s * 2 ^ s + 2 ^ s ≤ m := by
    by_contra hcon
    push_neg at hcon
    obtain ⟨h1, h2⟩ := hcon
    rcases hge with h0 | h0
    · subst h0
      simp only [pow_zero, Nat.mul_one] at h1 h2
      omega
    · have hs0 : 0 < s := by
        rcases Nat.eq_zero_or_pos s with h | h
        · subst h
          simp only [pow_zero, Nat.mul_one] at h1 h2
          omega
        · exact h
      have hdiv : m / 2 ^ s = n / 2 ^ s := by
        apply Nat.div_eq_of_lt_le
        · exact Nat.le_of_lt h1
        · rw [Nat.succ_mul]; exact h2
      have hum : ulp m = 2 ^ s :=
        ulp_unique m s hs0 (by rw [hdiv]; exact h0) (by rw [hdiv]; exact hlt)
      exact roundNat24_not_fixed_between m _ _ hum h1 h2 hm
  rw [hc]
  generalize n / 2 ^ s * 2 ^ s = A at *
  generalize n % 2 ^ s = r at *
  generalize 2 ^ s = u at *
  constructor
  · intro hle
    split_ifs <;> omega
  · intro hle
    split_ifs <;> omega

theorem has24Bits_iff_fixed (v : Int) : has24Bits v ↔ round24 v = v := by
  constructor
  · rintro ⟨m, k, hm, h⟩
    have e := roundNat24_of_form m k hm
    rw [← h] at e
    unfold round24
    split_ifs <;> omega
  · intro h
    obtain ⟨m, k, hm, e⟩ := roundNat24_form v.natAbs
    refine ⟨m, k, hm, ?_⟩
    rw [← e]
    unfold round24 at h
    split_ifs at h <;> omega

theorem round24_idem (v : Int) : round24 (round24 v) = round24 v := by
  have key : ∀ v : Int, 0 ≤ v → round24 (round24 v) = round24 v := by
    intro v hv
    rw [round24_of_nonneg hv, round24_of_nonneg (Int.natCast_nonneg _), Int.toNat_natCast,
      roundNat24_idem]
  by_cases hv : 0 ≤ v
  · exact key v hv
  · have h := key (-v) (by omega)
    rw [round24_neg, round24_neg] at h
    omega

theorem round24_has24Bits (v : Int) : has24Bits (round24 v) :=
  (has24Bits_iff_fixed _).mpr (round24_idem v)

theorem round24_nearest (v r : Int) (hr : has24Bits r) : |round24 v - v| ≤ |r - v| := by
  rw [has24Bits_iff_fixed] at hr
  have hzero : roundNat24 0 = 0 := by decide
  -- distance to zero bounds the error
  have key : ∀ v r : Int, 0 ≤ v → round24 r = r → |round24 v - v| ≤ |r - v| := by
    intro v r hv hr
    rw [round24_of_nonneg hv]
    by_cases hr0 : 0 ≤ r
    · rw [round24_of_nonneg hr0] at hr
      have hfix : roundNat24 r.toNat = r.toNat := by omega
      have hn := roundNat24_nearest v.toNat r.toNat hfix
      have hvn : (v.toNat : Int) = v := Int.toNat_of_nonneg hv
      have hrn : (r.toNat : Int) = r := Int.toNat_of_nonneg hr0
      rw [abs_le]
      rcases le_total r v with hle | hle
      · have hle' : r.toNat ≤ v.toNat := by omega
        have := hn.1 hle'
        rw [abs_of_nonpos (by omega)]
        omega
      · have hle' : v.toNat ≤ r.toNat := by omega
        have := hn.2 hle'
        rw [abs_of_nonneg (by omega)]
        omega
    · have hn := roundNat24_nearest v.toNat 0 hzero
      have hvn : (v.toNat : Int) = v := Int.toNat_of_nonneg hv
      have := hn.1 (Nat.zero_le _)
      rw [abs_le, abs_of_nonpos (by omega)]
      omega
  by_cases hv : 0 ≤ v
  · exact key v r hv hr
  · have h1 := key (-v) (-r) (by omega) (by rw [round24_neg, hr])
    rw [round24_neg] at h1
    have e1 : -round24 v - -v = -(round24 v - v) := by ring
    have e2 : -r - -v = -(r - v) := by ring
    rw [e1, e2, abs_neg, abs_neg] at h1
    exact h1

theorem round24_nearest24 (v : Int) : nearest24 v (round24 v) :=
  ⟨round24_has24Bits v, fun r hr => round24_nearest v r hr⟩

theorem F32.add_nearest24 (a b : F32) : nearest24 (a.units + b.units) (F32.add a b).units :=
  round24_nearest24 _

theorem F32.ofInt_nearest24 (v : Int) : nearest24 (v * F32.one_units) (F32.ofInt v).units :=
  round24_nearest24 _

/-! ## Facts about the `float` model -/

theorem F32.ofInt_units {v : Int} (h : -16777216 ≤ v ∧ v ≤ 16777216) :
    (F32.ofInt v).units = v * 2 ^ 149 := by
  simp only [F32.ofInt, F32.one_units]
  exact round24_mul_two_pow v 149 h

theorem wrap32_of_isInt32 {v : Int} (h : isInt32 v) : wrap32 v = v := by
  unfold isInt32 INT_MIN INT_MAX at h
  unfold wrap32
  omega

theorem wrap32_add_sub (v d : Int) (h : isInt32 v) : wrap32 (wrap32 (v + d) - d) = v := by
  unfold isInt32 INT_MIN INT_MAX at h
  unfold wrap32
  omega

theorem F32.ofInt_units_scale (v : Int) : (F32.ofInt v).units = round24 v * 2 ^ 149 := by
  simp only [F32.ofInt, F32.one_units]
  exact round24_scale v 149

theorem F32.exactInt_of_smallInt {v : Int} (h : F32.smallInt v) :
    isInt32 v ∧ F32.exactInt v := by
  refine ⟨?_, ?_⟩
  · unfold F32.smallInt at h
    unfold isInt32 INT_MIN INT_MAX
    omega
  · have := round24_mul_two_pow v 0 h
    simpa [F32.exactInt] using this

theorem F32.toInt_ofInt_of_inRange {v : Int} (h : isInt32 (round24 v)) :
    (F32.ofInt v).toInt = .ok (round24 v) := by
  have hne : (2 : Int) ^ 149 ≠ 0 := by positivity
  unfold isInt32 at h
  simp only [F32.toInt, F32.ofInt_units_scale, F32.one_units, Int.mul_tdiv_cancel _ hne]
  rw [if_pos h]

theorem F32.toInt_ofInt_of_exact {v : Int} (hv : isInt32 v) (he : F32.exactInt v) :
    (F32.ofInt v).toInt = .ok v := by
  have h : isInt32 (round24 v) := by rw [he]; exact hv
  rw [F32.toInt_ofInt_of_inRange h, he]

theorem F32.ofInt_units_eq_iff (v : Int) :
    (F32.ofInt v).units = v * F32.one_units ↔ F32.exactInt v := by
  have hpos : (0 : Int) < 2 ^ 149 := by positivity
  rw [F32.ofInt_units_scale]
  unfold F32.exactInt F32.one_units
  constructor
  · intro h
    exact Int.eq_of_mul_eq_mul_right (ne_of_gt hpos) h
  · intro h
    rw [h]

theorem F32.representable_of_exact_sum {a b : F32} (ha : a.representable)
    (hs : F32.representable ⟨a.units + b.units⟩) : F32.sub (F32.add a b) b = a := by
  have e1 : F32.add a b = ⟨a.units + b.units⟩ := by
    simp only [F32.add]
    exact congrArg F32.mk hs
  rw [e1]
  simp only [F32.sub, Int.add_sub_cancel]
  cases a
  exact congrArg F32.mk ha

theorem F32.smallInt_sum_exact {x d : Int} (hx : F32.smallInt x) (hd : F32.smallInt d)
    (hxd : F32.smallInt (x + d)) :
    (F32.ofInt x).representable ∧
      F32.representable ⟨(F32.ofInt x).units + (F32.ofInt d).units⟩ := by
  refine ⟨?_, ?_⟩
  · simp only [F32.representable, F32.ofInt_units hx]
    exact round24_mul_two_pow x 149 hx
  · simp only [F32.representable, F32.ofInt_units hx, F32.ofInt_units hd]
    rw [← Int.add_mul]
    exact round24_mul_two_pow _ 149 hxd

theorem F32.lt_of_lt_add {a b c : F32} (ha : a.representable) (h : a < F32.add b c) :
    a.units < b.units + c.units := by
  by_contra hle
  have h1 : round24 (b.units + c.units) ≤ round24 a.units := round24_mono (by omega)
  rw [ha] at h1
  have h2 : a.units < round24 (b.units + c.units) := h
  omega

theorem wrap32_spec (v : Int) :
    isInt32 (wrap32 v) ∧ (wrap32 v - v) % 4294967296 = 0 ∧ (isInt32 v → wrap32 v = v) := by
  unfold isInt32 INT_MIN INT_MAX wrap32
  omega


/-! ## Intersection test (`onTouch`) -/

theorem onTouch_int {a b : rect} {ra rb : SDL_Rect} (hs : a.surface = true)
    (ha : a.data.rect = .ofRect ra) (hb : b.data.rect = .ofRect rb) :
    a.onTouch b = .ok (decide (ra.x < wrap32 (rb.x + rb.w) ∧ wrap32 (ra.x + ra.w) > rb.x ∧
      ra.y < wrap32 (rb.y + rb.h) ∧ wrap32 (ra.y + ra.h) > rb.y)) := by
  simp only [rect.onTouch, hs, ha, hb, get_SDL_Rect, if_true]
  rfl

theorem onTouch_float {a b : rect} {fa fb : SDL_FRect} (hs : a.surface = false)
    (ha : a.data.rect = .ofFRect fa) (hb : b.data.rect = .ofFRect fb) :
    a.onTouch b = .ok (decide (fa.x < F32.add fb.x fb.w ∧ F32.add fa.x fa.w > fb.x ∧
      fa.y < F32.add fb.y fb.h ∧ F32.add fa.y fa.h > fb.y)) := by
  simp only [rect.onTouch, hs, ha, hb, get_SDL_FRect]
  rfl

theorem F32.lt_def (a b : F32) : a < b ↔ a.units < b.units := Iff.rfl

theorem F32.le_def (a b : F32) : a ≤ b ↔ a.units ≤ b.units := Iff.rfl

/-- C1 counterexample: in renderer mode the rects (16777216,0,1,10) and
(16777216,0,10,10) store their numbers exactly and satisfy the four comparisons on the
stored values (`a.x + a.w` is 16777217, above `b.x`), yet `a.onTouch(b)` returns false:
the `float` sum `a.x + a.w` rounds to 16777216. -/
theorem onTouch_float_sum_rounds :
    (rect.construct renderApp 16777216 0 1 10).surface
      = (rect.construct renderApp 16777216 0 10 10).surface ∧
    (rect.construct renderApp 16777216 0 1 10).data.rect
      = .ofFRect ⟨⟨16777216 * 2 ^ 149⟩, ⟨0⟩, ⟨1 * 2 ^ 149⟩, ⟨10 * 2 ^ 149⟩⟩ ∧
    (rect.construct renderApp 16777216 0 10 10).data.rect
      = .ofFRect ⟨⟨16777216 * 2 ^ 149⟩, ⟨0⟩, ⟨10 * 2 ^ 149⟩, ⟨10 * 2 ^ 149⟩⟩ ∧
    ((16777216 * 2 ^ 149 : Int) < 16777216 * 2 ^ 149 + 10 * 2 ^ 149 ∧
      (16777216 * 2 ^ 149 + 1 * 2 ^ 149 : Int) > 16777216 * 2 ^ 149 ∧
      (0 : Int) < 0 + 10 * 2 ^ 149 ∧ (0 + 10 * 2 ^ 149 : Int) > 0) ∧
    (rect.construct renderApp 16777216 0 1 10).onTouch
      (rect.construct renderApp 16777216 0 10 10) = .ok false := by
  decide

/-- C1, amended: for same-mode rects, `a.onTouch(b)` returns normally, and returns true
exactly when `a.x < b.x + b.w`, `a.x + a.w > b.x`, `a.y < b.y + b.h` and
`a.y + a.h > b.y` hold of the stored signed values, with no clamping, where each sum is
the one the mode computes: in surface mode the 32-bit `int` sum, which is the `int`
congruent to the exact sum modulo 2^32, and in renderer mode the `float` sum, which is
the exact sum rounded to a nearest binary32 number.  Whenever no sum overflows (surface
mode) or rounds (renderer mode), as when the numbers and the sums are integers of
magnitude at most 2^24, these are the comparisons of the exact sums. -/
theorem onTouch_iff_formula :
    (∀ (a b : rect) (ra rb : SDL_Rect), a.surface = true → a.data.rect = .ofRect ra →
      b.data.rect = .ofRect rb →
      (∃ t, a.onTouch b = .ok t) ∧
      (a.onTouch b = .ok true ↔
        (ra.x < wrap32 (rb.x + rb.w) ∧ wrap32 (ra.x + ra.w) > rb.x ∧
          ra.y < wrap32 (rb.y + rb.h) ∧ wrap32 (ra.y + ra.h) > rb.y))) ∧
    (∀ v : Int, isInt32 (wrap32 v) ∧ (wrap32 v - v) % 4294967296 = 0 ∧
      (isInt32 v → wrap32 v = v)) ∧
    (∀ (a b : rect) (fa fb : SDL_FRect), a.surface = false → a.data.rect = .ofFRect fa →
      b.data.rect = .ofFRect fb →
      (∃ t, a.onTouch b = .ok t) ∧
      (a.onTouch b = .ok true ↔
        (fa.x < F32.add fb.x fb.w ∧ F32.add fa.x fa.w > fb.x ∧
          fa.y < F32.add fb.y fb.h ∧ F32.add fa.y fa.h > fb.y))) ∧
    (∀ p q : F32, nearest24 (p.units + q.units) (F32.add p q).units ∧
      (has24Bits (p.units + q.units) → (F32.add p q).units = p.units + q.units)) ∧
    (∀ (a b : rect) (ra rb : SDL_Rect), a.surface = true → a.data.rect = .ofRect ra →
      b.data.rect = .ofRect rb →
      isInt32 (ra.x + ra.w) → isInt32 (ra.y + ra.h) →
      isInt32 (rb.x + rb.w) → isInt32 (rb.y + rb.h) →
      (a.onTouch b = .ok true ↔
        (ra.x < rb.x + rb.w ∧ ra.x + ra.w > rb.x ∧
          ra.y < rb.y + rb.h ∧ ra.y + ra.h > rb.y))) ∧
    (∀ (a b : rect) (fa fb : SDL_FRect), a.surface = false → a.data.rect = .ofFRect fa →
      b.data.rect = .ofFRect fb →
      has24Bits (fa.x.units + fa.w.units) → has24Bits (fa.y.units + fa.h.units) →
      has24Bits (fb.x.units + fb.w.units) → has24Bits (fb.y.units + fb.h.units) →
      (a.onTouch b = .ok true ↔
        (fa.x.units < fb.x.units + fb.w.units ∧ fa.x.units + fa.w.units > fb.x.units ∧
          fa.y.units < fb.y.units + fb.h.units ∧
          fa.y.units + fa.h.units > fb.y.units))) ∧
    (∀ x w : Int, F32.smallInt x → F32.smallInt w → F32.smallInt (x + w) →
      (F32.ofInt x).units = x * F32.one_units ∧ (F32.ofInt w).units = w * F32.one_units ∧
      has24Bits ((F32.ofInt x).units + (F32.ofInt w).units)) ∧
    ((rect.construct surfaceApp 2147483640 0 5 10).onTouch
        (rect.construct surfaceApp 2147483642 0 10 10) = .ok false ∧
      (rect.construct renderApp 33554432 0 2 4).onTouch
        (rect.construct renderApp 33554432 0 7 4) = .ok false) := by
  refine ⟨?_, wrap32_spec, ?_, ?_, ?_, ?_, ?_, by decide⟩
  · intro a b ra rb hs ha hb
    rw [onTouch_int hs ha hb]
    exact ⟨⟨_, rfl⟩, by simp⟩
  · intro a b fa fb hs ha hb
    rw [onTouch_float hs ha hb]
    exact ⟨⟨_, rfl⟩, by simp⟩
  · intro p q
    exact ⟨F32.add_nearest24 p q, fun h => (has24Bits_iff_fixed _).mp h⟩
  · intro a b ra rb hs ha hb hax hay hbx hby
    rw [onTouch_int hs ha hb, wrap32_of_isInt32 hax, wrap32_of_isInt32 hay,
      wrap32_of_isInt32 hbx, wrap32_of_isInt32 hby]
    simp only [Except.ok.injEq, decide_eq_true_eq]
  · intro a b fa fb hs ha hb hax hay hbx hby
    rw [onTouch_float hs ha hb]
    have e1 : (F32.add fa.x fa.w).units = fa.x.units + fa.w.units :=
      (has24Bits_iff_fixed _).mp hax
    have e2 : (F32.add fa.y fa.h).units = fa.y.units + fa.h.units :=
      (has24Bits_iff_fixed _).mp hay
    have e3 : (F32.add fb.x fb.w).units = fb.x.units + fb.w.units :=
      (has24Bits_iff_fixed _).mp hbx
    have e4 : (F32.add fb.y fb.h).units = fb.y.units + fb.h.units :=
      (has24Bits_iff_fixed _).mp hby
    simp only [Except.ok.injEq, decide_eq_true_eq, gt_iff_lt, F32.lt_def, e1, e2, e3, e4]
  · intro x w hx hw hxw
    exact ⟨F32.ofInt_units hx, F32.ofInt_units hw,
      (has24Bits_iff_fixed _).mpr (F32.smallInt_sum_exact hx hw hxw).2⟩

/-- C1 witness: the surface-mode rects (2147483640,0,5,10) and (2147483642,0,10,10),
where `b.x + b.w` wraps, the surface-mode rects (0,0,10,10) and (9,0,10,10), and the
renderer-mode rects (0,0,10,10) and (9,0,10,10). -/
theorem onTouch_iff_formula_witness :
    ((rect.construct surfaceApp 2147483640 0 5 10).surface = true ∧
      (rect.construct surfaceApp 2147483640 0 5 10).data.rect
        = .ofRect ⟨2147483640, 0, 5, 10⟩ ∧
      (rect.construct surfaceApp 2147483642 0 10 10).data.rect
        = .ofRect ⟨2147483642, 0, 10, 10⟩ ∧
      wrap32 (2147483642 + 10) = -2147483644 ∧
      ((rect.construct surfaceApp 2147483640 0 5 10).onTouch
          (rect.construct surfaceApp 2147483642 0 10 10) = .ok true ↔
        ((2147483640 : Int) < wrap32 (2147483642 + 10) ∧
          wrap32 (2147483640 + 5) > (2147483642 : Int) ∧
          (0 : Int) < wrap32 (0 + 10) ∧ wrap32 (0 + 10) > (0 : Int)))) ∧
    ((rect.construct surfaceApp 0 0 10 10).surface = true ∧
      (rect.construct surfaceApp 0 0 10 10).data.rect = .ofRect ⟨0, 0, 10, 10⟩ ∧
      (rect.construct surfaceApp 9 0 10 10).data.rect = .ofRect ⟨9, 0, 10, 10⟩ ∧
      isInt32 (0 + 10) ∧ isInt32 (9 + 10) ∧
      (rect.construct surfaceApp 0 0 10 10).onTouch (rect.construct surfaceApp 9 0 10 10)
        = .ok true) ∧
    ((rect.construct renderApp 0 0 10 10).surface = false ∧
      (rect.construct renderApp 0 0 10 10).data.rect
        = .ofFRect ⟨F32.ofInt 0, F32.ofInt 0, F32.ofInt 10, F32.ofInt 10⟩ ∧
      (rect.construct renderApp 9 0 10 10).data.rect
        = .ofFRect ⟨F32.ofInt 9, F32.ofInt 0, F32.ofInt 10, F32.ofInt 10⟩ ∧
      (F32.smallInt 0 ∧ F32.smallInt 9 ∧ F32.smallInt 10 ∧ F32.smallInt (0 + 10) ∧
        F32.smallInt (9 + 10)) ∧
      (rect.construct renderApp 0 0 10 10).onTouch (rect.construct renderApp 9 0 10 10)
        = .ok true) :=
  ⟨⟨rfl, rfl, rfl, by decide,
    (onTouch_iff_formula.1 (rect.construct surfaceApp 2147483640 0 5 10)
      (rect.construct surfaceApp 2147483642 0 10 10) ⟨2147483640, 0, 5, 10⟩
      ⟨2147483642, 0, 10, 10⟩ rfl rfl rfl).2⟩,
   ⟨rfl, rfl, rfl, by decide, by decide,
    (onTouch_iff_formula.2.2.2.2.1 (rect.construct surfaceApp 0 0 10 10)
      (rect.construct surfaceApp 9 0 10 10) ⟨0, 0, 10, 10⟩ ⟨9, 0, 10, 10⟩
        rfl rfl rfl (by decide) (by decide) (by decide) (by decide)).mpr (by decide)⟩,
   ⟨rfl, rfl, rfl, by decide,
    (onTouch_iff_formula.2.2.2.2.2.1 (rect.construct renderApp 0 0 10 10)
      (rect.construct renderApp 9 0 10 10)
        ⟨F32.ofInt 0, F32.ofInt 0, F32.ofInt 10, F32.ofInt 10⟩
        ⟨F32.ofInt 9, F32.ofInt 0, F32.ofInt 10, F32.ofInt 10⟩ rfl rfl rfl
        (onTouch_iff_formula.2.2.2.2.2.2.1 0 10 (by decide) (by decide) (by decide)).2.2
        (onTouch_iff_formula.2.2.2.2.2.2.1 0 10 (by decide) (by decide) (by decide)).2.2
        (onTouch_iff_formula.2.2.2.2.2.2.1 9 10 (by decide) (by decide) (by decide)).2.2
        (onTouch_iff_formula.2.2.2.2.2.2.1 0 10 (by decide) (by decide) (by decide)).2.2).mpr
      (by decide)⟩⟩

/-- C2 counterexample: the zero-width rect (5,5,0,10) touches the rect (0,0,10,10) of
the same mode, in surface mode and in renderer mode. -/
theorem onTouch_zero_width_touches :
    ((rect.construct surfaceApp 5 5 0 10).getWidth = .ok 0 ∧
      (rect.construct surfaceApp 5 5 0 10).surface
        = (rect.construct surfaceApp 0 0 10 10).surface ∧
      (rect.construct surfaceApp 5 5 0 10).onTouch (rect.construct surfaceApp 0 0 10 10)
        = .ok true) ∧
    ((rect.construct renderApp 5 5 0 10).getWidth = .ok 0 ∧
      (rect.construct renderApp 5 5 0 10).surface
        = (rect.construct renderApp 0 0 10 10).surface ∧
      (rect.construct renderApp 5 5 0 10).onTouch (rect.construct renderApp 0 0 10 10)
        = .ok true) := by
  decide

/-- C2, amended: `a.onTouch(b)` returns false for same-mode rects whenever
`a.w + b.w <= 0` or `a.h + b.h <= 0`; in particular a rect with `w <= 0` (or `h <= 0`)
never touches itself, nor any same-mode rect whose `w` (or `h`) is also `<= 0`.  In
surface mode the sums `x + w` and `y + h` are taken not to overflow; in renderer mode
the stored positions are binary32 numbers. -/
theorem onTouch_degenerate_pair_false :
    (∀ (a b : rect) (ra rb : SDL_Rect), a.surface = true → a.data.rect = .ofRect ra →
      b.data.rect = .ofRect rb →
      isInt32 (ra.x + ra.w) → isInt32 (ra.y + ra.h) →
      isInt32 (rb.x + rb.w) → isInt32 (rb.y + rb.h) →
      (ra.w + rb.w ≤ 0 ∨ ra.h + rb.h ≤ 0) →
      a.onTouch b = .ok false) ∧
    (∀ (a b : rect) (fa fb : SDL_FRect), a.surface = false → a.data.rect = .ofFRect fa →
      b.data.rect = .ofFRect fb →
      fa.x.representable → fa.y.representable → fb.x.representable → fb.y.representable →
      (fa.w.units + fb.w.units ≤ 0 ∨ fa.h.units + fb.h.units ≤ 0) →
      a.onTouch b = .ok false) := by
  refine ⟨?_, ?_⟩
  · intro a b ra rb hs ha hb hax hay hbx hby hdeg
    rw [onTouch_int hs ha hb, wrap32_of_isInt32 hax, wrap32_of_isInt32 hay,
      wrap32_of_isInt32 hbx, wrap32_of_isInt32 hby]
    congr 1
    rw [decide_eq_false_iff_not]
    omega
  · intro a b fa fb hs ha hb hax hay hbx hby hdeg
    rw [onTouch_float hs ha hb]
    congr 1
    rw [decide_eq_false_iff_not]
    rintro ⟨h1, h2, h3, h4⟩
    have e1 := F32.lt_of_lt_add hax h1
    have e2 := F32.lt_of_lt_add hbx h2
    have e3 := F32.lt_of_lt_add hay h3
    have e4 := F32.lt_of_lt_add hby h4
    omega

/-- C2 witness: the rect (5,5,0,10) against itself in surface mode, and the rect
(3,4,-2,10) against the rect (1,4,2,10) in renderer mode. -/
theorem onTouch_degenerate_pair_false_witness :
    ((rect.construct surfaceApp 5 5 0 10).surface = true ∧
      (rect.construct surfaceApp 5 5 0 10).data.rect = .ofRect ⟨5, 5, 0, 10⟩ ∧
      isInt32 (5 + 0) ∧ isInt32 (5 + 10) ∧ (0 : Int) + 0 ≤ 0 ∧
      (rect.construct surfaceApp 5 5 0 10).onTouch (rect.construct surfaceApp 5 5 0 10)
        = .ok false) ∧
    ((rect.construct renderApp 3 4 (-2) 10).surface = false ∧
      (rect.construct renderApp 3 4 (-2) 10).data.rect
        = .ofFRect ⟨F32.ofInt 3, F32.ofInt 4, F32.ofInt (-2), F32.ofInt 10⟩ ∧
      (rect.construct renderApp 1 4 2 10).data.rect
        = .ofFRect ⟨F32.ofInt 1, F32.ofInt 4, F32.ofInt 2, F32.ofInt 10⟩ ∧
      (F32.ofInt 3).representable ∧ (F32.ofInt 4).representable ∧
      (F32.ofInt 1).representable ∧
      (F32.ofInt (-2)).units + (F32.ofInt 2).units ≤ 0 ∧
      (rect.construct renderApp 3 4 (-2) 10).onTouch (rect.construct renderApp 1 4 2 10)
        = .ok false) :=
  ⟨⟨rfl, rfl, by decide, by decide, by decide,
    onTouch_degenerate_pair_false.1 (rect.construct surfaceApp 5 5 0 10)
      (rect.construct surfaceApp 5 5 0 10) ⟨5, 5, 0, 10⟩ ⟨5, 5, 0, 10⟩ rfl rfl rfl
      (by decide) (by decide) (by decide) (by decide) (Or.inl (by decide))⟩,
   ⟨rfl, rfl, rfl, by decide, by decide, by decide, by decide,
    onTouch_degenerate_pair_false.2 (rect.construct renderApp 3 4 (-2) 10)
      (rect.construct renderApp 1 4 2 10)
      ⟨F32.ofInt 3, F32.ofInt 4, F32.ofInt (-2), F32.ofInt 10⟩
      ⟨F32.ofInt 1, F32.ofInt 4, F32.ofInt 2, F32.ofInt 10⟩ rfl rfl rfl
      (by decide) (by decide) (by decide) (by decide) (Or.inl (by decide))⟩⟩

/-- C3 counterexample: in renderer mode the rects (16777216,3,5,8) and (16777220,3,6,8)
store their numbers exactly, have positive sizes and the same `y` range, and `b` lies
one unit inside `a` (`b.x + 1 = a.x + a.w = 16777221`), yet `a.onTouch(b)` returns
false: the `float` sum `a.x + a.w` rounds to 16777220. -/
theorem onTouch_one_unit_overlap_rounds :
    (rect.construct renderApp 16777216 3 5 8).surface
      = (rect.construct renderApp 16777220 3 6 8).surface ∧
    (rect.construct renderApp 16777216 3 5 8).data.rect
      = .ofFRect ⟨⟨16777216 * 2 ^ 149⟩, ⟨3 * 2 ^ 149⟩, ⟨5 * 2 ^ 149⟩, ⟨8 * 2 ^ 149⟩⟩ ∧
    (rect.construct renderApp 16777220 3 6 8).data.rect
      = .ofFRect ⟨⟨16777220 * 2 ^ 149⟩, ⟨3 * 2 ^ 149⟩, ⟨6 * 2 ^ 149⟩, ⟨8 * 2 ^ 149⟩⟩ ∧
    (16777220 * 2 ^ 149 + F32.one_units : Int) = 16777216 * 2 ^ 149 + 5 * 2 ^ 149 ∧
    (rect.construct renderApp 16777216 3 5 8).onTouch
      (rect.construct renderApp 16777220 3 6 8) = .ok false := by
  decide

/-- C3, amended: when the right edge of `a` only meets the left edge of `b`
(`a.x + a.w = b.x`, whether the sum is the one the mode computes or the exact one),
`a.onTouch(b)` and `b.onTouch(a)` both return false, as for the rects (0,0,10,10) and
(10,0,10,10).  When `b` lies one unit inside `a` (`b.x + 1 = a.x + a.w`) with the same
`y` range and positive sizes, as for the rects (0,0,10,10) and (9,0,10,10), both return
true, provided the sums `x + w` and `y + h` do not overflow (surface mode) or round
(renderer mode, where the width of `a` is at least one unit). -/
theorem onTouch_edges_meet_false :
    (∀ (a b : rect) (ra rb : SDL_Rect), a.surface = true → b.surface = true →
      a.data.rect = .ofRect ra → b.data.rect = .ofRect rb →
      wrap32 (ra.x + ra.w) = rb.x →
      a.onTouch b = .ok false ∧ b.onTouch a = .ok false) ∧
    (∀ (a b : rect) (fa fb : SDL_FRect), a.surface = false → b.surface = false →
      a.data.rect = .ofFRect fa → b.data.rect = .ofFRect fb →
      F32.add fa.x fa.w = fb.x →
      a.onTouch b = .ok false ∧ b.onTouch a = .ok false) ∧
    (∀ (a b : rect) (ra rb : SDL_Rect), a.surface = true → b.surface = true →
      a.data.rect = .ofRect ra → b.data.rect = .ofRect rb →
      isInt32 rb.x → ra.x + ra.w = rb.x →
      a.onTouch b = .ok false ∧ b.onTouch a = .ok false) ∧
    (∀ (a b : rect) (fa fb : SDL_FRect), a.surface = false → b.surface = false →
      a.data.rect = .ofFRect fa → b.data.rect = .ofFRect fb →
      fb.x.representable → fa.x.units + fa.w.units = fb.x.units →
      a.onTouch b = .ok false ∧ b.onTouch a = .ok false) ∧
    (∀ (a b : rect) (ra rb : SDL_Rect), a.surface = true → b.surface = true →
      a.data.rect = .ofRect ra → b.data.rect = .ofRect rb →
      0 < ra.w → 0 < ra.h → 0 < rb.w → rb.y = ra.y → rb.h = ra.h →
      rb.x + 1 = ra.x + ra.w →
      isInt32 (ra.x + ra.w) → isInt32 (ra.y + ra.h) → isInt32 (rb.x + rb.w) →
      a.onTouch b = .ok true ∧ b.onTouch a = .ok true) ∧
    (∀ (a b : rect) (fa fb : SDL_FRect), a.surface = false → b.surface = false →
      a.data.rect = .ofFRect fa → b.data.rect = .ofFRect fb →
      F32.one_units ≤ fa.w.units → 0 < fa.h.units → 0 < fb.w.units →
      fb.y = fa.y → fb.h = fa.h →
      fb.x.units + F32.one_units = fa.x.units + fa.w.units →
      has24Bits (fa.x.units + fa.w.units) → has24Bits (fa.y.units + fa.h.units) →
      has24Bits (fb.x.units + fb.w.units) →
      a.onTouch b = .ok true ∧ b.onTouch a = .ok true) ∧
    ((rect.construct surfaceApp 0 0 10 10).onTouch (rect.construct surfaceApp 10 0 10 10)
        = .ok false ∧
      (rect.construct surfaceApp 10 0 10 10).onTouch (rect.construct surfaceApp 0 0 10 10)
        = .ok false ∧
      (rect.construct renderApp 0 0 10 10).onTouch (rect.construct renderApp 10 0 10 10)
        = .ok false ∧
      (rect.construct renderApp 10 0 10 10).onTouch (rect.construct renderApp 0 0 10 10)
        = .ok false) ∧
    ((rect.construct surfaceApp 0 0 10 10).onTouch (rect.construct surfaceApp 9 0 10 10)
        = .ok true ∧
      (rect.construct surfaceApp 9 0 10 10).onTouch (rect.construct surfaceApp 0 0 10 10)
        = .ok true ∧
      (rect.construct renderApp 0 0 10 10).onTouch (rect.construct renderApp 9 0 10 10)
        = .ok true ∧
      (rect.construct renderApp 9 0 10 10).onTouch (rect.construct renderApp 0 0 10 10)
        = .ok true) := by
  have hint : ∀ (a b : rect) (ra rb : SDL_Rect), a.surface = true → b.surface = true →
      a.data.rect = .ofRect ra → b.data.rect = .ofRect rb →
      wrap32 (ra.x + ra.w) = rb.x →
      a.onTouch b = .ok false ∧ b.onTouch a = .ok false := by
    intro a b ra rb hsa hsb ha hb hedge
    rw [onTouch_int hsa ha hb, onTouch_int hsb hb ha, hedge]
    constructor <;> congr 1 <;> rw [decide_eq_false_iff_not] <;> omega
  have hfloat : ∀ (a b : rect) (fa fb : SDL_FRect), a.surface = false → b.surface = false →
      a.data.rect = .ofFRect fa → b.data.rect = .ofFRect fb →
      F32.add fa.x fa.w = fb.x →
      a.onTouch b = .ok false ∧ b.onTouch a = .ok false := by
    intro a b fa fb hsa hsb ha hb hedge
    rw [onTouch_float hsa ha hb, onTouch_float hsb hb ha, hedge]
    constructor <;> congr 1 <;> rw [decide_eq_false_iff_not] <;>
      simp only [F32.lt_def, gt_iff_lt] <;> omega
  refine ⟨hint, hfloat, ?_, ?_, ?_, ?_, by decide, by decide⟩
  · intro a b ra rb hsa hsb ha hb hr hedge
    refine hint a b ra rb hsa hsb ha hb ?_
    rw [hedge]
    exact wrap32_of_isInt32 hr
  · intro a b fa fb hsa hsb ha hb hr hedge
    refine hfloat a b fa fb hsa hsb ha hb ?_
    have e : (F32.add fa.x fa.w).units = fb.x.units := by
      simp only [F32.add, hedge]
      exact hr
    cases hx : fb.x
    cases hy : F32.add fa.x fa.w
    simp_all
  · intro a b ra rb hsa hsb ha hb haw hah hbw hy hh hone hax hay hbx
    have hby : isInt32 (rb.y + rb.h) := by rw [hy, hh]; exact hay
    rw [onTouch_int hsa ha hb, onTouch_int hsb hb ha, wrap32_of_isInt32 hax,
      wrap32_of_isInt32 hay, wrap32_of_isInt32 hbx, wrap32_of_isInt32 hby]
    constructor <;> congr 1 <;> rw [decide_eq_true_eq] <;> omega
  · intro a b fa fb hsa hsb ha hb haw hah hbw hy hh hone hax hay hbx
    have hby : has24Bits (fb.y.units + fb.h.units) := by rw [hy, hh]; exact hay
    have e1 : (F32.add fa.x fa.w).units = fa.x.units + fa.w.units :=
      (has24Bits_iff_fixed _).mp hax
    have e2 : (F32.add fa.y fa.h).units = fa.y.units + fa.h.units :=
      (has24Bits_iff_fixed _).mp hay
    have e3 : (F32.add fb.x fb.w).units = fb.x.units + fb.w.units :=
      (has24Bits_iff_fixed _).mp hbx
    have e4 : (F32.add fb.y fb.h).units = fb.y.units + fb.h.units :=
      (has24Bits_iff_fixed _).mp hby
    have hyu : fb.y.units = fa.y.units := by rw [hy]
    have hhu : fb.h.units = fa.h.units := by rw [hh]
    have hpos : (0 : Int) < F32.one_units := by unfold F32.one_units; positivity
    rw [onTouch_float hsa ha hb, onTouch_float hsb hb ha]
    constructor <;> congr 1 <;> rw [decide_eq_true_eq] <;>
      simp only [F32.lt_def, gt_iff_lt, e1, e2, e3, e4] <;> omega

/-- C3 witness: the rects (0,0,10,10) and (10,0,10,10) in surface mode and the rects
(-4,1,6,3) and (2,0,5,5) in renderer mode, whose edges meet; the rects (0,0,10,10) and
(9,0,4,10) in surface mode and the rects (-4,1,6,3) and (1,1,2,3) in renderer mode,
where the second lies one unit inside the first. -/
theorem onTouch_edges_meet_false_witness :
    ((rect.construct surfaceApp 0 0 10 10).surface = true ∧
      (rect.construct surfaceApp 10 0 10 10).surface = true ∧
      (rect.construct surfaceApp 0 0 10 10).data.rect = .ofRect ⟨0, 0, 10, 10⟩ ∧
      (rect.construct surfaceApp 10 0 10 10).data.rect = .ofRect ⟨10, 0, 10, 10⟩ ∧
      wrap32 (0 + 10) = 10 ∧
      (rect.construct surfaceApp 0 0 10 10).onTouch (rect.construct surfaceApp 10 0 10 10)
        = .ok false ∧
      (rect.construct surfaceApp 10 0 10 10).onTouch (rect.construct surfaceApp 0 0 10 10)
        = .ok false) ∧
    ((rect.construct renderApp (-4) 1 6 3).surface = false ∧
      (rect.construct renderApp 2 0 5 5).surface = false ∧
      (rect.construct renderApp (-4) 1 6 3).data.rect
        = .ofFRect ⟨F32.ofInt (-4), F32.ofInt 1, F32.ofInt 6, F32.ofInt 3⟩ ∧
      (rect.construct renderApp 2 0 5 5).data.rect
        = .ofFRect ⟨F32.ofInt 2, F32.ofInt 0, F32.ofInt 5, F32.ofInt 5⟩ ∧
      F32.add (F32.ofInt (-4)) (F32.ofInt 6) = F32.ofInt 2 ∧
      (rect.construct renderApp (-4) 1 6 3).onTouch (rect.construct renderApp 2 0 5 5)
        = .ok false ∧
      (rect.construct renderApp 2 0 5 5).onTouch (rect.construct renderApp (-4) 1 6 3)
        = .ok false) ∧
    ((rect.construct surfaceApp 9 0 4 10).surface = true ∧
      (rect.construct surfaceApp 9 0 4 10).data.rect = .ofRect ⟨9, 0, 4, 10⟩ ∧
      ((0 : Int) < 10 ∧ (0 : Int) < 4 ∧ (9 : Int) + 1 = 0 + 10) ∧
      (isInt32 (0 + 10) ∧ isInt32 (9 + 4)) ∧
      (rect.construct surfaceApp 0 0 10 10).onTouch (rect.construct surfaceApp 9 0 4 10)
        = .ok true ∧
      (rect.construct surfaceApp 9 0 4 10).onTouch (rect.construct surfaceApp 0 0 10 10)
        = .ok true) ∧
    ((rect.construct renderApp 1 1 2 3).surface = false ∧
      (rect.construct renderApp 1 1 2 3).data.rect
        = .ofFRect ⟨F32.ofInt 1, F32.ofInt 1, F32.ofInt 2, F32.ofInt 3⟩ ∧
      (F32.one_units ≤ (F32.ofInt 6).units ∧ 0 < (F32.ofInt 3).units ∧
        0 < (F32.ofInt 2).units) ∧
      (F32.ofInt 1).units + F32.one_units = (F32.ofInt (-4)).units + (F32.ofInt 6).units ∧
      (rect.construct renderApp (-4) 1 6 3).onTouch (rect.construct renderApp 1 1 2 3)
        = .ok true ∧
      (rect.construct renderApp 1 1 2 3).onTouch (rect.construct renderApp (-4) 1 6 3)
        = .ok true) :=
  ⟨⟨rfl, rfl, rfl, rfl, by decide,
    onTouch_edges_meet_false.1 (rect.construct surfaceApp 0 0 10 10)
      (rect.construct surfaceApp 10 0 10 10) ⟨0, 0, 10, 10⟩ ⟨10, 0, 10, 10⟩
      rfl rfl rfl rfl (by decide)⟩,
   ⟨rfl, rfl, rfl, rfl, by decide,
    onTouch_edges_meet_false.2.1 (rect.construct renderApp (-4) 1 6 3)
      (rect.construct renderApp 2 0 5 5)
      ⟨F32.ofInt (-4), F32.ofInt 1, F32.ofInt 6, F32.ofInt 3⟩
      ⟨F32.ofInt 2, F32.ofInt 0, F32.ofInt 5, F32.ofInt 5⟩
      rfl rfl rfl rfl (by decide)⟩,
   ⟨rfl, rfl, by decide, by decide,
    onTouch_edges_meet_false.2.2.2.2.1 (rect.construct surfaceApp 0 0 10 10)
      (rect.construct surfaceApp 9 0 4 10) ⟨0, 0, 10, 10⟩ ⟨9, 0, 4, 10⟩
      rfl rfl rfl rfl (by decide) (by decide) (by decide) rfl rfl (by decide)
      (by decide) (by decide) (by decide)⟩,
   ⟨rfl, rfl, by decide, by decide,
    onTouch_edges_meet_false.2.2.2.2.2.1 (rect.construct renderApp (-4) 1 6 3)
      (rect.construct renderApp 1 1 2 3)
      ⟨F32.ofInt (-4), F32.ofInt 1, F32.ofInt 6, F32.ofInt 3⟩
      ⟨F32.ofInt 1, F32.ofInt 1, F32.ofInt 2, F32.ofInt 3⟩
      rfl rfl rfl rfl (by decide) (by decide) (by decide) rfl rfl (by decide)
      ((has24Bits_iff_fixed _).mpr (by decide)) ((has24Bits_iff_fixed _).mpr (by decide))
      ((has24Bits_iff_fixed _).mpr (by decide))⟩⟩

/-- C4 counterexample: the rects (0,0,10,10) and (10,0,10,10) have positive sizes, the
same vertical extent and exactly touching edges (0 + 10 = 10), and `onTouch` returns
false for them, in surface mode and in renderer mode. -/
theorem onTouch_touching_edges_not_overlap :
    ((rect.construct surfaceApp 0 0 10 10).data.rect = .ofRect ⟨0, 0, 10, 10⟩ ∧
      (rect.construct surfaceApp 10 0 10 10).data.rect = .ofRect ⟨10, 0, 10, 10⟩ ∧
      (0 : Int) + 10 = 10 ∧
      (rect.construct surfaceApp 0 0 10 10).onTouch (rect.construct surfaceApp 10 0 10 10)
        = .ok false) ∧
    ((rect.construct renderApp 0 0 10 10).getX = .ok 0 ∧
      (rect.construct renderApp 0 0 10 10).getWidth = .ok 10 ∧
      (rect.construct renderApp 10 0 10 10).getX = .ok 10 ∧
      (rect.construct renderApp 0 0 10 10).onTouch (rect.construct renderApp 10 0 10 10)
        = .ok false) := by
  decide

/-- C4, amended: `onTouch` does not count touching edges as overlap: for same-mode rects
`a` and `b` with positive width and height whose vertical extents overlap and whose edges
exactly touch (`a.x + a.w = b.x`), `a.onTouch(b)` returns false. -/
theorem onTouch_touching_edges_false (a b : rect) :
    (∀ ra rb : SDL_Rect, a.surface = true → a.data.rect = .ofRect ra →
      b.data.rect = .ofRect rb →
      0 < ra.w → 0 < ra.h → 0 < rb.w → 0 < rb.h →
      ra.y < wrap32 (rb.y + rb.h) → rb.y < wrap32 (ra.y + ra.h) →
      wrap32 (ra.x + ra.w) = rb.x →
      a.onTouch b = .ok false) ∧
    (∀ fa fb : SDL_FRect, a.surface = false → a.data.rect = .ofFRect fa →
      b.data.rect = .ofFRect fb →
      (⟨0⟩ : F32) < fa.w → (⟨0⟩ : F32) < fa.h → (⟨0⟩ : F32) < fb.w → (⟨0⟩ : F32) < fb.h →
      fa.y < F32.add fb.y fb.h → fb.y < F32.add fa.y fa.h →
      F32.add fa.x fa.w = fb.x →
      a.onTouch b = .ok false) := by
  refine ⟨?_, ?_⟩
  · intro ra rb hs ha hb _ _ _ _ _ _ hedge
    rw [onTouch_int hs ha hb, hedge]
    congr 1
    rw [decide_eq_false_iff_not]
    omega
  · intro fa fb hs ha hb _ _ _ _ _ _ hedge
    rw [onTouch_float hs ha hb, hedge]
    congr 1
    rw [decide_eq_false_iff_not]
    simp only [F32.lt_def, gt_iff_lt]
    omega

/-- C4 witness: the rects (0,0,10,10) and (10,0,10,10) in surface mode, and the rects
(1,2,3,4) and (4,3,2,2) in renderer mode. -/
theorem onTouch_touching_edges_false_witness :
    ((rect.construct surfaceApp 0 0 10 10).surface = true ∧
      (rect.construct surfaceApp 0 0 10 10).data.rect = .ofRect ⟨0, 0, 10, 10⟩ ∧
      (rect.construct surfaceApp 10 0 10 10).data.rect = .ofRect ⟨10, 0, 10, 10⟩ ∧
      (0 : Int) < 10 ∧ (0 : Int) < wrap32 (0 + 10) ∧ wrap32 (0 + 10) = 10 ∧
      (rect.construct surfaceApp 0 0 10 10).onTouch (rect.construct surfaceApp 10 0 10 10)
        = .ok false) ∧
    ((rect.construct renderApp 1 2 3 4).surface = false ∧
      (rect.construct renderApp 1 2 3 4).data.rect
        = .ofFRect ⟨F32.ofInt 1, F32.ofInt 2, F32.ofInt 3, F32.ofInt 4⟩ ∧
      (rect.construct renderApp 4 3 2 2).data.rect
        = .ofFRect ⟨F32.ofInt 4, F32.ofInt 3, F32.ofInt 2, F32.ofInt 2⟩ ∧
      (⟨0⟩ : F32) < F32.ofInt 3 ∧ (⟨0⟩ : F32) < F32.ofInt 4 ∧ (⟨0⟩ : F32) < F32.ofInt 2 ∧
      F32.ofInt 2 < F32.add (F32.ofInt 3) (F32.ofInt 2) ∧
      F32.ofInt 3 < F32.add (F32.ofInt 2) (F32.ofInt 4) ∧
      F32.add (F32.ofInt 1) (F32.ofInt 3) = F32.ofInt 4 ∧
      (rect.construct renderApp 1 2 3 4).onTouch (rect.construct renderApp 4 3 2 2)
        = .ok false) :=
  ⟨⟨rfl, rfl, rfl, by decide, by decide, by decide,
    (onTouch_touching_edges_false (rect.construct surfaceApp 0 0 10 10)
      (rect.construct surfaceApp 10 0 10 10)).1 ⟨0, 0, 10, 10⟩ ⟨10, 0, 10, 10⟩
      rfl rfl rfl (by decide) (by decide) (by decide) (by decide) (by decide) (by decide)
      (by decide)⟩,
   ⟨rfl, rfl, rfl, by decide, by decide, by decide, by decide, by decide, by decide,
    (onTouch_touching_edges_false (rect.construct renderApp 1 2 3 4)
      (rect.construct renderApp 4 3 2 2)).2
      ⟨F32.ofInt 1, F32.ofInt 2, F32.ofInt 3, F32.ofInt 4⟩
      ⟨F32.ofInt 4, F32.ofInt 3, F32.ofInt 2, F32.ofInt 2⟩
      rfl rfl rfl (by decide) (by decide) (by decide) (by decide) (by decide) (by decide)
      (by decide)⟩⟩

/-! ## Getters after `setRect` -/

theorem getters_int {r : rect} {g : SDL_Rect} (hs : r.surface = true)
    (hg : r.data.rect = .ofRect g) :
    r.getX = .ok g.x ∧ r.getY = .ok g.y ∧ r.getWidth = .ok g.w ∧ r.getHeight = .ok g.h := by
  simp only [rect.getX, rect.getY, rect.getWidth, rect.getHeight, hs, hg, get_SDL_Rect, if_true]
  exact ⟨rfl, rfl, rfl, rfl⟩

theorem getters_float {r : rect} {g : SDL_FRect} (hs : r.surface = false)
    (hg : r.data.rect = .ofFRect g) :
    r.getX = g.x.toInt ∧ r.getY = g.y.toInt ∧ r.getWidth = g.w.toInt ∧
      r.getHeight = g.h.toInt := by
  simp only [rect.getX, rect.getY, rect.getWidth, rect.getHeight, hs, hg, get_SDL_FRect]
  exact ⟨rfl, rfl, rfl, rfl⟩

/-- C5 counterexample: in renderer mode `setRect(16777217, 0, 0, 0)` followed by `getX()`
returns 16777216, since 2^24 + 1 is not a binary32 number. -/
theorem setRect_getX_float_inexact :
    (rect.construct renderApp 0 0 0 0).surface = false ∧
    Except.bind ((rect.construct renderApp 0 0 0 0).setRect 16777217 0 0 0) rect.getX
      = .ok 16777216 := by
  decide

/-- C5, amended: `setRect(x, y, w, h)` followed by `getX/getY/getWidth/getHeight`
returns exactly `x, y, w, h` for all integers in surface mode.  In renderer mode the
record holds the arguments converted to `float`, and each getter returns its argument
rounded to a nearest number of 24 significant bits, whenever that number fits in `int`:
this is the argument itself exactly when the argument has at most 24 significant bits,
as every integer of magnitude at most 2^24 = 16777216 has, and another value otherwise,
as 16777216 for 16777217. -/
theorem setRect_get_roundtrip :
    (∀ (r : rect) (x y w h : Int), r.surface = true →
      ∃ r1, r.setRect x y w h = .ok r1 ∧ r1.getX = .ok x ∧ r1.getY = .ok y ∧
        r1.getWidth = .ok w ∧ r1.getHeight = .ok h) ∧
    (∀ (r : rect) (x y w h : Int), r.surface = false →
      ∃ r1, r.setRect x y w h = .ok r1 ∧
        r1.data.rect = .ofFRect ⟨F32.ofInt x, F32.ofInt y, F32.ofInt w, F32.ofInt h⟩ ∧
        (isInt32 (round24 x) → r1.getX = .ok (round24 x)) ∧
        (isInt32 (round24 y) → r1.getY = .ok (round24 y)) ∧
        (isInt32 (round24 w) → r1.getWidth = .ok (round24 w)) ∧
        (isInt32 (round24 h) → r1.getHeight = .ok (round24 h))) ∧
    (∀ v : Int, nearest24 v (round24 v) ∧ (round24 v = v ↔ has24Bits v) ∧
      ((F32.ofInt v).units = v * F32.one_units ↔ has24Bits v) ∧
      (F32.smallInt v → isInt32 v ∧ has24Bits v)) ∧
    (round24 16777217 = 16777216 ∧ round24 33554432 = 33554432 ∧
      round24 (-16777219) = -16777220) := by
  refine ⟨?_, ?_, ?_, by decide⟩
  · intro r x y w h hs
    obtain ⟨s, d, p⟩ := r
    simp only at hs
    subst hs
    exact ⟨_, rfl, getters_int (g := ⟨x, y, w, h⟩) rfl rfl⟩
  · intro r x y w h hs
    obtain ⟨s, d, p⟩ := r
    simp only at hs
    subst hs
    refine ⟨_, rfl, rfl, ?_⟩
    obtain ⟨e1, e2, e3, e4⟩ := getters_float (r := ⟨false, { d with
      rect := .ofFRect ⟨F32.ofInt x, F32.ofInt y, F32.ofInt w, F32.ofInt h⟩ }, p⟩) rfl rfl
    rw [e1, e2, e3, e4]
    exact ⟨F32.toInt_ofInt_of_inRange, F32.toInt_ofInt_of_inRange,
      F32.toInt_ofInt_of_inRange, F32.toInt_ofInt_of_inRange⟩
  · intro v
    refine ⟨round24_nearest24 v, (has24Bits_iff_fixed v).symm, ?_, ?_⟩
    · rw [F32.ofInt_units_eq_iff]
      exact (has24Bits_iff_fixed v).symm
    · intro hv
      exact ⟨(F32.exactInt_of_smallInt hv).1,
        (has24Bits_iff_fixed v).mpr (F32.exactInt_of_smallInt hv).2⟩

/-- C5 witness: `setRect(-3, 7, 16777219, 33554432)` on a surface-mode and on a
renderer-mode rect; 33554432 = 2^25 has one significant bit and reads back unchanged,
16777219 reads back as 16777220 in renderer mode. -/
theorem setRect_get_roundtrip_witness :
    ((rect.construct surfaceApp 1 2 3 4).surface = true ∧
      Except.bind ((rect.construct surfaceApp 1 2 3 4).setRect (-3) 7 16777219 33554432)
        rect.getX = .ok (-3) ∧
      Except.bind ((rect.construct surfaceApp 1 2 3 4).setRect (-3) 7 16777219 33554432)
        rect.getY = .ok 7 ∧
      Except.bind ((rect.construct surfaceApp 1 2 3 4).setRect (-3) 7 16777219 33554432)
        rect.getWidth = .ok 16777219 ∧
      Except.bind ((rect.construct surfaceApp 1 2 3 4).setRect (-3) 7 16777219 33554432)
        rect.getHeight = .ok 33554432) ∧
    ((rect.construct renderApp 1 2 3 4).surface = false ∧
      (isInt32 (round24 (-3)) ∧ isInt32 (round24 7) ∧ isInt32 (round24 16777219) ∧
        isInt32 (round24 33554432)) ∧
      Except.bind ((rect.construct renderApp 1 2 3 4).setRect (-3) 7 16777219 33554432)
        rect.getX = .ok (-3) ∧
      Except.bind ((rect.construct renderApp 1 2 3 4).setRect (-3) 7 16777219 33554432)
        rect.getY = .ok 7 ∧
      Except.bind ((rect.construct renderApp 1 2 3 4).setRect (-3) 7 16777219 33554432)
        rect.getWidth = .ok 16777220 ∧
      Except.bind ((rect.construct renderApp 1 2 3 4).setRect (-3) 7 16777219 33554432)
        rect.getHeight = .ok 33554432) ∧
    (F32.smallInt (-16777216) ∧ isInt32 (-16777216) ∧ has24Bits (-16777216)) := by
  refine ⟨⟨rfl, ?_⟩, ⟨rfl, by decide, ?_⟩,
    ⟨by decide, (setRect_get_roundtrip.2.2.1 (-16777216)).2.2.2 (by decide)⟩⟩
  · obtain ⟨r1, h1, h2, h3, h4, h5⟩ :=
      setRect_get_roundtrip.1 (rect.construct surfaceApp 1 2 3 4) (-3) 7 16777219 33554432
        rfl
    rw [h1]; exact ⟨h2, h3, h4, h5⟩
  · obtain ⟨r1, h1, -, h2, h3, h4, h5⟩ :=
      setRect_get_roundtrip.2.1 (rect.construct renderApp 1 2 3 4) (-3) 7 16777219 33554432
        rfl
    rw [h1]
    exact ⟨h2 (by decide), h3 (by decide), h4 (by decide), h5 (by decide)⟩

/-! ## Pointer test (`onHover`) -/

theorem onHover_int {r : rect} {g : SDL_Rect} (px py : F32) (hs : r.surface = true)
    (hg : r.data.rect = .ofRect g) :
    r.onHover px py = .ok (decide (px ≥ F32.ofInt g.x ∧ px ≤ F32.ofInt (wrap32 (g.x + g.w)) ∧
      py ≥ F32.ofInt g.y ∧ py ≤ F32.ofInt (wrap32 (g.y + g.h)))) := by
  simp only [rect.onHover, hs, hg, get_SDL_Rect, if_true]
  rfl

theorem onHover_float {r : rect} {g : SDL_FRect} (px py : F32) (hs : r.surface = false)
    (hg : r.data.rect = .ofFRect g) :
    r.onHover px py = .ok (decide (px ≥ g.x ∧ px ≤ F32.add g.x g.w ∧
      py ≥ g.y ∧ py ≤ F32.add g.y g.h)) := by
  simp only [rect.onHover, hs, hg, get_SDL_FRect]
  rfl

theorem F32.ofInt_units_of_exact {v : Int} (h : F32.exactInt v) :
    (F32.ofInt v).units = v * F32.one_units := by
  rw [F32.ofInt_units_scale, h]
  rfl

theorem F32.add_units_of_exact {a b : F32} (h : F32.representable ⟨a.units + b.units⟩) :
    (F32.add a b).units = a.units + b.units := h

/-- C6 counterexample: for the surface-mode rect (16777217,0,0,10) and the pointer at
(16777216,5) the bound `px >= x` fails, yet `onHover()` returns true, because `x`
converts to the `float` 16777216; for the renderer-mode rect (16777216,0,3,10) and the
pointer at (16777220,5) the bound `px <= x + w` fails on the stored values, yet
`onHover()` returns true, because the `float` sum `x + w` rounds to 16777220. -/
theorem onHover_bound_rounds :
    ((rect.construct surfaceApp 16777217 0 0 10).data.rect
        = .ofRect ⟨16777217, 0, 0, 10⟩ ∧
      ¬ ((16777216 * 2 ^ 149 : Int) ≥ 16777217 * 2 ^ 149) ∧
      (rect.construct surfaceApp 16777217 0 0 10).onHover ⟨16777216 * 2 ^ 149⟩
        ⟨5 * 2 ^ 149⟩ = .ok true) ∧
    ((rect.construct renderApp 16777216 0 3 10).data.rect
        = .ofFRect ⟨⟨16777216 * 2 ^ 149⟩, ⟨0⟩, ⟨3 * 2 ^ 149⟩, ⟨10 * 2 ^ 149⟩⟩ ∧
      ¬ ((16777220 * 2 ^ 149 : Int) ≤ 16777216 * 2 ^ 149 + 3 * 2 ^ 149) ∧
      (rect.construct renderApp 16777216 0 3 10).onHover ⟨16777220 * 2 ^ 149⟩
        ⟨5 * 2 ^ 149⟩ = .ok true) := by
  decide

/-- C6, amended: with the pointer position `(px, py)` as an input, `onHover()` returns
normally, and returns true exactly when `px >= x`, `px <= x + w`, `py >= y` and
`py <= y + h`, all four bounds inclusive, where the comparisons are `float` comparisons
of the pointer position with the bounds the mode computes: in surface mode `x`, `y` and
the 32-bit `int` sums `x + w`, `y + h`, each converted to `float`, that is rounded to a
nearest number of 24 significant bits; in renderer mode `x`, `y` and the `float` sums,
which are the exact sums rounded likewise.  Whenever every bound has at most 24
significant bits and no `int` sum overflows, as when the bounds are integers of
magnitude at most 2^24, these are the comparisons with the exact bounds.  For the rect
(0,0,10,10) a pointer at (10,10) gives true and a pointer at (11,10) gives false. -/
theorem onHover_iff_inclusive_bounds :
    (∀ (r : rect) (px py : F32) (g : SDL_Rect), r.surface = true →
      r.data.rect = .ofRect g →
      (∃ t, r.onHover px py = .ok t) ∧
      (r.onHover px py = .ok true ↔
        (px ≥ F32.ofInt g.x ∧ px ≤ F32.ofInt (wrap32 (g.x + g.w)) ∧
          py ≥ F32.ofInt g.y ∧ py ≤ F32.ofInt (wrap32 (g.y + g.h))))) ∧
    (∀ (r : rect) (px py : F32) (g : SDL_FRect), r.surface = false →
      r.data.rect = .ofFRect g →
      (∃ t, r.onHover px py = .ok t) ∧
      (r.onHover px py = .ok true ↔
        (px ≥ g.x ∧ px ≤ F32.add g.x g.w ∧ py ≥ g.y ∧ py ≤ F32.add g.y g.h))) ∧
    (∀ v : Int, isInt32 (wrap32 v) ∧ (wrap32 v - v) % 4294967296 = 0 ∧
      (isInt32 v → wrap32 v = v)) ∧
    (∀ v : Int, nearest24 (v * F32.one_units) (F32.ofInt v).units ∧
      (has24Bits v → (F32.ofInt v).units = v * F32.one_units)) ∧
    (∀ p q : F32, nearest24 (p.units + q.units) (F32.add p q).units ∧
      (has24Bits (p.units + q.units) → (F32.add p q).units = p.units + q.units)) ∧
    (∀ (p q : F32), (p ≥ q ↔ p.units ≥ q.units) ∧ (p ≤ q ↔ p.units ≤ q.units)) ∧
    (∀ (r : rect) (px py : F32) (g : SDL_Rect), r.surface = true →
      r.data.rect = .ofRect g →
      has24Bits g.x → has24Bits g.y →
      isInt32 (g.x + g.w) → has24Bits (g.x + g.w) →
      isInt32 (g.y + g.h) → has24Bits (g.y + g.h) →
      (r.onHover px py = .ok true ↔
        (px.units ≥ g.x * F32.one_units ∧ px.units ≤ (g.x + g.w) * F32.one_units ∧
          py.units ≥ g.y * F32.one_units ∧ py.units ≤ (g.y + g.h) * F32.one_units))) ∧
    (∀ (r : rect) (px py : F32) (g : SDL_FRect), r.surface = false →
      r.data.rect = .ofFRect g →
      has24Bits (g.x.units + g.w.units) → has24Bits (g.y.units + g.h.units) →
      (r.onHover px py = .ok true ↔
        (px.units ≥ g.x.units ∧ px.units ≤ g.x.units + g.w.units ∧
          py.units ≥ g.y.units ∧ py.units ≤ g.y.units + g.h.units))) ∧
    (∀ v : Int, F32.smallInt v → isInt32 v ∧ has24Bits v) ∧
    (∀ x w : Int, F32.smallInt x → F32.smallInt w → F32.smallInt (x + w) →
      (F32.ofInt x).units = x * F32.one_units ∧ (F32.ofInt w).units = w * F32.one_units ∧
      has24Bits ((F32.ofInt x).units + (F32.ofInt w).units)) ∧
    ((rect.construct surfaceApp 0 0 10 10).onHover (F32.ofInt 10) (F32.ofInt 10) = .ok true ∧
      (rect.construct surfaceApp 0 0 10 10).onHover (F32.ofInt 11) (F32.ofInt 10)
        = .ok false ∧
      (rect.construct renderApp 0 0 10 10).onHover (F32.ofInt 10) (F32.ofInt 10) = .ok true ∧
      (rect.construct renderApp 0 0 10 10).onHover (F32.ofInt 11) (F32.ofInt 10)
        = .ok false ∧
      (rect.construct surfaceApp 16777219 0 0 10).onHover ⟨16777220 * 2 ^ 149⟩
        ⟨5 * 2 ^ 149⟩ = .ok true ∧
      (rect.construct surfaceApp 2147483000 0 1000 10).onHover ⟨2147483008 * 2 ^ 149⟩
        ⟨5 * 2 ^ 149⟩ = .ok false ∧
      (rect.construct renderApp 33554432 0 2 10).onHover ⟨33554436 * 2 ^ 149⟩
        ⟨5 * 2 ^ 149⟩ = .ok false) := by
  refine ⟨?_, ?_, wrap32_spec, ?_, ?_, fun p q => ⟨Iff.rfl, Iff.rfl⟩, ?_, ?_, ?_, ?_,
    by decide⟩
  · intro r px py g hs hg
    rw [onHover_int px py hs hg]
    exact ⟨⟨_, rfl⟩, by simp⟩
  · intro r px py g hs hg
    rw [onHover_float px py hs hg]
    exact ⟨⟨_, rfl⟩, by simp⟩
  · intro v
    exact ⟨F32.ofInt_nearest24 v,
      fun h => F32.ofInt_units_of_exact ((has24Bits_iff_fixed v).mp h)⟩
  · intro p q
    exact ⟨F32.add_nearest24 p q, fun h => (has24Bits_iff_fixed _).mp h⟩
  · intro r px py g hs hg hx hy hxw hxw1 hyh hyh1
    rw [onHover_int px py hs hg, wrap32_of_isInt32 hxw, wrap32_of_isInt32 hyh]
    simp only [Except.ok.injEq, decide_eq_true_eq, ge_iff_le, F32.le_def,
      F32.ofInt_units_of_exact ((has24Bits_iff_fixed _).mp hx),
      F32.ofInt_units_of_exact ((has24Bits_iff_fixed _).mp hy),
      F32.ofInt_units_of_exact ((has24Bits_iff_fixed _).mp hxw1),
      F32.ofInt_units_of_exact ((has24Bits_iff_fixed _).mp hyh1)]
  · intro r px py g hs hg hxw hyh
    rw [onHover_float px py hs hg]
    have e1 : (F32.add g.x g.w).units = g.x.units + g.w.units :=
      (has24Bits_iff_fixed _).mp hxw
    have e2 : (F32.add g.y g.h).units = g.y.units + g.h.units :=
      (has24Bits_iff_fixed _).mp hyh
    simp only [Except.ok.injEq, decide_eq_true_eq, ge_iff_le, F32.le_def, e1, e2]
  · intro v hv
    exact ⟨(F32.exactInt_of_smallInt hv).1,
      (has24Bits_iff_fixed v).mpr (F32.exactInt_of_smallInt hv).2⟩
  · intro x w hx hw hxw
    exact ⟨F32.ofInt_units hx, F32.ofInt_units hw,
      (has24Bits_iff_fixed _).mpr (F32.smallInt_sum_exact hx hw hxw).2⟩

/-- C6 witness: the surface-mode rect (2,3,4,5) with the pointer at (6,8), its far
corner, and at (6.5,3), and the renderer-mode rect (2,3,4,5) with the pointer at (2,3)
and at (5.5,3). -/
theorem onHover_iff_inclusive_bounds_witness :
    ((rect.construct surfaceApp 2 3 4 5).surface = true ∧
      (rect.construct surfaceApp 2 3 4 5).data.rect = .ofRect ⟨2, 3, 4, 5⟩ ∧
      (rect.construct surfaceApp 2 3 4 5).onHover (F32.ofInt 6) (F32.ofInt 8) = .ok true) ∧
    ((rect.construct renderApp 2 3 4 5).surface = false ∧
      (rect.construct renderApp 2 3 4 5).data.rect
        = .ofFRect ⟨F32.ofInt 2, F32.ofInt 3, F32.ofInt 4, F32.ofInt 5⟩ ∧
      (rect.construct renderApp 2 3 4 5).onHover (F32.ofInt 2) (F32.ofInt 3) = .ok true) ∧
    ((F32.smallInt 2 ∧ F32.smallInt 3 ∧ F32.smallInt (2 + 4) ∧ F32.smallInt (3 + 5)) ∧
      (rect.construct surfaceApp 2 3 4 5).onHover ⟨13 * 2 ^ 148⟩ ⟨3 * 2 ^ 149⟩ = .ok false) ∧
    ((F32.smallInt 2 ∧ F32.smallInt 3 ∧ F32.smallInt 4 ∧ F32.smallInt 5 ∧
        F32.smallInt (2 + 4) ∧ F32.smallInt (3 + 5)) ∧
      (rect.construct renderApp 2 3 4 5).onHover ⟨11 * 2 ^ 148⟩ ⟨3 * 2 ^ 149⟩ = .ok true) :=
  ⟨⟨rfl, rfl,
    (onHover_iff_inclusive_bounds.1 (rect.construct surfaceApp 2 3 4 5) (F32.ofInt 6)
      (F32.ofInt 8) ⟨2, 3, 4, 5⟩ rfl rfl).2.mpr (by decide)⟩,
   ⟨rfl, rfl,
    (onHover_iff_inclusive_bounds.2.1 (rect.construct renderApp 2 3 4 5) (F32.ofInt 2)
      (F32.ofInt 3) ⟨F32.ofInt 2, F32.ofInt 3, F32.ofInt 4, F32.ofInt 5⟩ rfl rfl).2.mpr
      (by decide)⟩,
   ⟨by decide, by
      have s := onHover_iff_inclusive_bounds.2.2.2.2.2.2.2.2.1
      have h := onHover_iff_inclusive_bounds.2.2.2.2.2.2.1
        (rect.construct surfaceApp 2 3 4 5)
        ⟨13 * 2 ^ 148⟩ ⟨3 * 2 ^ 149⟩ ⟨2, 3, 4, 5⟩ rfl rfl (s 2 (by decide)).2
        (s 3 (by decide)).2 (s (2 + 4) (by decide)).1 (s (2 + 4) (by decide)).2
        (s (3 + 5) (by decide)).1 (s (3 + 5) (by decide)).2
      obtain ⟨t, ht⟩ := (onHover_iff_inclusive_bounds.1 (rect.construct surfaceApp 2 3 4 5)
        ⟨13 * 2 ^ 148⟩ ⟨3 * 2 ^ 149⟩ ⟨2, 3, 4, 5⟩ rfl rfl).1
      cases t with
      | false => exact ht
      | true => exact absurd (h.mp ht) (by decide)⟩,
   ⟨by decide,
    (onHover_iff_inclusive_bounds.2.2.2.2.2.2.2.1 (rect.construct renderApp 2 3 4 5)
      ⟨11 * 2 ^ 148⟩ ⟨3 * 2 ^ 149⟩ ⟨F32.ofInt 2, F32.ofInt 3, F32.ofInt 4, F32.ofInt 5⟩
      rfl rfl
      (onHover_iff_inclusive_bounds.2.2.2.2.2.2.2.2.2.1 2 4 (by decide) (by decide)
        (by decide)).2.2
      (onHover_iff_inclusive_bounds.2.2.2.2.2.2.2.2.2.1 3 5 (by decide) (by decide)
        (by decide)).2.2).mpr (by decide)⟩⟩

/-! ## Colour (`fill`) -/

theorem toUint8_val (v : Int) : ((toUint8 v).val : Int) = v % 256 := by
  simp only [toUint8]
  omega

theorem toUint8_cast (c : Fin 256) : toUint8 (c.val : Int) = c := by
  apply Fin.ext
  simp only [toUint8]
  omega

theorem fill_ok (self : rect) (r g b : Int) (h : self.wellFormed) :
    ∃ reqs, self.fill r g b = .ok ({ self with data := { self.data with color :=
      { r := if r = -1 then self.data.color.r else toUint8 r,
        g := if g = -1 then self.data.color.g else toUint8 g,
        b := if b = -1 then self.data.color.b else toUint8 b } } }, reqs) := by
  obtain ⟨s, ⟨v, c⟩, p⟩ := self
  have hr : toUint8 (if r = -1 then (c.r.val : Int) else ((toUint8 r).val : Int))
      = if r = -1 then c.r else toUint8 r := by
    split_ifs <;> exact toUint8_cast _
  have hg : toUint8 (if g = -1 then (c.g.val : Int) else ((toUint8 g).val : Int))
      = if g = -1 then c.g else toUint8 g := by
    split_ifs <;> exact toUint8_cast _
  have hb : toUint8 (if b = -1 then (c.b.val : Int) else ((toUint8 b).val : Int))
      = if b = -1 then c.b else toUint8 b := by
    split_ifs <;> exact toUint8_cast _
  cases v with
  | ofRect q =>
    have hs : s = true := h
    subst hs
    simp only [rect.fill, hr, hg, hb, get_SDL_Rect, if_true]
    exact ⟨_, rfl⟩
  | ofFRect q =>
    have hs : s = false := h
    subst hs
    simp only [rect.fill, hr, hg, hb, get_SDL_FRect]
    exact ⟨_, rfl⟩

/-- C7: `fill(r, g, b)` returns normally on every rect, and afterwards each stored
channel equals its previous stored value when the argument is -1 and otherwise the
argument reduced modulo 256; so `fill(-1,-1,-1)` after `fill(10,20,30)` leaves the colour
at (10,20,30), and `fill(5,-1,-1)` then changes the red channel alone, to 5. -/
theorem fill_stores_colour :
    (∀ (self : rect) (r g b : Int), self.wellFormed →
      ∃ out, self.fill r g b = .ok out ∧
        ((out.1.data.color.r.val : Int)
          = if r = -1 then (self.data.color.r.val : Int) else r % 256) ∧
        ((out.1.data.color.g.val : Int)
          = if g = -1 then (self.data.color.g.val : Int) else g % 256) ∧
        ((out.1.data.color.b.val : Int)
          = if b = -1 then (self.data.color.b.val : Int) else b % 256)) ∧
    (∀ self : rect, self.wellFormed →
      ∃ o1 o2 o3, self.fill 10 20 30 = .ok o1 ∧ o1.1.fill (-1) (-1) (-1) = .ok o2 ∧
        o2.1.fill 5 (-1) (-1) = .ok o3 ∧
        o1.1.data.color = ⟨10, 20, 30⟩ ∧ o2.1.data.color = ⟨10, 20, 30⟩ ∧
        o3.1.data.color = ⟨5, 20, 30⟩) := by
  refine ⟨?_, ?_⟩
  · intro self r g b h
    obtain ⟨reqs, hfill⟩ := fill_ok self r g b h
    refine ⟨_, hfill, ?_, ?_, ?_⟩
    · show (((if r = -1 then self.data.color.r else toUint8 r : Fin 256).val : Nat) : Int) = _
      split_ifs
      · rfl
      · exact toUint8_val r
    · show (((if g = -1 then self.data.color.g else toUint8 g : Fin 256).val : Nat) : Int) = _
      split_ifs
      · rfl
      · exact toUint8_val g
    · show (((if b = -1 then self.data.color.b else toUint8 b : Fin 256).val : Nat) : Int) = _
      split_ifs
      · rfl
      · exact toUint8_val b
  · intro self h
    obtain ⟨q1, h1⟩ := fill_ok self 10 20 30 h
    have w1 : rect.wellFormed { self with data := { self.data with color :=
        { r := if (10 : Int) = -1 then self.data.color.r else toUint8 10,
          g := if (20 : Int) = -1 then self.data.color.g else toUint8 20,
          b := if (30 : Int) = -1 then self.data.color.b else toUint8 30 } } } := h
    obtain ⟨q2, h2⟩ := fill_ok _ (-1) (-1) (-1) w1
    obtain ⟨q3, h3⟩ := fill_ok _ 5 (-1) (-1) w1
    exact ⟨_, _, _, h1, h2, h3, rfl, rfl, rfl⟩

/-- C7 witness: `fill(300, -1, -2)` on the surface-mode rect (0,0,10,10), whose colour
is (0,0,0): the red channel becomes 300 mod 256 = 44, the green channel stays 0, the blue
channel becomes 254. -/
theorem fill_stores_colour_witness :
    (rect.construct surfaceApp 0 0 10 10).wellFormed ∧
    (Except.map (fun out => out.1.data.color)
      ((rect.construct surfaceApp 0 0 10 10).fill 300 (-1) (-2)) = .ok ⟨44, 0, 254⟩) := by
  refine ⟨by decide, ?_⟩
  obtain ⟨out, h1, h2, h3, h4⟩ :=
    fill_stores_colour.1 (rect.construct surfaceApp 0 0 10 10) 300 (-1) (-2) (by decide)
  rw [h1]
  show Except.ok out.1.data.color = _
  congr 1
  have e2 : out.1.data.color.r = 44 := by
    apply Fin.ext
    show out.1.data.color.r.val = 44
    norm_num at h2
    omega
  have e3 : out.1.data.color.g = 0 := by
    apply Fin.ext
    have : ((rect.construct surfaceApp 0 0 10 10).data.color.g.val : Int) = 0 := rfl
    show out.1.data.color.g.val = 0
    simp only [this] at h3
    norm_num at h3
    omega
  have e4 : out.1.data.color.b = 254 := by
    apply Fin.ext
    show out.1.data.color.b.val = 254
    norm_num at h4
    omega
  cases hc : out.1.data.color
  simp_all

/-! ## Relative adjusters -/

/-- C8 counterexample: in renderer mode, on the rect (1,0,0,0), `addX(16777216)` followed
by `subX(16777216)` leaves `getX()` at 0 instead of 1: the sum 16777217 is not a binary32
number and rounds to 16777216. -/
theorem addX_subX_float_drift :
    (rect.construct renderApp 1 0 0 0).surface = false ∧
    (rect.construct renderApp 1 0 0 0).getX = .ok 1 ∧
    Except.bind ((rect.construct renderApp 1 0 0 0).addSubX 16777216) rect.getX = .ok 0 := by
  decide

/-- C8, amended: `addX(d)` followed by `subX(d)` leaves the object, and so `getX()`,
as it was: in surface mode for every `int` `d` (arithmetic modulo 2^32), and in renderer
mode whenever the sum that `addX` computes is exact, that is, the stored value plus
`(float)d` is a binary32 number; this is so when the stored value, `d` and their sum are
integers of magnitude at most 2^24 = 16777216.  Likewise for `addY/subY`,
`addWidth/subWidth` and `addHeight/subHeight`. -/
theorem add_then_sub_restores :
    (∀ (r : rect) (g : SDL_Rect) (d : Int), r.surface = true → r.data.rect = .ofRect g →
      isInt32 g.x → isInt32 g.y → isInt32 g.w → isInt32 g.h →
      (r.addSubX d = .ok r ∧ Except.bind (r.addSubX d) rect.getX = r.getX) ∧
      (r.addSubY d = .ok r ∧ Except.bind (r.addSubY d) rect.getY = r.getY) ∧
      (r.addSubWidth d = .ok r ∧ Except.bind (r.addSubWidth d) rect.getWidth = r.getWidth) ∧
      (r.addSubHeight d = .ok r ∧
        Except.bind (r.addSubHeight d) rect.getHeight = r.getHeight)) ∧
    (∀ (r : rect) (g : SDL_FRect) (d : Int), r.surface = false → r.data.rect = .ofFRect g →
      (g.x.representable → F32.representable ⟨g.x.units + (F32.ofInt d).units⟩ →
        r.addSubX d = .ok r ∧ Except.bind (r.addSubX d) rect.getX = r.getX) ∧
      (g.y.representable → F32.representable ⟨g.y.units + (F32.ofInt d).units⟩ →
        r.addSubY d = .ok r ∧ Except.bind (r.addSubY d) rect.getY = r.getY) ∧
      (g.w.representable → F32.representable ⟨g.w.units + (F32.ofInt d).units⟩ →
        r.addSubWidth d = .ok r ∧ Except.bind (r.addSubWidth d) rect.getWidth = r.getWidth) ∧
      (g.h.representable → F32.representable ⟨g.h.units + (F32.ofInt d).units⟩ →
        r.addSubHeight d = .ok r ∧
          Except.bind (r.addSubHeight d) rect.getHeight = r.getHeight)) ∧
    (∀ v d : Int, F32.smallInt v → F32.smallInt d → F32.smallInt (v + d) →
      (F32.ofInt v).representable ∧
        F32.representable ⟨(F32.ofInt v).units + (F32.ofInt d).units⟩) := by
  refine ⟨?_, ?_, fun v d hv hd hvd => F32.smallInt_sum_exact hv hd hvd⟩
  · intro r g d hs hg hx hy hw hh
    obtain ⟨s, ⟨v, c⟩, p⟩ := r
    obtain ⟨gx, gy, gw, gh⟩ := g
    simp only at hs hg hx hy hw hh
    subst hs hg
    have ex : rect.addSubX ⟨true, ⟨.ofRect ⟨gx, gy, gw, gh⟩, c⟩, p⟩ d
        = .ok ⟨true, ⟨.ofRect ⟨gx, gy, gw, gh⟩, c⟩, p⟩ := by
      show Except.ok (⟨true, ⟨.ofRect ⟨wrap32 (wrap32 (gx + d) - d), gy, gw, gh⟩, c⟩, p⟩ : rect)
        = _
      rw [wrap32_add_sub gx d hx]
    have ey : rect.addSubY ⟨true, ⟨.ofRect ⟨gx, gy, gw, gh⟩, c⟩, p⟩ d
        = .ok ⟨true, ⟨.ofRect ⟨gx, gy, gw, gh⟩, c⟩, p⟩ := by
      show Except.ok (⟨true, ⟨.ofRect ⟨gx, wrap32 (wrap32 (gy + d) - d), gw, gh⟩, c⟩, p⟩ : rect)
        = _
      rw [wrap32_add_sub gy d hy]
    have ew : rect.addSubWidth ⟨true, ⟨.ofRect ⟨gx, gy, gw, gh⟩, c⟩, p⟩ d
        = .ok ⟨true, ⟨.ofRect ⟨gx, gy, gw, gh⟩, c⟩, p⟩ := by
      show Except.ok (⟨true, ⟨.ofRect ⟨gx, gy, wrap32 (wrap32 (gw + d) - d), gh⟩, c⟩, p⟩ : rect)
        = _
      rw [wrap32_add_sub gw d hw]
    have eh : rect.addSubHeight ⟨true, ⟨.ofRect ⟨gx, gy, gw, gh⟩, c⟩, p⟩ d
        = .ok ⟨true, ⟨.ofRect ⟨gx, gy, gw, gh⟩, c⟩, p⟩ := by
      show Except.ok (⟨true, ⟨.ofRect ⟨gx, gy, gw, wrap32 (wrap32 (gh + d) - d)⟩, c⟩, p⟩ : rect)
        = _
      rw [wrap32_add_sub gh d hh]
    rw [ex, ey, ew, eh]
    exact ⟨⟨rfl, rfl⟩, ⟨rfl, rfl⟩, ⟨rfl, rfl⟩, ⟨rfl, rfl⟩⟩
  · intro r g d hs hg
    obtain ⟨s, ⟨v, c⟩, p⟩ := r
    obtain ⟨gx, gy, gw, gh⟩ := g
    simp only at hs hg
    subst hs hg
    refine ⟨?_, ?_, ?_, ?_⟩
    · intro hr hsum
      have ex : rect.addSubX ⟨false, ⟨.ofFRect ⟨gx, gy, gw, gh⟩, c⟩, p⟩ d
          = .ok ⟨false, ⟨.ofFRect ⟨gx, gy, gw, gh⟩, c⟩, p⟩ := by
        show Except.ok (⟨false, ⟨.ofFRect
          ⟨F32.sub (F32.add gx (F32.ofInt d)) (F32.ofInt d), gy, gw, gh⟩, c⟩, p⟩ : rect) = _
        rw [F32.representable_of_exact_sum hr hsum]
      rw [ex]
      exact ⟨rfl, rfl⟩
    · intro hr hsum
      have ey : rect.addSubY ⟨false, ⟨.ofFRect ⟨gx, gy, gw, gh⟩, c⟩, p⟩ d
          = .ok ⟨false, ⟨.ofFRect ⟨gx, gy, gw, gh⟩, c⟩, p⟩ := by
        show Except.ok (⟨false, ⟨.ofFRect
          ⟨gx, F32.sub (F32.add gy (F32.ofInt d)) (F32.ofInt d), gw, gh⟩, c⟩, p⟩ : rect) = _
        rw [F32.representable_of_exact_sum hr hsum]
      rw [ey]
      exact ⟨rfl, rfl⟩
    · intro hr hsum
      have ew : rect.addSubWidth ⟨false, ⟨.ofFRect ⟨gx, gy, gw, gh⟩, c⟩, p⟩ d
          = .ok ⟨false, ⟨.ofFRect ⟨gx, gy, gw, gh⟩, c⟩, p⟩ := by
        show Except.ok (⟨false, ⟨.ofFRect
          ⟨gx, gy, F32.sub (F32.add gw (F32.ofInt d)) (F32.ofInt d), gh⟩, c⟩, p⟩ : rect) = _
        rw [F32.representable_of_exact_sum hr hsum]
      rw [ew]
      exact ⟨rfl, rfl⟩
    · intro hr hsum
      have eh : rect.addSubHeight ⟨false, ⟨.ofFRect ⟨gx, gy, gw, gh⟩, c⟩, p⟩ d
          = .ok ⟨false, ⟨.ofFRect ⟨gx, gy, gw, gh⟩, c⟩, p⟩ := by
        show Except.ok (⟨false, ⟨.ofFRect
          ⟨gx, gy, gw, F32.sub (F32.add gh (F32.ofInt d)) (F32.ofInt d)⟩, c⟩, p⟩ : rect) = _
        rw [F32.representable_of_exact_sum hr hsum]
      rw [eh]
      exact ⟨rfl, rfl⟩

/-- C8 witness: the surface-mode rect (2147483647,-5,3,4) with `d = 1`, where the
sum wraps, and the renderer-mode rect (5,6,7,8) with `d = -100`. -/
theorem add_then_sub_restores_witness :
    ((rect.construct surfaceApp 2147483647 (-5) 3 4).surface = true ∧
      (rect.construct surfaceApp 2147483647 (-5) 3 4).data.rect
        = .ofRect ⟨2147483647, -5, 3, 4⟩ ∧
      isInt32 2147483647 ∧ isInt32 (-5) ∧ isInt32 3 ∧ isInt32 4 ∧
      (rect.construct surfaceApp 2147483647 (-5) 3 4).addSubX 1
        = .ok (rect.construct surfaceApp 2147483647 (-5) 3 4) ∧
      Except.bind ((rect.construct surfaceApp 2147483647 (-5) 3 4).addSubX 1) rect.getX
        = (rect.construct surfaceApp 2147483647 (-5) 3 4).getX) ∧
    ((rect.construct renderApp 5 6 7 8).surface = false ∧
      (rect.construct renderApp 5 6 7 8).data.rect
        = .ofFRect ⟨F32.ofInt 5, F32.ofInt 6, F32.ofInt 7, F32.ofInt 8⟩ ∧
      F32.smallInt 5 ∧ F32.smallInt (-100) ∧ F32.smallInt (5 + -100) ∧
      (F32.ofInt 5).representable ∧
      F32.representable ⟨(F32.ofInt 5).units + (F32.ofInt (-100)).units⟩ ∧
      (rect.construct renderApp 5 6 7 8).addSubX (-100)
        = .ok (rect.construct renderApp 5 6 7 8) ∧
      Except.bind ((rect.construct renderApp 5 6 7 8).addSubX (-100)) rect.getX
        = (rect.construct renderApp 5 6 7 8).getX) :=
  ⟨⟨rfl, rfl, by decide, by decide, by decide, by decide,
    (add_then_sub_restores.1 (rect.construct surfaceApp 2147483647 (-5) 3 4)
      ⟨2147483647, -5, 3, 4⟩ 1 rfl rfl (by decide) (by decide) (by decide) (by decide)).1⟩,
   ⟨rfl, rfl, by decide, by decide, by decide,
    (add_then_sub_restores.2.2 5 (-100) (by decide) (by decide) (by decide)).1,
    (add_then_sub_restores.2.2 5 (-100) (by decide) (by decide) (by decide)).2,
    (add_then_sub_restores.2.1 (rect.construct renderApp 5 6 7 8)
      ⟨F32.ofInt 5, F32.ofInt 6, F32.ofInt 7, F32.ofInt 8⟩ (-100) rfl rfl).1
      (add_then_sub_restores.2.2 5 (-100) (by decide) (by decide) (by decide)).1
      (add_then_sub_restores.2.2 5 (-100) (by decide) (by decide) (by decide)).2⟩⟩

/-! ## Construction -/

/-- C9 counterexample: a renderer-mode rect constructed with `x = 16777217` reports
`getX() = 16777216`. -/
theorem construct_getX_float_inexact :
    (rect.construct renderApp 16777217 0 0 0).surface = false ∧
    (rect.construct renderApp 16777217 0 0 0).getX = .ok 16777216 := by
  decide

/-- C9, amended: a rect constructed with `(x, y, w, h)` has the colour (0,0,0) and
stores the numbers unclamped, zero and negative sizes included: in surface mode
`getX/getY/getWidth/getHeight` return `x, y, w, h` for all integers; in renderer mode
the record holds the arguments converted to `float` and each getter returns its argument
rounded to a nearest number of 24 significant bits, whenever that number fits in `int`:
this is the argument unmodified exactly when the argument has at most 24 significant
bits, as every integer of magnitude at most 2^24 = 16777216 has, and another value
otherwise, as 16777216 for 16777217. -/
theorem construct_stores_as_given :
    (∀ (p : app) (x y w h : Int), (rect.construct p x y w h).data.color = ⟨0, 0, 0⟩) ∧
    (∀ (p : app) (x y w h : Int), p.Surface ≠ none →
      (rect.construct p x y w h).data.rect = .ofRect ⟨x, y, w, h⟩ ∧
      (rect.construct p x y w h).getX = .ok x ∧ (rect.construct p x y w h).getY = .ok y ∧
      (rect.construct p x y w h).getWidth = .ok w ∧
      (rect.construct p x y w h).getHeight = .ok h) ∧
    (∀ (p : app) (x y w h : Int), p.Surface = none →
      (rect.construct p x y w h).data.rect =
        .ofFRect ⟨F32.ofInt x, F32.ofInt y, F32.ofInt w, F32.ofInt h⟩ ∧
      (isInt32 (round24 x) → (rect.construct p x y w h).getX = .ok (round24 x)) ∧
      (isInt32 (round24 y) → (rect.construct p x y w h).getY = .ok (round24 y)) ∧
      (isInt32 (round24 w) → (rect.construct p x y w h).getWidth = .ok (round24 w)) ∧
      (isInt32 (round24 h) → (rect.construct p x y w h).getHeight = .ok (round24 h))) ∧
    (∀ v : Int, nearest24 v (round24 v) ∧ (round24 v = v ↔ has24Bits v) ∧
      ((F32.ofInt v).units = v * F32.one_units ↔ has24Bits v) ∧
      (F32.smallInt v → isInt32 v ∧ has24Bits v)) ∧
    (round24 16777217 = 16777216 ∧ round24 (-16777216) = -16777216 ∧
      round24 2147483647 = 2147483648) := by
  refine ⟨?_, ?_, ?_, ?_, by decide⟩
  · intro p x y w h
    obtain ⟨sf, rn⟩ := p
    cases sf <;> rfl
  · intro p x y w h hp
    obtain ⟨sf, rn⟩ := p
    cases sf with
    | none => exact absurd rfl hp
    | some k => exact ⟨rfl, getters_int (g := ⟨x, y, w, h⟩) rfl rfl⟩
  · intro p x y w h hp
    obtain ⟨sf, rn⟩ := p
    simp only at hp
    subst hp
    obtain ⟨e1, e2, e3, e4⟩ := getters_float (r := rect.construct ⟨none, rn⟩ x y w h)
      (g := ⟨F32.ofInt x, F32.ofInt y, F32.ofInt w, F32.ofInt h⟩) rfl rfl
    rw [e1, e2, e3, e4]
    exact ⟨rfl, F32.toInt_ofInt_of_inRange, F32.toInt_ofInt_of_inRange,
      F32.toInt_ofInt_of_inRange, F32.toInt_ofInt_of_inRange⟩
  · intro v
    refine ⟨round24_nearest24 v, (has24Bits_iff_fixed v).symm, ?_, ?_⟩
    · rw [F32.ofInt_units_eq_iff]
      exact (has24Bits_iff_fixed v).symm
    · intro hv
      exact ⟨(F32.exactInt_of_smallInt hv).1,
        (has24Bits_iff_fixed v).mpr (F32.exactInt_of_smallInt hv).2⟩

/-- C9 witness: the rect (7,-8,0,-30) constructed in surface mode and in renderer
mode, and the renderer-mode rect (16777219,0,-33554434,0), whose first and third
numbers are stored rounded. -/
theorem construct_stores_as_given_witness :
    (surfaceApp.Surface ≠ none ∧
      (rect.construct surfaceApp 7 (-8) 0 (-30)).data.rect = .ofRect ⟨7, -8, 0, -30⟩ ∧
      (rect.construct surfaceApp 7 (-8) 0 (-30)).getX = .ok 7 ∧
      (rect.construct surfaceApp 7 (-8) 0 (-30)).getY = .ok (-8) ∧
      (rect.construct surfaceApp 7 (-8) 0 (-30)).getWidth = .ok 0 ∧
      (rect.construct surfaceApp 7 (-8) 0 (-30)).getHeight = .ok (-30)) ∧
    (renderApp.Surface = none ∧
      (isInt32 (round24 7) ∧ isInt32 (round24 (-8)) ∧ isInt32 (round24 0) ∧
        isInt32 (round24 (-30))) ∧
      (rect.construct renderApp 7 (-8) 0 (-30)).getX = .ok 7 ∧
      (rect.construct renderApp 7 (-8) 0 (-30)).getY = .ok (-8) ∧
      (rect.construct renderApp 7 (-8) 0 (-30)).getWidth = .ok 0 ∧
      (rect.construct renderApp 7 (-8) 0 (-30)).getHeight = .ok (-30)) ∧
    ((isInt32 (round24 16777219) ∧ isInt32 (round24 (-33554434))) ∧
      (rect.construct renderApp 16777219 0 (-33554434) 0).getX = .ok 16777220 ∧
      (rect.construct renderApp 16777219 0 (-33554434) 0).getWidth = .ok (-33554432)) ∧
    (F32.smallInt 16777216 ∧ isInt32 16777216 ∧ has24Bits 16777216) := by
  refine ⟨⟨by decide,
      construct_stores_as_given.2.1 surfaceApp 7 (-8) 0 (-30) (by decide)⟩,
    ⟨rfl, by decide, ?_⟩, ⟨by decide, ?_⟩,
    ⟨by decide, (construct_stores_as_given.2.2.2.1 16777216).2.2.2 (by decide)⟩⟩
  · obtain ⟨-, h1, h2, h3, h4⟩ :=
      construct_stores_as_given.2.2.1 renderApp 7 (-8) 0 (-30) rfl
    exact ⟨h1 (by decide), h2 (by decide), h3 (by decide), h4 (by decide)⟩
  · obtain ⟨-, h1, -, h3, -⟩ :=
      construct_stores_as_given.2.2.1 renderApp 16777219 0 (-33554434) 0 rfl
    exact ⟨h1 (by decide), h3 (by decide)⟩

/-! ## The mode invariant -/

theorem apply_ok (r : rect) (op : Op) (h : r.wellFormed) :
    ∃ r1, r.apply op = .ok r1 ∧ r1.surface = r.surface ∧ r1.wellFormed := by
  obtain ⟨s, ⟨v, c⟩, p⟩ := r
  cases v with
  | ofRect g =>
    have hs : s = true := h
    subst hs
    cases op <;> exact ⟨_, rfl, rfl, rfl⟩
  | ofFRect g =>
    have hs : s = false := h
    subst hs
    cases op <;> exact ⟨_, rfl, rfl, rfl⟩

theorem run_ok (ops : List Op) : ∀ r : rect, r.wellFormed →
    ∃ r1, r.run ops = .ok r1 ∧ r1.surface = r.surface ∧ r1.wellFormed := by
  induction ops with
  | nil => intro r h; exact ⟨r, rfl, rfl, h⟩
  | cons op ops ih =>
    intro r h
    obtain ⟨r1, h1, hs1, hw1⟩ := apply_ok r op h
    obtain ⟨r2, h2, hs2, hw2⟩ := ih r1 hw1
    refine ⟨r2, ?_, hs2.trans hs1, hw2⟩
    simp only [rect.run, h1]
    exact h2

theorem construct_wellFormed (p : app) (x y w h : Int) :
    (rect.construct p x y w h).wellFormed := by
  obtain ⟨sf, rn⟩ := p
  cases sf <;> rfl

theorem wellFormed_cases {r : rect} (h : r.wellFormed) :
    (r.surface = true ∧ ∃ g, r.data.rect = .ofRect g) ∨
      (r.surface = false ∧ ∃ g, r.data.rect = .ofFRect g) := by
  obtain ⟨s, ⟨v, c⟩, p⟩ := r
  cases v with
  | ofRect g => exact Or.inl ⟨h, g, rfl⟩
  | ofFRect g => exact Or.inr ⟨h, g, rfl⟩

/-- C10: after the constructor and any sequence of `setRect`, `setPosition`, `setSize`,
`setX/Y/Width/Height`, `add*/sub*` and `fill` calls, every call of the sequence has
returned normally, the mode flag is the one chosen at construction (surface mode exactly
when the application has a surface), and the stored record is the `int` record in
surface mode and the `float` record otherwise; so `std::get` fails in no getter and in no
further setter, adjuster or `fill`. -/
theorem mode_invariant (p : app) (x y w h : Int) (ops : List Op) :
    ∃ r1, (rect.construct p x y w h).run ops = .ok r1 ∧
      r1.surface = (rect.construct p x y w h).surface ∧
      r1.surface = p.Surface.isSome ∧
      ((r1.surface = true ∧ ∃ g, r1.data.rect = .ofRect g) ∨
        (r1.surface = false ∧ ∃ g, r1.data.rect = .ofFRect g)) ∧
      r1.getX ≠ .error .bad_variant_access ∧ r1.getY ≠ .error .bad_variant_access ∧
      r1.getWidth ≠ .error .bad_variant_access ∧
      r1.getHeight ≠ .error .bad_variant_access ∧
      ∀ op, ∃ r2, r1.apply op = .ok r2 := by
  obtain ⟨r1, hrun, hs, hw⟩ := run_ok ops _ (construct_wellFormed p x y w h)
  have hget : r1.getX ≠ .error .bad_variant_access ∧ r1.getY ≠ .error .bad_variant_access ∧
      r1.getWidth ≠ .error .bad_variant_access ∧
      r1.getHeight ≠ .error .bad_variant_access := by
    rcases wellFormed_cases hw with ⟨hsf, g, hg⟩ | ⟨hsf, g, hg⟩
    · obtain ⟨e1, e2, e3, e4⟩ := getters_int hsf hg
      rw [e1, e2, e3, e4]
      exact ⟨by simp, by simp, by simp, by simp⟩
    · obtain ⟨e1, e2, e3, e4⟩ := getters_float hsf hg
      rw [e1, e2, e3, e4]
      simp only [F32.toInt]
      refine ⟨?_, ?_, ?_, ?_⟩ <;> split_ifs <;> simp
  refine ⟨r1, hrun, hs, ?_, wellFormed_cases hw, hget.1, hget.2.1, hget.2.2.1, hget.2.2.2, ?_⟩
  · rw [hs]
    obtain ⟨sf, rn⟩ := p
    cases sf <;> rfl
  · intro op
    obtain ⟨r2, h2, -, -⟩ := apply_ok r1 op hw
    exact ⟨r2, h2⟩

/-! ## Colour and geometry are framed apart -/

/-- C11: every geometry operation (`setRect`, `setPosition`, `setSize`, `setX`, `setY`,
`setWidth`, `setHeight`, the `add*` and the `sub*`) returns normally and leaves the stored
colour unchanged, and `fill(r, g, b)` returns normally and leaves the geometry record
(`x, y, w, h`) and the mode flag unchanged; so only `fill` changes the colour. -/
theorem colour_geometry_framed_apart :
    (∀ (r : rect) (op : Op), r.wellFormed → op.isFill = false →
      ∃ r1, r.apply op = .ok r1 ∧ r1.data.color = r.data.color) ∧
    (∀ (r : rect) (cr cg cb : Int), r.wellFormed →
      ∃ out, r.fill cr cg cb = .ok out ∧ out.1.data.rect = r.data.rect ∧
        out.1.surface = r.surface) := by
  refine ⟨?_, ?_⟩
  · intro r op h hop
    obtain ⟨s, ⟨v, c⟩, p⟩ := r
    cases v with
    | ofRect g =>
      have hs : s = true := h
      subst hs
      cases op <;> first | exact ⟨_, rfl, rfl⟩ | exact Bool.noConfusion hop
    | ofFRect g =>
      have hs : s = false := h
      subst hs
      cases op <;> first | exact ⟨_, rfl, rfl⟩ | exact Bool.noConfusion hop
  · intro r cr cg cb h
    obtain ⟨reqs, hfill⟩ := fill_ok r cr cg cb h
    exact ⟨_, hfill, rfl, rfl⟩

/-- C11 witness: `addX(5)` and `setRect(9,8,7,6)` on the surface-mode rect (1,2,3,4)
with colour (10,20,30) keep that colour, and `fill(0,-1,300)` on the renderer-mode rect
(1,2,3,4) keeps the geometry and the mode. -/
theorem colour_geometry_framed_apart_witness :
    (rect.wellFormed ⟨true, ⟨.ofRect ⟨1, 2, 3, 4⟩, ⟨10, 20, 30⟩⟩, surfaceApp⟩ ∧
      (Op.addX 5).isFill = false ∧ (Op.setRect 9 8 7 6).isFill = false ∧
      Except.map (fun r1 => r1.data.color)
        (rect.addX ⟨true, ⟨.ofRect ⟨1, 2, 3, 4⟩, ⟨10, 20, 30⟩⟩, surfaceApp⟩ 5)
          = .ok ⟨10, 20, 30⟩ ∧
      Except.map (fun r1 => r1.data.color)
        (rect.setRect ⟨true, ⟨.ofRect ⟨1, 2, 3, 4⟩, ⟨10, 20, 30⟩⟩, surfaceApp⟩ 9 8 7 6)
          = .ok ⟨10, 20, 30⟩) ∧
    ((rect.construct renderApp 1 2 3 4).wellFormed ∧
      Except.map (fun out => (out.1.data.rect, out.1.surface))
        ((rect.construct renderApp 1 2 3 4).fill 0 (-1) 300)
          = .ok ((rect.construct renderApp 1 2 3 4).data.rect, false)) := by
  refine ⟨⟨by decide, rfl, rfl, ?_, ?_⟩, ⟨by decide, ?_⟩⟩
  · obtain ⟨r1, h1, hc⟩ := colour_geometry_framed_apart.1
      ⟨true, ⟨.ofRect ⟨1, 2, 3, 4⟩, ⟨10, 20, 30⟩⟩, surfaceApp⟩ (.addX 5) (by decide) rfl
    have h2 : rect.addX ⟨true, ⟨.ofRect ⟨1, 2, 3, 4⟩, ⟨10, 20, 30⟩⟩, surfaceApp⟩ 5 = .ok r1 := h1
    rw [h2]
    exact congrArg Except.ok hc
  · obtain ⟨r1, h1, hc⟩ := colour_geometry_framed_apart.1
      ⟨true, ⟨.ofRect ⟨1, 2, 3, 4⟩, ⟨10, 20, 30⟩⟩, surfaceApp⟩ (.setRect 9 8 7 6)
      (by decide) rfl
    have h2 : rect.setRect ⟨true, ⟨.ofRect ⟨1, 2, 3, 4⟩, ⟨10, 20, 30⟩⟩, surfaceApp⟩ 9 8 7 6
        = .ok r1 := h1
    rw [h2]
    exact congrArg Except.ok hc
  · obtain ⟨out, h1, hr, hs⟩ :=
      colour_geometry_framed_apart.2 (rect.construct renderApp 1 2 3 4) 0 (-1) 300 (by decide)
    rw [h1]
    show Except.ok (out.1.data.rect, out.1.surface) = _
    rw [hr, hs]
    rfl

/-! ## Mode-specific operations -/

theorem wellFormed_int {r : rect} (h : r.wellFormed) (hs : r.surface = true) :
    ∃ g, r.data.rect = .ofRect g := by
  rcases wellFormed_cases h with ⟨-, g, hg⟩ | ⟨hf, -⟩
  · exact ⟨g, hg⟩
  · rw [hs] at hf; exact Bool.noConfusion hf

theorem wellFormed_float {r : rect} (h : r.wellFormed) (hs : r.surface = false) :
    ∃ g, r.data.rect = .ofFRect g := by
  rcases wellFormed_cases h with ⟨ht, -⟩ | ⟨-, g, hg⟩
  · rw [hs] at ht; exact Bool.noConfusion ht
  · exact ⟨g, hg⟩

theorem paint_float {r : rect} {g : SDL_FRect} (hg : r.data.rect = .ofFRect g)
    (tex : texture) (mode : SDL_FlipMode) (point : SDL_FPoint) :
    r.fillTexture tex mode point
        = .ok (r, [.renderTextureRotated r.application.Render tex.tex g point mode]) ∧
      r.fillText tex = .ok (r, [.renderTexture r.application.Render tex.tex g]) ∧
      r.update = .error .bad_variant_access := by
  simp only [rect.fillTexture, rect.fillText, rect.update, hg, get_SDL_FRect, get_SDL_Rect]
  exact ⟨rfl, rfl, rfl⟩

theorem paint_int {r : rect} {g : SDL_Rect} (hg : r.data.rect = .ofRect g)
    (tex : texture) (mode : SDL_FlipMode) (point : SDL_FPoint) :
    r.fillTexture tex mode point = .error .bad_variant_access ∧
      r.fillText tex = .error .bad_variant_access ∧
      r.update = .ok (r, [.fillSurfaceRect r.application.Surface g
        r.data.color.r r.data.color.g r.data.color.b]) := by
  simp only [rect.fillTexture, rect.fillText, rect.update, hg, get_SDL_FRect, get_SDL_Rect]
  exact ⟨rfl, rfl, rfl⟩

theorem onTouch_cross_mode {a b : rect} (ha : a.wellFormed) (hb : b.wellFormed)
    (hm : a.surface ≠ b.surface) : a.onTouch b = .error .bad_variant_access := by
  obtain ⟨sa, ⟨va, ca⟩, pa⟩ := a
  obtain ⟨sb, ⟨vb, cb⟩, pb⟩ := b
  cases va with
  | ofRect ga =>
    have hsa : sa = true := ha
    subst hsa
    cases vb with
    | ofRect gb => exact absurd (Eq.symm (hb : sb = true)) hm
    | ofFRect gb => rfl
  | ofFRect ga =>
    have hsa : sa = false := ha
    subst hsa
    cases vb with
    | ofRect gb => rfl
    | ofFRect gb => exact absurd (Eq.symm (hb : sb = false)) hm

theorem onTouch_same_mode {a b : rect} (ha : a.wellFormed) (hb : b.wellFormed)
    (hm : a.surface = b.surface) : ∃ t, a.onTouch b = .ok t := by
  rcases wellFormed_cases ha with ⟨hsa, ga, hga⟩ | ⟨hsa, ga, hga⟩
  · obtain ⟨gb, hgb⟩ := wellFormed_int hb (hm ▸ hsa)
    exact ⟨_, onTouch_int hsa hga hgb⟩
  · obtain ⟨gb, hgb⟩ := wellFormed_float hb (hm ▸ hsa)
    exact ⟨_, onTouch_float hsa hga hgb⟩

/-- C12 counterexample: `fillTexture` and `fillText` on the surface-mode rect
(0,0,10,10), `update` on the renderer-mode rect (0,0,10,10), and `onTouch` between the
two, in either order, all end in `std::bad_variant_access`. -/
theorem wrong_mode_access_throws :
    (rect.construct surfaceApp 0 0 10 10).fillTexture ⟨7⟩ .SDL_FLIP_NONE ⟨⟨0⟩, ⟨0⟩⟩
      = .error .bad_variant_access ∧
    (rect.construct surfaceApp 0 0 10 10).fillText ⟨7⟩ = .error .bad_variant_access ∧
    (rect.construct renderApp 0 0 10 10).update = .error .bad_variant_access ∧
    (rect.construct surfaceApp 0 0 10 10).onTouch (rect.construct renderApp 0 0 10 10)
      = .error .bad_variant_access ∧
    (rect.construct renderApp 0 0 10 10).onTouch (rect.construct surfaceApp 0 0 10 10)
      = .error .bad_variant_access := by
  decide

/-- C12, amended: on a rect whose record matches its mode, every operation returns
normally in the mode it is for: the setters, the adjusters, `fill` and `onHover` in
either mode, the getters in surface mode (in renderer mode they do not throw, and return
normally whenever the stored value truncated toward zero fits in `int`), `update` in
surface mode, `fillTexture` and `fillText` in renderer mode, `onTouch` on two rects of
the same mode.  In the other mode, `fillTexture`, `fillText`, `update` and `onTouch`
end in `std::bad_variant_access`. -/
theorem operations_total_in_matching_mode :
    (∀ r : rect, r.wellFormed →
      (∀ op, ∃ r1, r.apply op = .ok r1) ∧
      (∀ cr cg cb, ∃ out, r.fill cr cg cb = .ok out) ∧
      (∀ px py, ∃ t, r.onHover px py = .ok t) ∧
      r.getX ≠ .error .bad_variant_access ∧ r.getY ≠ .error .bad_variant_access ∧
      r.getWidth ≠ .error .bad_variant_access ∧
      r.getHeight ≠ .error .bad_variant_access) ∧
    (∀ r : rect, r.wellFormed → r.surface = true →
      (∃ v, r.getX = .ok v) ∧ (∃ v, r.getY = .ok v) ∧ (∃ v, r.getWidth = .ok v) ∧
      (∃ v, r.getHeight = .ok v) ∧ (∃ out, r.update = .ok out) ∧
      (∀ tex mode point, r.fillTexture tex mode point = .error .bad_variant_access) ∧
      (∀ text, r.fillText text = .error .bad_variant_access)) ∧
    (∀ r : rect, r.wellFormed → r.surface = false →
      (∀ tex mode point, ∃ out, r.fillTexture tex mode point = .ok out) ∧
      (∀ text, ∃ out, r.fillText text = .ok out) ∧
      r.update = .error .bad_variant_access) ∧
    (∀ (r : rect) (g : SDL_FRect), r.surface = false → r.data.rect = .ofFRect g →
      ((INT_MIN ≤ g.x.units.tdiv F32.one_units ∧ g.x.units.tdiv F32.one_units ≤ INT_MAX) →
        r.getX = .ok (g.x.units.tdiv F32.one_units)) ∧
      ((INT_MIN ≤ g.y.units.tdiv F32.one_units ∧ g.y.units.tdiv F32.one_units ≤ INT_MAX) →
        r.getY = .ok (g.y.units.tdiv F32.one_units)) ∧
      ((INT_MIN ≤ g.w.units.tdiv F32.one_units ∧ g.w.units.tdiv F32.one_units ≤ INT_MAX) →
        r.getWidth = .ok (g.w.units.tdiv F32.one_units)) ∧
      ((INT_MIN ≤ g.h.units.tdiv F32.one_units ∧ g.h.units.tdiv F32.one_units ≤ INT_MAX) →
        r.getHeight = .ok (g.h.units.tdiv F32.one_units))) ∧
    (∀ a b : rect, a.wellFormed → b.wellFormed →
      (a.surface = b.surface → ∃ t, a.onTouch b = .ok t) ∧
      (a.surface ≠ b.surface → a.onTouch b = .error .bad_variant_access)) := by
  refine ⟨?_, ?_, ?_, ?_, ?_⟩
  · intro r h
    refine ⟨fun op => ?_, fun cr cg cb => ?_, fun px py => ?_, ?_⟩
    · obtain ⟨r1, h1, -, -⟩ := apply_ok r op h
      exact ⟨r1, h1⟩
    · obtain ⟨reqs, h1⟩ := fill_ok r cr cg cb h
      exact ⟨_, h1⟩
    · rcases wellFormed_cases h with ⟨hs, g, hg⟩ | ⟨hs, g, hg⟩
      · exact ⟨_, onHover_int px py hs hg⟩
      · exact ⟨_, onHover_float px py hs hg⟩
    · rcases wellFormed_cases h with ⟨hs, g, hg⟩ | ⟨hs, g, hg⟩
      · obtain ⟨e1, e2, e3, e4⟩ := getters_int hs hg
        rw [e1, e2, e3, e4]
        exact ⟨by simp, by simp, by simp, by simp⟩
      · obtain ⟨e1, e2, e3, e4⟩ := getters_float hs hg
        rw [e1, e2, e3, e4]
        simp only [F32.toInt]
        refine ⟨?_, ?_, ?_, ?_⟩ <;> split_ifs <;> simp
  · intro r h hs
    obtain ⟨g, hg⟩ := wellFormed_int h hs
    obtain ⟨e1, e2, e3, e4⟩ := getters_int hs hg
    refine ⟨⟨_, e1⟩, ⟨_, e2⟩, ⟨_, e3⟩, ⟨_, e4⟩, ⟨_, (paint_int hg ⟨0⟩ .SDL_FLIP_NONE
      ⟨⟨0⟩, ⟨0⟩⟩).2.2⟩, fun tex mode point => (paint_int hg tex mode point).1,
      fun text => (paint_int hg text .SDL_FLIP_NONE ⟨⟨0⟩, ⟨0⟩⟩).2.1⟩
  · intro r h hs
    obtain ⟨g, hg⟩ := wellFormed_float h hs
    exact ⟨fun tex mode point => ⟨_, (paint_float hg tex mode point).1⟩,
      fun text => ⟨_, (paint_float hg text .SDL_FLIP_NONE ⟨⟨0⟩, ⟨0⟩⟩).2.1⟩,
      (paint_float hg ⟨0⟩ .SDL_FLIP_NONE ⟨⟨0⟩, ⟨0⟩⟩).2.2⟩
  · intro r g hs hg
    obtain ⟨e1, e2, e3, e4⟩ := getters_float hs hg
    rw [e1, e2, e3, e4]
    simp only [F32.toInt]
    exact ⟨fun h => if_pos h, fun h => if_pos h, fun h => if_pos h, fun h => if_pos h⟩
  · intro a b ha hb
    exact ⟨fun hm => onTouch_same_mode ha hb hm, fun hm => onTouch_cross_mode ha hb hm⟩

/-- C12 witness: the surface-mode rect (1,2,3,4) and the renderer-mode rect
(5,6,7,8). -/
theorem operations_total_in_matching_mode_witness :
    ((rect.construct surfaceApp 1 2 3 4).wellFormed ∧
      (rect.construct surfaceApp 1 2 3 4).getX ≠ .error .bad_variant_access) ∧
    ((rect.construct surfaceApp 1 2 3 4).surface = true ∧
      (rect.construct surfaceApp 1 2 3 4).fillText ⟨7⟩ = .error .bad_variant_access) ∧
    ((rect.construct renderApp 5 6 7 8).wellFormed ∧
      (rect.construct renderApp 5 6 7 8).surface = false ∧
      (rect.construct renderApp 5 6 7 8).update = .error .bad_variant_access) ∧
    ((rect.construct renderApp 5 6 7 8).data.rect
        = .ofFRect ⟨F32.ofInt 5, F32.ofInt 6, F32.ofInt 7, F32.ofInt 8⟩ ∧
      (INT_MIN ≤ (F32.ofInt 5).units.tdiv F32.one_units ∧
        (F32.ofInt 5).units.tdiv F32.one_units ≤ INT_MAX) ∧
      (rect.construct renderApp 5 6 7 8).getX = .ok ((F32.ofInt 5).units.tdiv F32.one_units)) ∧
    ((rect.construct surfaceApp 1 2 3 4).surface ≠ (rect.construct renderApp 5 6 7 8).surface ∧
      (rect.construct surfaceApp 1 2 3 4).onTouch (rect.construct renderApp 5 6 7 8)
        = .error .bad_variant_access) :=
  ⟨⟨by decide,
    (operations_total_in_matching_mode.1 (rect.construct surfaceApp 1 2 3 4)
      (by decide)).2.2.2.1⟩,
   ⟨rfl,
    (operations_total_in_matching_mode.2.1 (rect.construct surfaceApp 1 2 3 4) (by decide)
      rfl).2.2.2.2.2.2 ⟨7⟩⟩,
   ⟨by decide, rfl,
    (operations_total_in_matching_mode.2.2.1 (rect.construct renderApp 5 6 7 8) (by decide)
      rfl).2.2⟩,
   ⟨rfl, by decide,
    (operations_total_in_matching_mode.2.2.2.1 (rect.construct renderApp 5 6 7 8)
      ⟨F32.ofInt 5, F32.ofInt 6, F32.ofInt 7, F32.ofInt 8⟩ rfl rfl).1 (by decide)⟩,
   ⟨by decide,
    (operations_total_in_matching_mode.2.2.2.2 (rect.construct surfaceApp 1 2 3 4)
      (rect.construct renderApp 5 6 7 8) (by decide) (by decide)).2 (by decide)⟩⟩

/-- C13: in renderer mode `fillTexture` and `fillText` read the `float` record
successfully, leave the rect unchanged, and pass its current `x, y, w, h` (with the
texture, and for `fillTexture` the pivot and the flip mode) to the one draw request they
make; in surface mode `update()` reads the `int` record successfully, leaves the rect
unchanged, and requests one fill of the current bounds with the stored colour. -/
theorem paint_in_documented_mode :
    (∀ (r : rect) (g : SDL_FRect) (tex : texture) (mode : SDL_FlipMode) (point : SDL_FPoint),
      r.surface = false → r.data.rect = .ofFRect g →
      r.fillTexture tex mode point
        = .ok (r, [.renderTextureRotated r.application.Render tex.tex g point mode]) ∧
      r.fillText tex = .ok (r, [.renderTexture r.application.Render tex.tex g])) ∧
    (∀ (r : rect) (g : SDL_Rect), r.surface = true → r.data.rect = .ofRect g →
      r.update = .ok (r, [.fillSurfaceRect r.application.Surface g
        r.data.color.r r.data.color.g r.data.color.b])) := by
  refine ⟨?_, ?_⟩
  · intro r g tex mode point _ hg
    exact ⟨(paint_float hg tex mode point).1, (paint_float hg tex mode point).2.1⟩
  · intro r g _ hg
    exact (paint_int hg ⟨0⟩ .SDL_FLIP_NONE ⟨⟨0⟩, ⟨0⟩⟩).2.2

/-- C13 witness: texture 7 drawn into the renderer-mode rect (5,6,7,8), and `update()`
on the surface-mode rect (1,2,3,4), whose colour is (0,0,0). -/
theorem paint_in_documented_mode_witness :
    ((rect.construct renderApp 5 6 7 8).surface = false ∧
      (rect.construct renderApp 5 6 7 8).data.rect
        = .ofFRect ⟨F32.ofInt 5, F32.ofInt 6, F32.ofInt 7, F32.ofInt 8⟩ ∧
      (rect.construct renderApp 5 6 7 8).fillTexture ⟨7⟩ .SDL_FLIP_HORIZONTAL
          ⟨F32.ofInt 1, F32.ofInt 2⟩
        = .ok (rect.construct renderApp 5 6 7 8,
            [.renderTextureRotated (some 1) 7
              ⟨F32.ofInt 5, F32.ofInt 6, F32.ofInt 7, F32.ofInt 8⟩
              ⟨F32.ofInt 1, F32.ofInt 2⟩ .SDL_FLIP_HORIZONTAL]) ∧
      (rect.construct renderApp 5 6 7 8).fillText ⟨7⟩
        = .ok (rect.construct renderApp 5 6 7 8,
            [.renderTexture (some 1) 7
              ⟨F32.ofInt 5, F32.ofInt 6, F32.ofInt 7, F32.ofInt 8⟩])) ∧
    ((rect.construct surfaceApp 1 2 3 4).surface = true ∧
      (rect.construct surfaceApp 1 2 3 4).data.rect = .ofRect ⟨1, 2, 3, 4⟩ ∧
      (rect.construct surfaceApp 1 2 3 4).update
        = .ok (rect.construct surfaceApp 1 2 3 4,
            [.fillSurfaceRect (some 1) ⟨1, 2, 3, 4⟩ 0 0 0])) :=
  ⟨⟨rfl, rfl,
    (paint_in_documented_mode.1 (rect.construct renderApp 5 6 7 8)
      ⟨F32.ofInt 5, F32.ofInt 6, F32.ofInt 7, F32.ofInt 8⟩ ⟨7⟩ .SDL_FLIP_HORIZONTAL
      ⟨F32.ofInt 1, F32.ofInt 2⟩ rfl rfl).1,
    (paint_in_documented_mode.1 (rect.construct renderApp 5 6 7 8)
      ⟨F32.ofInt 5, F32.ofInt 6, F32.ofInt 7, F32.ofInt 8⟩ ⟨7⟩ .SDL_FLIP_HORIZONTAL
      ⟨F32.ofInt 1, F32.ofInt 2⟩ rfl rfl).2⟩,
   ⟨rfl, rfl,
    paint_in_documented_mode.2 (rect.construct surfaceApp 1 2 3 4) ⟨1, 2, 3, 4⟩ rfl rfl⟩⟩

/-! ## Per-field operations -/

/-- C14: on a surface-mode rect, for every `d`, negative values included, `addX(d)`
returns normally and `getX()` then returns the old `x` plus `d`, and `subX(d)` returns
normally and `getX()` then returns the old `x` minus `d`, both reduced to 32 bits; the
same holds for `addY/subY` on `y`, `addWidth/subWidth` on `w` and `addHeight/subHeight`
on `h`.  The reduction `wrap32` yields the `int` congruent to its argument modulo 2^32,
which is the argument itself when that fits in 32 bits. -/
theorem adjusters_read_modify_write :
    (∀ (r : rect) (g : SDL_Rect) (d : Int), r.surface = true → r.data.rect = .ofRect g →
      (r.getX = .ok g.x ∧ r.getY = .ok g.y ∧ r.getWidth = .ok g.w ∧
        r.getHeight = .ok g.h) ∧
      (∃ r1, r.addX d = .ok r1 ∧ r1.getX = .ok (wrap32 (g.x + d))) ∧
      (∃ r1, r.subX d = .ok r1 ∧ r1.getX = .ok (wrap32 (g.x - d))) ∧
      (∃ r1, r.addY d = .ok r1 ∧ r1.getY = .ok (wrap32 (g.y + d))) ∧
      (∃ r1, r.subY d = .ok r1 ∧ r1.getY = .ok (wrap32 (g.y - d))) ∧
      (∃ r1, r.addWidth d = .ok r1 ∧ r1.getWidth = .ok (wrap32 (g.w + d))) ∧
      (∃ r1, r.subWidth d = .ok r1 ∧ r1.getWidth = .ok (wrap32 (g.w - d))) ∧
      (∃ r1, r.addHeight d = .ok r1 ∧ r1.getHeight = .ok (wrap32 (g.h + d))) ∧
      (∃ r1, r.subHeight d = .ok r1 ∧ r1.getHeight = .ok (wrap32 (g.h - d)))) ∧
    (∀ v : Int, isInt32 (wrap32 v) ∧ (wrap32 v - v) % 4294967296 = 0 ∧
      (isInt32 v → wrap32 v = v)) := by
  refine ⟨?_, wrap32_spec⟩
  intro r g d hs hg
  obtain ⟨s, ⟨v, c⟩, p⟩ := r
  obtain ⟨gx, gy, gw, gh⟩ := g
  simp only at hs hg
  subst hs hg
  exact ⟨⟨rfl, rfl, rfl, rfl⟩, ⟨_, rfl, rfl⟩, ⟨_, rfl, rfl⟩, ⟨_, rfl, rfl⟩, ⟨_, rfl, rfl⟩,
    ⟨_, rfl, rfl⟩, ⟨_, rfl, rfl⟩, ⟨_, rfl, rfl⟩, ⟨_, rfl, rfl⟩⟩

/-- C14 witness: on the surface-mode rect (2147483647,-5,3,4), `addX(1)` wraps to
-2147483648, `subY(-7)` gives 2 and `addHeight(-10)` gives -6. -/
theorem adjusters_read_modify_write_witness :
    (rect.construct surfaceApp 2147483647 (-5) 3 4).surface = true ∧
    (rect.construct surfaceApp 2147483647 (-5) 3 4).data.rect
      = .ofRect ⟨2147483647, -5, 3, 4⟩ ∧
    Except.bind ((rect.construct surfaceApp 2147483647 (-5) 3 4).addX 1) rect.getX
      = .ok (-2147483648) ∧
    Except.bind ((rect.construct surfaceApp 2147483647 (-5) 3 4).subY (-7)) rect.getY
      = .ok 2 ∧
    Except.bind ((rect.construct surfaceApp 2147483647 (-5) 3 4).addHeight (-10))
      rect.getHeight = .ok (-6) := by
  refine ⟨rfl, rfl, ?_, ?_, ?_⟩
  · obtain ⟨r1, h1, h2⟩ := (adjusters_read_modify_write.1
      (rect.construct surfaceApp 2147483647 (-5) 3 4) ⟨2147483647, -5, 3, 4⟩ 1 rfl rfl).2.1
    rw [h1]
    exact h2
  · obtain ⟨r1, h1, h2⟩ := (adjusters_read_modify_write.1
      (rect.construct surfaceApp 2147483647 (-5) 3 4) ⟨2147483647, -5, 3, 4⟩ (-7) rfl
      rfl).2.2.2.2.1
    rw [h1]
    exact h2
  · obtain ⟨r1, h1, h2⟩ := (adjusters_read_modify_write.1
      (rect.construct surfaceApp 2147483647 (-5) 3 4) ⟨2147483647, -5, 3, 4⟩ (-10) rfl
      rfl).2.2.2.2.2.2.2.1
    rw [h1]
    exact h2

/-- C15 counterexample: on the renderer-mode rect (1,2,3,4), `setPosition(16777217, 5)`
leaves `x` holding 16777216, not the argument, and `setSize(6, -16777219)` leaves `h`
holding -16777220. -/
theorem setPosition_float_inexact :
    (rect.construct renderApp 1 2 3 4).surface = false ∧
    ((rect.construct renderApp 1 2 3 4).setPosition 16777217 5).map (fun r => r.data.rect)
      = .ok (.ofFRect ⟨⟨16777216 * 2 ^ 149⟩, ⟨5 * 2 ^ 149⟩, ⟨3 * 2 ^ 149⟩, ⟨4 * 2 ^ 149⟩⟩) ∧
    Except.bind ((rect.construct renderApp 1 2 3 4).setPosition 16777217 5) rect.getX
      = .ok 16777216 ∧
    ((rect.construct renderApp 1 2 3 4).setSize 6 (-16777219)).map (fun r => r.data.rect)
      = .ok (.ofFRect ⟨⟨1 * 2 ^ 149⟩, ⟨2 * 2 ^ 149⟩, ⟨6 * 2 ^ 149⟩,
          ⟨-16777220 * 2 ^ 149⟩⟩) ∧
    Except.bind ((rect.construct renderApp 1 2 3 4).setSize 6 (-16777219)) rect.getHeight
      = .ok (-16777220) := by
  decide

/-- C15, amended: a per-field operation returns normally and writes only the named
field, in either mode, leaving the other fields of the geometry record, the colour, the
mode flag and the application as they were: `setX/addX/subX` write `x` alone,
`setY/addY/subY` write `y` alone, `setWidth/addWidth/subWidth` write `w` alone,
`setHeight/addHeight/subHeight` write `h` alone, `setPosition(x, y)` writes `x` and `y`
and leaves `w` and `h`, and `setSize(w, h)` writes `w` and `h` and leaves `x` and `y`.
In surface mode `setPosition` and `setSize` set the fields to the arguments; in renderer
mode they set them to the arguments converted to `float`, that is rounded to a nearest
number of 24 significant bits, which is the argument itself exactly when the argument
has at most 24 significant bits, as every integer of magnitude at most 2^24 = 16777216
has. -/
theorem per_field_operations_frame :
    (∀ (r : rect) (g : SDL_Rect) (v v2 : Int), r.surface = true → r.data.rect = .ofRect g →
      r.setX v = .ok { r with data := { r.data with rect := .ofRect { g with x := v } } } ∧
      r.setY v = .ok { r with data := { r.data with rect := .ofRect { g with y := v } } } ∧
      r.setWidth v = .ok { r with data := { r.data with rect := .ofRect { g with w := v } } } ∧
      r.setHeight v = .ok { r with data := { r.data with rect := .ofRect { g with h := v } } } ∧
      r.addX v
        = .ok { r with data := { r.data with rect := .ofRect { g with x := wrap32 (g.x + v) } } } ∧
      r.subX v
        = .ok { r with data := { r.data with rect := .ofRect { g with x := wrap32 (g.x - v) } } } ∧
      r.addY v
        = .ok { r with data := { r.data with rect := .ofRect { g with y := wrap32 (g.y + v) } } } ∧
      r.subY v
        = .ok { r with data := { r.data with rect := .ofRect { g with y := wrap32 (g.y - v) } } } ∧
      r.addWidth v
        = .ok { r with data := { r.data with rect := .ofRect { g with w := wrap32 (g.w + v) } } } ∧
      r.subWidth v
        = .ok { r with data := { r.data with rect := .ofRect { g with w := wrap32 (g.w - v) } } } ∧
      r.addHeight v
        = .ok { r with data := { r.data with rect := .ofRect { g with h := wrap32 (g.h + v) } } } ∧
      r.subHeight v
        = .ok { r with data := { r.data with rect := .ofRect { g with h := wrap32 (g.h - v) } } } ∧
      r.setPosition v v2
        = .ok { r with data := { r.data with rect := .ofRect { g with x := v, y := v2 } } } ∧
      r.setSize v v2
        = .ok { r with data := { r.data with rect := .ofRect { g with w := v, h := v2 } } }) ∧
    (∀ (r : rect) (g : SDL_FRect) (v v2 : Int), r.surface = false → r.data.rect = .ofFRect g →
      r.setX v
        = .ok { r with data := { r.data with rect := .ofFRect { g with x := F32.ofInt v } } } ∧
      r.setY v
        = .ok { r with data := { r.data with rect := .ofFRect { g with y := F32.ofInt v } } } ∧
      r.setWidth v
        = .ok { r with data := { r.data with rect := .ofFRect { g with w := F32.ofInt v } } } ∧
      r.setHeight v
        = .ok { r with data := { r.data with rect := .ofFRect { g with h := F32.ofInt v } } } ∧
      r.addX v
        = .ok { r with data :=
            { r.data with rect := .ofFRect { g with x := F32.add g.x (F32.ofInt v) } } } ∧
      r.subX v
        = .ok { r with data :=
            { r.data with rect := .ofFRect { g with x := F32.sub g.x (F32.ofInt v) } } } ∧
      r.addY v
        = .ok { r with data :=
            { r.data with rect := .ofFRect { g with y := F32.add g.y (F32.ofInt v) } } } ∧
      r.subY v
        = .ok { r with data :=
            { r.data with rect := .ofFRect { g with y := F32.sub g.y (F32.ofInt v) } } } ∧
      r.addWidth v
        = .ok { r with data :=
            { r.data with rect := .ofFRect { g with w := F32.add g.w (F32.ofInt v) } } } ∧
      r.subWidth v
        = .ok { r with data :=
            { r.data with rect := .ofFRect { g with w := F32.sub g.w (F32.ofInt v) } } } ∧
      r.addHeight v
        = .ok { r with data :=
            { r.data with rect := .ofFRect { g with h := F32.add g.h (F32.ofInt v) } } } ∧
      r.subHeight v
        = .ok { r with data :=
            { r.data with rect := .ofFRect { g with h := F32.sub g.h (F32.ofInt v) } } } ∧
      r.setPosition v v2
        = .ok { r with data :=
            { r.data with rect := .ofFRect { g with x := F32.ofInt v, y := F32.ofInt v2 } } } ∧
      r.setSize v v2
        = .ok { r with data :=
            { r.data with rect := .ofFRect { g with w := F32.ofInt v, h := F32.ofInt v2 } } }) ∧
    (∀ v : Int, nearest24 (v * F32.one_units) (F32.ofInt v).units ∧
      ((F32.ofInt v).units = v * F32.one_units ↔ has24Bits v) ∧
      (F32.smallInt v → has24Bits v)) ∧
    ((F32.ofInt 16777217).units = 16777216 * F32.one_units ∧
      (F32.ofInt (-16777219)).units = -16777220 * F32.one_units ∧
      (F32.ofInt 33554432).units = 33554432 * F32.one_units) := by
  refine ⟨?_, ?_, ?_, by decide⟩
  · intro r g v v2 hs hg
    obtain ⟨s, ⟨vv, c⟩, p⟩ := r
    simp only at hs hg
    subst hs hg
    exact ⟨rfl, rfl, rfl, rfl, rfl, rfl, rfl, rfl, rfl, rfl, rfl, rfl, rfl, rfl⟩
  · intro r g v v2 hs hg
    obtain ⟨s, ⟨vv, c⟩, p⟩ := r
    simp only at hs hg
    subst hs hg
    exact ⟨rfl, rfl, rfl, rfl, rfl, rfl, rfl, rfl, rfl, rfl, rfl, rfl, rfl, rfl⟩
  · intro v
    refine ⟨F32.ofInt_nearest24 v, ?_, ?_⟩
    · rw [F32.ofInt_units_eq_iff]
      exact (has24Bits_iff_fixed v).symm
    · intro hv
      exact (has24Bits_iff_fixed v).mpr (F32.exactInt_of_smallInt hv).2

/-- C15 witness: on the surface-mode rect (1,2,3,4), `addWidth(5)` gives (1,2,8,4) and
`setPosition(-7, 9)` gives (-7,9,3,4); on the renderer-mode rect (1,2,3,4), `subY(2)`
gives (1,0,3,4) and `setSize(-6, 0)` gives (1,2,-6,0); the integer -16777216 has at most
24 significant bits. -/
theorem per_field_operations_frame_witness :
    ((rect.construct surfaceApp 1 2 3 4).surface = true ∧
      (rect.construct surfaceApp 1 2 3 4).data.rect = .ofRect ⟨1, 2, 3, 4⟩ ∧
      (rect.construct surfaceApp 1 2 3 4).addWidth 5 = .ok (rect.construct surfaceApp 1 2 8 4) ∧
      (rect.construct surfaceApp 1 2 3 4).setPosition (-7) 9
        = .ok (rect.construct surfaceApp (-7) 9 3 4)) ∧
    ((rect.construct renderApp 1 2 3 4).surface = false ∧
      (rect.construct renderApp 1 2 3 4).data.rect
        = .ofFRect ⟨F32.ofInt 1, F32.ofInt 2, F32.ofInt 3, F32.ofInt 4⟩ ∧
      (rect.construct renderApp 1 2 3 4).subY 2 = .ok (rect.construct renderApp 1 0 3 4) ∧
      (rect.construct renderApp 1 2 3 4).setSize (-6) 0
        = .ok (rect.construct renderApp 1 2 (-6) 0)) ∧
    (F32.smallInt (-16777216) ∧ has24Bits (-16777216) ∧
      (F32.ofInt (-16777216)).units = -16777216 * F32.one_units) :=
  ⟨⟨rfl, rfl,
    (per_field_operations_frame.1 (rect.construct surfaceApp 1 2 3 4) ⟨1, 2, 3, 4⟩ 5 0
      rfl rfl).2.2.2.2.2.2.2.2.1,
    (per_field_operations_frame.1 (rect.construct surfaceApp 1 2 3 4) ⟨1, 2, 3, 4⟩ (-7) 9
      rfl rfl).2.2.2.2.2.2.2.2.2.2.2.2.1⟩,
   ⟨rfl, rfl,
    ((per_field_operations_frame.2.1 (rect.construct renderApp 1 2 3 4)
      ⟨F32.ofInt 1, F32.ofInt 2, F32.ofInt 3, F32.ofInt 4⟩ 2 0
      rfl rfl).2.2.2.2.2.2.2.1).trans (by decide),
    (per_field_operations_frame.2.1 (rect.construct renderApp 1 2 3 4)
      ⟨F32.ofInt 1, F32.ofInt 2, F32.ofInt 3, F32.ofInt 4⟩ (-6) 0
      rfl rfl).2.2.2.2.2.2.2.2.2.2.2.2.2⟩,
   ⟨by decide, (per_field_operations_frame.2.2.1 (-16777216)).2.2 (by decide),
    (per_field_operations_frame.2.2.1 (-16777216)).2.1.mpr
      ((per_field_operations_frame.2.2.1 (-16777216)).2.2 (by decide))⟩⟩

/-! ## Repeated `fill` -/

theorem pad_to_zero (fill : Char) (left : Bool) (s : String) : pad_to 0 fill left s = s := by
  cases left <;> simp [pad_to]

theorem operator_insert_int {os : ostream} {r : rect} {g : SDL_Rect}
    (hs : r.surface = true) (hg : r.data.rect = .ofRect g) (hgood : os.good = true) :
    r.operator_insert os = .ok { os with
      text := os.text ++ (pad_to os.width os.fill os.left "Rect(x: " ++ os.put_int 0 g.x ++
        ", y: " ++ os.put_int 0 g.y ++ ", w: " ++ os.put_int 0 g.w ++
        ", h: " ++ os.put_int 0 g.h ++
        ", r: " ++ os.put_int 0 (r.data.color.r.val : Int) ++
        ", g: " ++ os.put_int 0 (r.data.color.g.val : Int) ++
        ", b: " ++ os.put_int 0 (r.data.color.b.val : Int) ++ ")"),
      width := 0 } := by
  obtain ⟨s, ⟨v, c⟩, p⟩ := r
  obtain ⟨t, gd, w, f, l, pi, pf⟩ := os
  simp only at hs hg hgood
  subst hs hg hgood
  simp only [rect.operator_insert, get_SDL_Rect, ostream.insert, ostream.insert_int,
    ostream.write, pad_to_zero, if_true, bind, Except.bind, pure, Except.pure,
    String.append_assoc]

/-- C17 counterexample: after `os << std::hex` on a stream in its initial state, the
surface-mode rect (10,-1,3,4) with colour (255,0,16) is written as
`Rect(x: a, y: ffffffff, w: 3, h: 4, r: ff, g: 0, b: 10)`; with the field width set to
12 on a stream in its initial state it is written with four blanks in front; and
nothing is written to a stream that is not in the good state. -/
theorem operator_insert_hex_text :
    ((rect.operator_insert (ostream.initial "" (fun _ _ => "")).hex
        ⟨true, ⟨.ofRect ⟨10, -1, 3, 4⟩, ⟨255, 0, 16⟩⟩, surfaceApp⟩).map ostream.text
      = .ok "Rect(x: a, y: ffffffff, w: 3, h: 4, r: ff, g: 0, b: 10)") ∧
    ((rect.operator_insert { ostream.initial "" (fun _ _ => "") with width := 12 }
        ⟨true, ⟨.ofRect ⟨10, -1, 3, 4⟩, ⟨255, 0, 16⟩⟩, surfaceApp⟩).map ostream.text
      = .ok "    Rect(x: 10, y: -1, w: 3, h: 4, r: 255, g: 0, b: 16)") ∧
    ((rect.operator_insert { ostream.initial "" (fun _ _ => "") with good := false }
        ⟨true, ⟨.ofRect ⟨10, -1, 3, 4⟩, ⟨255, 0, 16⟩⟩, surfaceApp⟩).map ostream.text
      = .ok "") := by
  decide

/-- C17, amended: for a surface-mode rect with geometry `(x, y, w, h)` and colour
`(r, g, b)` and a stream in the good state, the output operator returns normally and
appends to the stream the text `Rect(x: X, y: Y, w: W, h: H, r: R, g: G, b: B)`, where
the leading `Rect(x: ` is padded to the field width of the stream, `X, Y, W, H` are the
renderings of the stored signed integers and `R, G, B` the renderings of the channels
as numbers in 0..255, each as the stream formats an `int` at field width 0.  When the
field width of the stream is 0 and the stream formats integers in decimal, as a stream
in its initial state does, this is exactly the text with the decimal renderings; so the
rect (1,-2,3,4) with colour (10,20,255) prints as
`Rect(x: 1, y: -2, w: 3, h: 4, r: 10, g: 20, b: 255)`. -/
theorem operator_insert_int_text :
    (∀ (os : ostream) (r : rect) (g : SDL_Rect),
      r.surface = true → r.data.rect = .ofRect g → os.good = true →
      r.operator_insert os = .ok { os with
        text := os.text ++ (pad_to os.width os.fill os.left "Rect(x: " ++
          os.put_int 0 g.x ++ ", y: " ++ os.put_int 0 g.y ++
          ", w: " ++ os.put_int 0 g.w ++ ", h: " ++ os.put_int 0 g.h ++
          ", r: " ++ os.put_int 0 (r.data.color.r.val : Int) ++
          ", g: " ++ os.put_int 0 (r.data.color.g.val : Int) ++
          ", b: " ++ os.put_int 0 (r.data.color.b.val : Int) ++ ")"),
        width := 0 }) ∧
    (∀ (os : ostream) (r : rect) (g : SDL_Rect),
      r.surface = true → r.data.rect = .ofRect g → os.good = true →
      os.width = 0 → (∀ v : Int, os.put_int 0 v = ostream_int v) →
      ∃ os1, r.operator_insert os = .ok os1 ∧
        os1.text = os.text ++
          ("Rect(x: " ++ ostream_int g.x ++ ", y: " ++ ostream_int g.y ++
            ", w: " ++ ostream_int g.w ++ ", h: " ++ ostream_int g.h ++
            ", r: " ++ ostream_int (r.data.color.r.val : Int) ++
            ", g: " ++ ostream_int (r.data.color.g.val : Int) ++
            ", b: " ++ ostream_int (r.data.color.b.val : Int) ++ ")")) ∧
    (∀ (text : String) (put_float : Nat → F32 → String),
      (ostream.initial text put_float).good = true ∧
      (ostream.initial text put_float).width = 0 ∧
      ∀ v : Int, (ostream.initial text put_float).put_int 0 v = ostream_int v) ∧
    (∀ r : rect, (0 : Int) ≤ (r.data.color.r.val : Int) ∧ (r.data.color.r.val : Int) ≤ 255 ∧
      (0 : Int) ≤ (r.data.color.g.val : Int) ∧ (r.data.color.g.val : Int) ≤ 255 ∧
      (0 : Int) ≤ (r.data.color.b.val : Int) ∧ (r.data.color.b.val : Int) ≤ 255) ∧
    (ostream_int 0 = "0" ∧ ostream_int 255 = "255" ∧ ostream_int (-7) = "-7" ∧
      ostream_int 2147483647 = "2147483647" ∧ ostream_int (-2147483648) = "-2147483648") ∧
    (∀ put_float : Nat → F32 → String,
      (rect.operator_insert (ostream.initial "" put_float)
          ⟨true, ⟨.ofRect ⟨1, -2, 3, 4⟩, ⟨10, 20, 255⟩⟩, surfaceApp⟩).map ostream.text
        = .ok "Rect(x: 1, y: -2, w: 3, h: 4, r: 10, g: 20, b: 255)") := by
  refine ⟨fun os r g hs hg hgood => operator_insert_int hs hg hgood, ?_, ?_, ?_, by decide,
    ?_⟩
  · intro os r g hs hg hgood hw hput
    refine ⟨_, operator_insert_int hs hg hgood, ?_⟩
    simp only [hw, hput, pad_to_zero]
  · intro text put_float
    exact ⟨rfl, rfl, fun v => pad_to_zero ' ' false (ostream_int v)⟩
  · intro r
    have h1 := r.data.color.r.isLt
    have h2 := r.data.color.g.isLt
    have h3 := r.data.color.b.isLt
    omega
  · intro put_float
    rw [operator_insert_int (g := ⟨1, -2, 3, 4⟩) rfl rfl rfl]
    simp only [Except.map, ostream.initial, pad_to_zero]
    decide

/-- C17 witness: the surface-mode rect (-5,0,640,480) as constructed, colour (0,0,0),
written to a stream in its initial state after the text `at `. -/
theorem operator_insert_int_text_witness :
    (rect.construct surfaceApp (-5) 0 640 480).surface = true ∧
    (rect.construct surfaceApp (-5) 0 640 480).data.rect = .ofRect ⟨-5, 0, 640, 480⟩ ∧
    (ostream.initial "at " (fun _ _ => "")).good = true ∧
    (ostream.initial "at " (fun _ _ => "")).width = 0 ∧
    (∀ v : Int, (ostream.initial "at " (fun _ _ => "")).put_int 0 v = ostream_int v) ∧
    ∃ os1, (rect.construct surfaceApp (-5) 0 640 480).operator_insert
        (ostream.initial "at " (fun _ _ => "")) = .ok os1 ∧
      os1.text = "at Rect(x: -5, y: 0, w: 640, h: 480, r: 0, g: 0, b: 0)" := by
  refine ⟨rfl, rfl, rfl, rfl, (operator_insert_int_text.2.2.1 "at " (fun _ _ => "")).2.2, ?_⟩
  obtain ⟨os1, h1, h2⟩ := operator_insert_int_text.2.1 (ostream.initial "at " (fun _ _ => ""))
    (rect.construct surfaceApp (-5) 0 640 480) ⟨-5, 0, 640, 480⟩ rfl rfl rfl rfl
    (operator_insert_int_text.2.2.1 "at " (fun _ _ => "")).2.2
  exact ⟨os1, h1, h2.trans (by decide)⟩

/-! ## Symmetry and the cell reading of `onTouch` -/

/-- C18: for rects of the same mode, whatever the signs of their sizes, `a.onTouch(b)`
and `b.onTouch(a)` return the same result. -/
theorem onTouch_symmetric :
    ∀ a b : rect, a.wellFormed → b.wellFormed → a.surface = b.surface →
      a.onTouch b = b.onTouch a := by
  intro a b ha hb hm
  rcases wellFormed_cases ha with ⟨hsa, ga, hga⟩ | ⟨hsa, ga, hga⟩
  · have hsb : b.surface = true := hm ▸ hsa
    obtain ⟨gb, hgb⟩ := wellFormed_int hb hsb
    rw [onTouch_int hsa hga hgb, onTouch_int hsb hgb hga]
    congr 1
    rw [decide_eq_decide]
    omega
  · have hsb : b.surface = false := hm ▸ hsa
    obtain ⟨gb, hgb⟩ := wellFormed_float hb hsb
    rw [onTouch_float hsa hga hgb, onTouch_float hsb hgb hga]
    congr 1
    rw [decide_eq_decide]
    simp only [F32.lt_def, gt_iff_lt]
    omega

/-- C18 witness: the surface-mode rects (0,0,10,10) and (5,-3,-2,20), and the
renderer-mode rects (0,0,10,10) and (9,9,1,1). -/
theorem onTouch_symmetric_witness :
    ((rect.construct surfaceApp 0 0 10 10).wellFormed ∧
      (rect.construct surfaceApp 5 (-3) (-2) 20).wellFormed ∧
      (rect.construct surfaceApp 0 0 10 10).surface
        = (rect.construct surfaceApp 5 (-3) (-2) 20).surface ∧
      (rect.construct surfaceApp 0 0 10 10).onTouch (rect.construct surfaceApp 5 (-3) (-2) 20)
        = (rect.construct surfaceApp 5 (-3) (-2) 20).onTouch
            (rect.construct surfaceApp 0 0 10 10)) ∧
    ((rect.construct renderApp 0 0 10 10).wellFormed ∧
      (rect.construct renderApp 9 9 1 1).wellFormed ∧
      (rect.construct renderApp 0 0 10 10).surface = (rect.construct renderApp 9 9 1 1).surface ∧
      (rect.construct renderApp 0 0 10 10).onTouch (rect.construct renderApp 9 9 1 1)
        = (rect.construct renderApp 9 9 1 1).onTouch (rect.construct renderApp 0 0 10 10)) :=
  ⟨⟨by decide, by decide, rfl,
    onTouch_symmetric (rect.construct surfaceApp 0 0 10 10)
      (rect.construct surfaceApp 5 (-3) (-2) 20) (by decide) (by decide) rfl⟩,
   ⟨by decide, by decide, rfl,
    onTouch_symmetric (rect.construct renderApp 0 0 10 10)
      (rect.construct renderApp 9 9 1 1) (by decide) (by decide) rfl⟩⟩

/-- C19: for surface-mode rects `a` and `b` with strictly positive width and height and
no 32-bit overflow in `x + w` or `y + h`, `a.onTouch(b)` returns normally, and returns
true exactly when the two rects share a unit cell: there are integers `px, py` with
`a.x <= px < a.x + a.w`, `b.x <= px < b.x + b.w`, `a.y <= py < a.y + a.h` and
`b.y <= py < b.y + b.h`. -/
theorem onTouch_iff_shared_cell :
    ∀ (a b : rect) (ra rb : SDL_Rect), a.surface = true → a.data.rect = .ofRect ra →
      b.data.rect = .ofRect rb →
      0 < ra.w → 0 < ra.h → 0 < rb.w → 0 < rb.h →
      isInt32 (ra.x + ra.w) → isInt32 (ra.y + ra.h) →
      isInt32 (rb.x + rb.w) → isInt32 (rb.y + rb.h) →
      (∃ t, a.onTouch b = .ok t) ∧
      (a.onTouch b = .ok true ↔
        ∃ px py : Int, (ra.x ≤ px ∧ px < ra.x + ra.w) ∧ (rb.x ≤ px ∧ px < rb.x + rb.w) ∧
          (ra.y ≤ py ∧ py < ra.y + ra.h) ∧ (rb.y ≤ py ∧ py < rb.y + rb.h)) := by
  intro a b ra rb hs ha hb haw hah hbw hbh hax hay hbx hby
  rw [onTouch_int hs ha hb, wrap32_of_isInt32 hax, wrap32_of_isInt32 hay,
    wrap32_of_isInt32 hbx, wrap32_of_isInt32 hby]
  refine ⟨⟨_, rfl⟩, ?_⟩
  simp only [Except.ok.injEq, decide_eq_true_eq]
  constructor
  · rintro ⟨h1, h2, h3, h4⟩
    refine ⟨max ra.x rb.x, max ra.y rb.y, ?_⟩
    have m1 := le_max_left ra.x rb.x
    have m2 := le_max_right ra.x rb.x
    have m3 := le_max_left ra.y rb.y
    have m4 := le_max_right ra.y rb.y
    rcases max_choice ra.x rb.x with e1 | e1 <;> rcases max_choice ra.y rb.y with e2 | e2 <;>
      rw [e1, e2] <;> rw [e1] at m1 m2 <;> rw [e2] at m3 m4 <;> omega
  · rintro ⟨px, py, h1, h2, h3, h4⟩
    omega

/-- C19 witness: the surface-mode rects (0,0,10,10) and (9,9,5,5), which share the cell
(9,9). -/
theorem onTouch_iff_shared_cell_witness :
    (rect.construct surfaceApp 0 0 10 10).surface = true ∧
    (rect.construct surfaceApp 0 0 10 10).data.rect = .ofRect ⟨0, 0, 10, 10⟩ ∧
    (rect.construct surfaceApp 9 9 5 5).data.rect = .ofRect ⟨9, 9, 5, 5⟩ ∧
    ((0 : Int) < 10 ∧ (0 : Int) < 5) ∧
    (isInt32 (0 + 10) ∧ isInt32 (9 + 5)) ∧
    (((0 : Int) ≤ 9 ∧ (9 : Int) < 0 + 10) ∧ ((9 : Int) ≤ 9 ∧ (9 : Int) < 9 + 5)) ∧
    (rect.construct surfaceApp 0 0 10 10).onTouch (rect.construct surfaceApp 9 9 5 5)
      = .ok true :=
  ⟨rfl, rfl, rfl, by decide, by decide, by decide,
    (onTouch_iff_shared_cell (rect.construct surfaceApp 0 0 10 10)
      (rect.construct surfaceApp 9 9 5 5) ⟨0, 0, 10, 10⟩ ⟨9, 9, 5, 5⟩ rfl rfl rfl
      (by decide) (by decide) (by decide) (by decide)
      (by decide) (by decide) (by decide) (by decide)).2.mpr
      ⟨9, 9, by decide, by decide, by decide, by decide⟩⟩

/-- C20: for a surface-mode rect `a` with no 32-bit overflow in `x + w` or `y + h`,
`a.onTouch(a)` returns normally, and returns true exactly when the stored width and
height are both strictly positive. -/
theorem onTouch_self_iff_positive :
    ∀ (a : rect) (ra : SDL_Rect), a.surface = true → a.data.rect = .ofRect ra →
      isInt32 (ra.x + ra.w) → isInt32 (ra.y + ra.h) →
      a.onTouch a = .ok (decide (0 < ra.w ∧ 0 < ra.h)) ∧
      (a.onTouch a = .ok true ↔ (0 < ra.w ∧ 0 < ra.h)) := by
  intro a ra hs ha hax hay
  rw [onTouch_int hs ha ha, wrap32_of_isInt32 hax, wrap32_of_isInt32 hay]
  have e : decide (ra.x < ra.x + ra.w ∧ ra.x + ra.w > ra.x ∧ ra.y < ra.y + ra.h ∧
      ra.y + ra.h > ra.y) = decide (0 < ra.w ∧ 0 < ra.h) := by
    rw [decide_eq_decide]
    omega
  rw [e]
  exact ⟨rfl, by simp⟩

/-- C20 witness: the surface-mode rect (3,4,5,6) touches itself, and the rects (3,4,0,6)
and (3,4,5,-6) do not. -/
theorem onTouch_self_iff_positive_witness :
    ((rect.construct surfaceApp 3 4 5 6).surface = true ∧
      (rect.construct surfaceApp 3 4 5 6).data.rect = .ofRect ⟨3, 4, 5, 6⟩ ∧
      isInt32 (3 + 5) ∧ isInt32 (4 + 6) ∧
      (rect.construct surfaceApp 3 4 5 6).onTouch (rect.construct surfaceApp 3 4 5 6)
        = .ok true) ∧
    ((rect.construct surfaceApp 3 4 0 6).data.rect = .ofRect ⟨3, 4, 0, 6⟩ ∧
      isInt32 (3 + 0) ∧ isInt32 (4 + 6) ∧
      (rect.construct surfaceApp 3 4 0 6).onTouch (rect.construct surfaceApp 3 4 0 6)
        = .ok false) ∧
    ((rect.construct surfaceApp 3 4 5 (-6)).data.rect = .ofRect ⟨3, 4, 5, -6⟩ ∧
      isInt32 (3 + 5) ∧ isInt32 (4 + -6) ∧
      (rect.construct surfaceApp 3 4 5 (-6)).onTouch (rect.construct surfaceApp 3 4 5 (-6))
        = .ok false) :=
  ⟨⟨rfl, rfl, by decide, by decide,
    (onTouch_self_iff_positive (rect.construct surfaceApp 3 4 5 6) ⟨3, 4, 5, 6⟩ rfl rfl
      (by decide) (by decide)).1⟩,
   ⟨rfl, by decide, by decide,
    (onTouch_self_iff_positive (rect.construct surfaceApp 3 4 0 6) ⟨3, 4, 0, 6⟩ rfl rfl
      (by decide) (by decide)).1⟩,
   ⟨rfl, by decide, by decide,
    (onTouch_self_iff_positive (rect.construct surfaceApp 3 4 5 (-6)) ⟨3, 4, 5, -6⟩ rfl rfl
      (by decide) (by decide)).1⟩⟩

end InSDL
